import Mathlib

/-!
# Stronghold: a shallow embedding of the kingdom simulation

The definitions below follow `src/Stronghold.cpp` and `src/Stronghold.h`
function by function.

Conventions of the embedding:

* a C++ `int` is an `Int`; signed overflow is undefined behaviour in C++, so
  the embedding describes the executions in which no `int` operation
  overflows (exact integer arithmetic);
* a C++ `double` is held as a rational number (`ℚ`), which stands for the
  `double` nearest to it. Where only a `double` is computed and stored (the
  clamped updates of happiness, morale, inflation and prices), sums and
  products are taken exactly. Where the source converts the result of
  `double` arithmetic to an `int` or compares it with an `int`, so that its
  last digit matters, every operation of that function is the IEEE 754
  binary64 one (`Double.mul`, `Double.add`, `Double.sub`, `Double.lt`). The
  two exceptions are `debt * 0.1` in `Economy::updateEconomy` and the shares
  of the plague, where the truncated result is the same either way;
* `static_cast<int>(x)` is truncation toward zero (`toInt`);
* a method that mutates `*this` and objects passed by reference returns the
  new values of all of them, next to the C++ return value;
* console output is dropped.
-/

-- Generated code copies a structure on every update (the in-place update of nested
-- structures is unreliable for `#eval` in Lean 4.14); this has no effect on the proofs.
set_option compiler.reuse false

-- Evaluating the binary64 arithmetic on concrete numbers needs a deeper recursion.
set_option maxRecDepth 1000000

namespace Stronghold

/-- Conversion `static_cast<int>(x)` of a `double` to an `int`: the fractional part is
discarded (truncation toward zero). -/
def toInt (x : ℚ) : Int :=
  if 0 ≤ x then ⌊x⌋ else ⌈x⌉

/-! ## Arithmetic of `double`

A `double` is held as a rational number. Where the source converts the result of `double`
arithmetic to an `int`, or compares it with an `int`, the last digit of each intermediate
result matters, and the arithmetic is the one of IEEE 754 binary64 (53 significant bits,
round to nearest, ties to even, gradual underflow): every operand stands for the `double`
nearest to it and every operation returns the `double` nearest to its exact result. Results
beyond the largest finite `double` are not modelled (the exponent has no upper bound here).
-/

namespace Double

/-- The number of binary digits of `n` minus one (0 for `n < 2`); `fuel` bounds the
recursion. -/
def log2Aux : Nat → Nat → Nat
  | 0, _ => 0
  | fuel + 1, n => if n < 2 then 0 else log2Aux fuel (n / 2) + 1

/-- The integer `L` with `2^L <= |x| < 2^(L+1)`, for `x` other than 0. -/
def ilog2 (x : ℚ) : Int :=
  let k : Int := (log2Aux x.num.natAbs x.num.natAbs : Int) - (log2Aux x.den x.den : Int)
  if (2 : ℚ) ^ k ≤ |x| then k else k - 1

/-- The spacing of the `double` values around `x`: `2^(L-52)` for `2^L <= |x| < 2^(L+1)`,
and `2^(-1074)` for the subnormal numbers. -/
def quantum (x : ℚ) : ℚ :=
  (2 : ℚ) ^ (max (ilog2 x - 52) (-1074))

/-- The integer nearest to `m`, the even one when `m` lies half way between two. -/
def nearestEven (m : ℚ) : Int :=
  let f : Int := ⌊m⌋
  if m - f < 1 / 2 then f
  else if 1 / 2 < m - f then f + 1
  else if f % 2 = 0 then f else f + 1

/-- The `double` nearest to `x` (round to nearest, ties to even): the multiple of the
spacing around `x` that is nearest to `x`. -/
def round (x : ℚ) : ℚ :=
  nearestEven (x / quantum x) * quantum x

/-- Product `a * b` of two `double` values. -/
def mul (a b : ℚ) : ℚ := round (round a * round b)

/-- Sum `a + b` of two `double` values. -/
def add (a b : ℚ) : ℚ := round (round a + round b)

/-- Difference `a - b` of two `double` values. -/
def sub (a b : ℚ) : ℚ := round (round a - round b)

/-- Comparison `a < b` of two `double` values. -/
def lt (a b : ℚ) : Prop := round a < round b

instance (a b : ℚ) : Decidable (lt a b) := by
  unfold lt
  infer_instance

end Double

/-! ## Resource -/

/-- Class `Resource`: the fields `name`, `amount`, `value`. -/
structure Resource where
  name : String
  amount : Int
  value : ℚ
  deriving DecidableEq

namespace Resource

/-- `Resource::setAmount`: `amount = newAmount < 0 ? 0 : newAmount`. -/
def setAmount (r : Resource) (newAmount : Int) : Resource :=
  { r with amount := if newAmount < 0 then 0 else newAmount }

/-- `Resource::changeAmount`: `amount += delta; if (amount < 0) amount = 0;`. -/
def changeAmount (r : Resource) (delta : Int) : Resource :=
  let amount := r.amount + delta
  { r with amount := if amount < 0 then 0 else amount }

/-- `Resource::setValue`: `value = newValue > 0 ? newValue : 0`. -/
def setValue (r : Resource) (newValue : ℚ) : Resource :=
  { r with value := if newValue > 0 then newValue else 0 }

/-- `Resource::getTotalValue`: `amount * value`. -/
def getTotalValue (r : Resource) : ℚ :=
  r.amount * r.value

end Resource

/-- Constructor `Food::Food(amount, value)`: a `Resource` named "Food". -/
def Food (amount : Int := 0) (value : ℚ := 1.0) : Resource :=
  ⟨"Food", amount, value⟩

/-- Constructor `Gold::Gold(amount, value)`: a `Resource` named "Gold". -/
def Gold (amount : Int := 0) (value : ℚ := 1.0) : Resource :=
  ⟨"Gold", amount, value⟩

/-- Constructor `Wood::Wood(amount, value)`: a `Resource` named "Wood". -/
def Wood (amount : Int := 0) (value : ℚ := 1.0) : Resource :=
  ⟨"Wood", amount, value⟩

/-- Constructor `Stone::Stone(amount, value)`: a `Resource` named "Stone". -/
def Stone (amount : Int := 0) (value : ℚ := 1.0) : Resource :=
  ⟨"Stone", amount, value⟩

/-- Constructor `Iron::Iron(amount, value)`: a `Resource` named "Iron". -/
def Iron (amount : Int := 0) (value : ℚ := 1.0) : Resource :=
  ⟨"Iron", amount, value⟩

/-! ## Leader -/

/-- The `Leader` hierarchy as a closed variant: the base fields `name`, `charisma`,
`intelligence`, `strength` and the fields of `King`, `Commander`, `GuildLeader`. -/
inductive Leader where
  | King (name : String) (charisma intelligence strength : Int)
      (royalBloodline yearsInPower : Int)
  | Commander (name : String) (charisma intelligence strength : Int)
      (tacticalSkill loyalty : Int)
  | GuildLeader (name : String) (charisma intelligence strength : Int)
      (guildType : String) (businessAcumen : Int)
  deriving DecidableEq

namespace Leader

/-- Constructor `King::King(name, charisma, intelligence, strength, royalBloodline)`:
`yearsInPower` starts at 0. -/
def newKing (name : String) (charisma intelligence strength royalBloodline : Int) : Leader :=
  .King name charisma intelligence strength royalBloodline 0

/-- `Leader::getName`. -/
def getName : Leader → String
  | .King n _ _ _ _ _ => n
  | .Commander n _ _ _ _ _ => n
  | .GuildLeader n _ _ _ _ _ => n

/-- The result of `dynamic_cast<King*>(ruler)->getRoyalBloodline()`: `none` when the cast
yields a null pointer. -/
def getRoyalBloodline : Leader → Option Int
  | .King _ _ _ _ b _ => some b
  | _ => none

/-- The result of `dynamic_cast<King*>(ruler)->getYearsInPower()`: `none` when the cast
yields a null pointer. -/
def getYearsInPower : Leader → Option Int
  | .King _ _ _ _ _ y => some y
  | _ => none

/-- `King::incrementYearsInPower`, called through `dynamic_cast<King*>`: `yearsInPower++`.
It is only ever called on a freshly made `King`; other variants are left as they are. -/
def incrementYearsInPower : Leader → Leader
  | .King n c i s b y => .King n c i s b (y + 1)
  | l => l

end Leader

/-! ## Population -/

/-- Class `Population`. -/
structure Population where
  peasants : Int
  merchants : Int
  nobles : Int
  growthRate : ℚ
  happiness : ℚ
  deriving DecidableEq

namespace Population

/-- Constructor `Population::Population(100, 20, 5)`: growth rate 0.05, happiness 0.5. -/
def new (initialPeasants : Int := 100) (initialMerchants : Int := 20)
    (initialNobles : Int := 5) : Population :=
  ⟨initialPeasants, initialMerchants, initialNobles, 0.05, 0.5⟩

/-- `Population::getTotal`. -/
def getTotal (p : Population) : Int :=
  p.peasants + p.merchants + p.nobles

/-- `Population::setPeasants`: `peasants = max(0, count)`. -/
def setPeasants (p : Population) (count : Int) : Population :=
  { p with peasants := max 0 count }

/-- `Population::setMerchants`: `merchants = max(0, count)`. -/
def setMerchants (p : Population) (count : Int) : Population :=
  { p with merchants := max 0 count }

/-- `Population::setNobles`: `nobles = max(0, count)`. -/
def setNobles (p : Population) (count : Int) : Population :=
  { p with nobles := max 0 count }

/-- `Population::setGrowthRate`: `growthRate = max(0.0, min(0.2, rate))`. -/
def setGrowthRate (p : Population) (rate : ℚ) : Population :=
  { p with growthRate := max 0.0 (min 0.2 rate) }

/-- `Population::setHappiness`: `happiness = max(0.0, min(1.0, value))`. -/
def setHappiness (p : Population) (value : ℚ) : Population :=
  { p with happiness := max 0.0 (min 1.0 value) }

end Population

/-! ## Army -/

/-- Class `Army`. -/
structure Army where
  infantry : Int
  cavalry : Int
  archers : Int
  morale : ℚ
  trainingLevel : Int
  isAtWar : Bool
  deriving DecidableEq

namespace Army

/-- Constructor `Army::Army(50, 10, 20)`: morale 0.7, training level 1, not at war. -/
def new (initialInfantry : Int := 50) (initialCavalry : Int := 10)
    (initialArchers : Int := 20) : Army :=
  ⟨initialInfantry, initialCavalry, initialArchers, 0.7, 1, false⟩

/-- `Army::getTotal`. -/
def getTotal (a : Army) : Int :=
  a.infantry + a.cavalry + a.archers

/-- `Army::getWarStatus`. -/
def getWarStatus (a : Army) : Bool :=
  a.isAtWar

/-- `Army::setInfantry`: `infantry = max(0, count)`. -/
def setInfantry (a : Army) (count : Int) : Army :=
  { a with infantry := max 0 count }

/-- `Army::setCavalry`: `cavalry = max(0, count)`. -/
def setCavalry (a : Army) (count : Int) : Army :=
  { a with cavalry := max 0 count }

/-- `Army::setArchers`: `archers = max(0, count)`. -/
def setArchers (a : Army) (count : Int) : Army :=
  { a with archers := max 0 count }

/-- `Army::setMorale`: `morale = max(0.0, min(1.0, value))`. -/
def setMorale (a : Army) (value : ℚ) : Army :=
  { a with morale := max 0.0 (min 1.0 value) }

/-- `Army::setTrainingLevel`: `trainingLevel = max(1, level)`. -/
def setTrainingLevel (a : Army) (level : Int) : Army :=
  { a with trainingLevel := max 1 level }

/-- `Army::setWarStatus`: `isAtWar = status`. -/
def setWarStatus (a : Army) (status : Bool) : Army :=
  { a with isAtWar := status }

end Army

/-! ## Economy -/

/-- Class `Economy`. -/
structure Economy where
  peasantTaxRate : ℚ
  merchantTaxRate : ℚ
  nobleTaxRate : ℚ
  inflation : ℚ
  treasuryGold : Int
  debt : Int
  deriving DecidableEq

namespace Economy

/-- Constructor `Economy::Economy(0.10, 0.15, 0.20)`: inflation 0.02, treasury 1000,
no debt. -/
def new (initialPeasantTaxRate : ℚ := 0.10) (initialMerchantTaxRate : ℚ := 0.15)
    (initialNobleTaxRate : ℚ := 0.20) : Economy :=
  ⟨initialPeasantTaxRate, initialMerchantTaxRate, initialNobleTaxRate, 0.02, 1000, 0⟩

/-- `Economy::setPeasantTaxRate`: `max(0.0, min(0.5, rate))`. -/
def setPeasantTaxRate (e : Economy) (rate : ℚ) : Economy :=
  { e with peasantTaxRate := max 0.0 (min 0.5 rate) }

/-- `Economy::setMerchantTaxRate`: `max(0.0, min(0.5, rate))`. -/
def setMerchantTaxRate (e : Economy) (rate : ℚ) : Economy :=
  { e with merchantTaxRate := max 0.0 (min 0.5 rate) }

/-- `Economy::setNobleTaxRate`: `max(0.0, min(0.5, rate))`. -/
def setNobleTaxRate (e : Economy) (rate : ℚ) : Economy :=
  { e with nobleTaxRate := max 0.0 (min 0.5 rate) }

/-- `Economy::setInflation`: `max(0.01, min(0.2, value))`. -/
def setInflation (e : Economy) (value : ℚ) : Economy :=
  { e with inflation := max 0.01 (min 0.2 value) }

/-- `Economy::setTreasuryGold`: `treasuryGold = max(0, amount)`. -/
def setTreasuryGold (e : Economy) (amount : Int) : Economy :=
  { e with treasuryGold := max 0 amount }

/-- `Economy::setDebt`: `debt = max(0, amount)`. -/
def setDebt (e : Economy) (amount : Int) : Economy :=
  { e with debt := max 0 amount }

end Economy

/-! ## Bank -/

/-- Class `Bank`. -/
structure Bank where
  interestRate : ℚ
  maxLoanAmount : Int
  currentLoans : Int
  corruptionLevel : Int
  deriving DecidableEq

namespace Bank

/-- Constructor `Bank::Bank(0.05, 1000)`: no loans, no corruption. -/
def new (initialInterestRate : ℚ := 0.05) (initialMaxLoan : Int := 1000) : Bank :=
  ⟨initialInterestRate, initialMaxLoan, 0, 0⟩

/-- `Bank::setInterestRate`: `max(0.01, min(0.2, rate))`. -/
def setInterestRate (b : Bank) (rate : ℚ) : Bank :=
  { b with interestRate := max 0.01 (min 0.2 rate) }

/-- `Bank::setMaxLoanAmount`: `max(100, amount)`. -/
def setMaxLoanAmount (b : Bank) (amount : Int) : Bank :=
  { b with maxLoanAmount := max 100 amount }

/-- `Bank::setCorruptionLevel`: `max(0, min(100, level))`. -/
def setCorruptionLevel (b : Bank) (level : Int) : Bank :=
  { b with corruptionLevel := max 0 (min 100 level) }

/-- `Bank::takeLoan`: rejected when `amount <= 0 || amount > maxLoanAmount`; otherwise the
debt and the treasury are raised through their setters and `currentLoans += amount`. -/
def takeLoan (b : Bank) (amount : Int) (economy : Economy) : Bool × Bank × Economy :=
  if amount ≤ 0 ∨ amount > b.maxLoanAmount then
    (false, b, economy)
  else
    let economy := economy.setDebt (economy.debt + amount)
    let economy := economy.setTreasuryGold (economy.treasuryGold + amount)
    (true, { b with currentLoans := b.currentLoans + amount }, economy)

end Bank

/-! ## Market -/

/-- Class `Market`: the five resources it owns and `priceFluctuation`. -/
structure Market where
  food : Resource
  gold : Resource
  wood : Resource
  stone : Resource
  iron : Resource
  priceFluctuation : ℚ
  deriving DecidableEq

/-- The resource a local `shared_ptr<Resource> resource` of `buyResource` or
`sellResource` points to: one of the four tradable members of the market. -/
inductive Tradable where
  | food
  | wood
  | stone
  | iron
  deriving DecidableEq

/-- The string that selects a tradable resource: "Food", "Wood", "Stone" or "Iron". -/
def Tradable.typeName : Tradable → String
  | .food => "Food"
  | .wood => "Wood"
  | .stone => "Stone"
  | .iron => "Iron"

namespace Market

/-- Constructor `Market::Market()`: `Food(1000)`, `Gold(500)`, `Wood(500)`, `Stone(300)`,
`Iron(200)`, fluctuation 0.1. -/
def new : Market :=
  ⟨Food 1000, Gold 500, Wood 500, Stone 300, Iron 200, 0.1⟩

/-- The `if / else if` chain on `resourceType` of `buyResource` and `sellResource`:
which member the string selects; `none` is the final `else { return false; }`. -/
def select (resourceType : String) : Option Tradable :=
  if resourceType = "Food" then some .food
  else if resourceType = "Wood" then some .wood
  else if resourceType = "Stone" then some .stone
  else if resourceType = "Iron" then some .iron
  else none

/-- Dereference of the selected member. -/
def get (m : Market) : Tradable → Resource
  | .food => m.food
  | .wood => m.wood
  | .stone => m.stone
  | .iron => m.iron

/-- A write through the selected member. -/
def set (m : Market) (t : Tradable) (r : Resource) : Market :=
  match t with
  | .food => { m with food := r }
  | .wood => { m with wood := r }
  | .stone => { m with stone := r }
  | .iron => { m with iron := r }

/-- `Market::buyResource`: `cost = static_cast<int>(amount * value)` of the selected
resource, a `double` product; when `treasury >= cost` the treasury is set to
`treasury - cost` and the resource grows by `amount`; otherwise nothing is written. -/
def buyResource (m : Market) (resourceType : String) (amount : Int) (economy : Economy) :
    Bool × Market × Economy :=
  match select resourceType with
  | none => (false, m, economy)
  | some t =>
    let cost := toInt (Double.mul amount (m.get t).value)
    if economy.treasuryGold ≥ cost then
      let economy := economy.setTreasuryGold (economy.treasuryGold - cost)
      (true, m.set t ((m.get t).changeAmount amount), economy)
    else
      (false, m, economy)

/-- `Market::sellResource`: fails when the selected stock is below `amount`; otherwise
`revenue = static_cast<int>(amount * value * 0.9)`, two `double` products, the stock changes
by `-amount` and the treasury is set to `treasury + revenue`. -/
def sellResource (m : Market) (resourceType : String) (amount : Int) (economy : Economy) :
    Bool × Market × Economy :=
  match select resourceType with
  | none => (false, m, economy)
  | some t =>
    if (m.get t).amount < amount then
      (false, m, economy)
    else
      let revenue := toInt (Double.mul (Double.mul amount (m.get t).value) 0.9)
      let m := m.set t ((m.get t).changeAmount (-amount))
      (true, m, economy.setTreasuryGold (economy.treasuryGold + revenue))

end Market

/-! ## Diplomacy -/

/-- Struct `Diplomacy::Kingdom`: one entry of the roster of foreign kingdoms. -/
structure Diplomacy.Kingdom where
  name : String
  relationLevel : Int
  isAlly : Bool
  atWar : Bool
  strength : Int
  deriving DecidableEq

/-- Class `Diplomacy`: `foreignKingdoms` holds the first `kingdomCount` entries of the
array, in order; `maxKingdoms` is the capacity of the array. -/
structure Diplomacy where
  foreignKingdoms : List Diplomacy.Kingdom
  maxKingdoms : Int
  deriving DecidableEq

namespace Diplomacy

/-- Member `kingdomCount`: the number of entries in use. -/
def kingdomCount (d : Diplomacy) : Int :=
  d.foreignKingdoms.length

/-- The search loop shared by the operations,
`for (i = 0; i < kingdomCount; i++) if (foreignKingdoms[i].name == kingdomName) ...`:
the entries before the first one with that name, that entry, and the entries after it;
`none` when the loop runs to its end. -/
def lookup (kingdomName : String) :
    List Diplomacy.Kingdom → Option (List Diplomacy.Kingdom × Diplomacy.Kingdom × List Diplomacy.Kingdom)
  | [] => none
  | k :: ks =>
    if k.name = kingdomName then some ([], k, ks)
    else
      match lookup kingdomName ks with
      | none => none
      | some (before, e, after) => some (k :: before, e, after)

/-- `Diplomacy::addKingdom`: appends a neutral entry while there is room. -/
def addKingdom (d : Diplomacy) (name : String) (strength : Int) : Diplomacy :=
  if d.kingdomCount < d.maxKingdoms then
    { d with foreignKingdoms := d.foreignKingdoms ++ [⟨name, 0, false, false, strength⟩] }
  else d

/-- Constructor `Diplomacy::Diplomacy(5)`; `r1`, `r2`, `r3` are the three values `rand()`
returns while it runs. -/
def new (r1 r2 r3 : Int) (maxForeignKingdoms : Int := 5) : Diplomacy :=
  let d : Diplomacy := ⟨[], maxForeignKingdoms⟩
  let d := d.addKingdom "Northlands" (500 + r1 % 500)
  let d := d.addKingdom "Eastern Empire" (600 + r2 % 600)
  d.addKingdom "Southern Realms" (400 + r3 % 400)

/-- `Diplomacy::declareWar`: on the first entry with that name, when it is not at war: sets
`atWar`, clears `isAlly`, `relationLevel = max(-10, relationLevel - 5)` and
`army.setWarStatus(true)`. -/
def declareWar (d : Diplomacy) (kingdomName : String) (army : Army) :
    Bool × Diplomacy × Army :=
  match lookup kingdomName d.foreignKingdoms with
  | none => (false, d, army)
  | some (before, k, after) =>
    if !k.atWar then
      let k := { k with atWar := true, isAlly := false,
                        relationLevel := max (-10) (k.relationLevel - 5) }
      (true, { d with foreignKingdoms := before ++ k :: after }, army.setWarStatus true)
    else
      (false, d, army)

/-- `Diplomacy::signPeace`. Its first statement, `Army army;`, makes a local default army;
the function has no parameter for the army of the kingdom. For the first entry with that
name, when at war and `treasury >= cost` with `cost = 200 + strength / 10`: pays, clears
`atWar`, `relationLevel = 0`, scans the roster for a remaining war and, when there is none,
calls `setWarStatus(false)` on the local army, which is then dropped. -/
def signPeace (d : Diplomacy) (kingdomName : String) (economy : Economy) :
    Bool × Diplomacy × Economy :=
  let army : Army := Army.new
  match lookup kingdomName d.foreignKingdoms with
  | none => (false, d, economy)
  | some (before, k, after) =>
    if k.atWar then
      let cost := 200 + Int.tdiv k.strength 10
      if economy.treasuryGold ≥ cost then
        let economy := economy.setTreasuryGold (economy.treasuryGold - cost)
        let k := { k with atWar := false, relationLevel := 0 }
        let d := { d with foreignKingdoms := before ++ k :: after }
        let stillAtWar := d.foreignKingdoms.any (fun j => j.atWar)
        let _army := if !stillAtWar then army.setWarStatus false else army
        (true, d, economy)
      else
        (false, d, economy)
    else
      (false, d, economy)

/-- `Diplomacy::formAlliance`: on the first entry with that name, when
`!atWar && relationLevel >= 5`: sets `isAlly` and
`relationLevel = min(10, relationLevel + 1)`. -/
def formAlliance (d : Diplomacy) (kingdomName : String) : Bool × Diplomacy :=
  match lookup kingdomName d.foreignKingdoms with
  | none => (false, d)
  | some (before, k, after) =>
    if !k.atWar && decide (k.relationLevel ≥ 5) then
      let k := { k with isAlly := true, relationLevel := min 10 (k.relationLevel + 1) }
      (true, { d with foreignKingdoms := before ++ k :: after })
    else
      (false, d)

end Diplomacy

/-! ## RandomEvents -/

/-- Class `RandomEvents`: `eventChance` and `lastEventTime` (seconds). -/
structure RandomEvents where
  eventChance : Int
  lastEventTime : Int
  deriving DecidableEq

/-- Constructor `RandomEvents::RandomEvents(15)`; `now` is the value of `time(0)`. -/
def RandomEvents.new (now : Int) (chance : Int := 15) : RandomEvents :=
  ⟨chance, now⟩

/-! ## Kingdom -/

/-- Class `Kingdom`: the name, one of each subsystem, the ruler, the year and the score. -/
structure Kingdom where
  name : String
  population : Population
  army : Army
  economy : Economy
  market : Market
  diplomacy : Diplomacy
  bank : Bank
  events : RandomEvents
  ruler : Leader
  gameYear : Int
  score : Int
  deriving DecidableEq

namespace Kingdom

/-- Constructor `Kingdom::Kingdom(kingdomName)`: year 1, score 0, default subsystems and the
ruler `King("Default King", 50, 50, 50, 50)`. `r1`, `r2`, `r3` are the values of `rand()`
drawn by the `Diplomacy` constructor and `now` the value of `time(0)`. -/
def new (kingdomName : String) (r1 r2 r3 now : Int) : Kingdom :=
  { name := kingdomName
    population := Population.new
    army := Army.new
    economy := Economy.new
    market := Market.new
    diplomacy := Diplomacy.new r1 r2 r3
    bank := Bank.new
    events := RandomEvents.new now
    ruler := Leader.newKing "Default King" 50 50 50 50
    gameYear := 1
    score := 0 }

/-- `Kingdom::setName`. -/
def setName (k : Kingdom) (newName : String) : Kingdom :=
  { k with name := newName }

/-- `Kingdom::setRuler`: the old ruler is discarded. -/
def setRuler (k : Kingdom) (newRuler : Leader) : Kingdom :=
  { k with ruler := newRuler }

/-- `Kingdom::setGameYear`: `gameYear = max(1, year)`. -/
def setGameYear (k : Kingdom) (year : Int) : Kingdom :=
  { k with gameYear := max 1 year }

/-- `Kingdom::setScore`: `score = max(0, newScore)`. -/
def setScore (k : Kingdom) (newScore : Int) : Kingdom :=
  { k with score := max 0 newScore }

/-- `Kingdom::calculateScore`: the score is assigned directly, not through `setScore`:
`population*10 + army*20 + treasury/10 + (int)(happiness*1000) + gameYear*100`, then
`score -= debt/5` and `score -= (int)(inflation*2000)`; the two products are `double`
products. -/
def calculateScore (k : Kingdom) : Kingdom :=
  let score := (k.population.getTotal * 10) + (k.army.getTotal * 20) +
    (Int.tdiv k.economy.treasuryGold 10) + toInt (Double.mul k.population.happiness 1000) +
    (k.gameYear * 100)
  let score := score - Int.tdiv k.economy.debt 5
  let score := score - toInt (Double.mul k.economy.inflation 2000)
  { k with score := score }

end Kingdom

/-- `Food::applyEffects`, run on the food resource `food` of the market: with a positive
population total, `foodPerPerson = amount / totalPopulation` is tested by the chain
`> 1.5`, `> 1.0`, `< 0.5`, `< 0.25` in this order (modifiers 0.1, 0.05, -0.2, -0.4); the
modifier is then added to the happiness through `setHappiness`. -/
def Food.applyEffects (food : Resource) (kingdom : Kingdom) : Kingdom :=
  let totalPopulation := kingdom.population.getTotal
  let happinessModifier : ℚ :=
    if totalPopulation > 0 then
      let foodPerPerson : ℚ := (food.amount : ℚ) / (totalPopulation : ℚ)
      if foodPerPerson > 1.5 then 0.1
      else if foodPerPerson > 1.0 then 0.05
      else if foodPerPerson < 0.5 then -0.2
      else if foodPerPerson < 0.25 then -0.4
      else 0
    else 0
  let currentHappiness := kingdom.population.happiness
  { kingdom with population := kingdom.population.setHappiness (currentHappiness + happinessModifier) }

/-- Statement `market->getFood()->applyEffects(*this);` of `Kingdom::advanceYear`: the food
of the market acts on the kingdom that owns it. -/
def Kingdom.applyFoodEffects (kingdom : Kingdom) : Kingdom :=
  Food.applyEffects kingdom.market.food kingdom

/-! ## Call sites of the diplomacy menu -/

/-- `displayDiplomacyMenu`, choice 3:
`kingdom.getDiplomacy()->declareWar(kingdomName, *kingdom.getArmy())`. -/
def displayDiplomacyMenu_declareWar (kingdom : Kingdom) (kingdomName : String) :
    Bool × Kingdom :=
  let r := kingdom.diplomacy.declareWar kingdomName kingdom.army
  (r.1, { kingdom with diplomacy := r.2.1, army := r.2.2 })

/-- `displayDiplomacyMenu`, choice 4:
`kingdom.getDiplomacy()->signPeace(kingdomName, *kingdom.getEconomy())`. -/
def displayDiplomacyMenu_signPeace (kingdom : Kingdom) (kingdomName : String) :
    Bool × Kingdom :=
  let r := kingdom.diplomacy.signPeace kingdomName kingdom.economy
  (r.1, { kingdom with diplomacy := r.2.1, economy := r.2.2 })

/-! ## The snapshot file

`saveGame` writes one field per line with `<<` and `endl`; `loadGame` reads them back with
`getline`, `>>` and `ignore`. The file is modelled as its sequence of characters. An `int`
is written as its decimal digits, a `bool` as 1 or 0. The characters that `<<` prints for a
`double` are a parameter `shown` of `saveGame`; with the default settings of the stream,
which the program never changes, they are those of `showDouble`. The input functions follow
the "C" locale and the rules of the standard since C++11: an operation on a stream that is
not good sets `failbit` and stores nothing; an extraction that finds no number stores 0.
Digits that spell a number outside the range of its type are not modelled.
The locals `tempInt`, `tempDouble`, `royalBloodline` and `yearsInPower` of `loadGame` are
declared without an initial value; the values they hold at first are parameters.
-/

/-- An `ifstream` being read: the characters not yet consumed, `eofbit` and `failbit`. -/
structure InFile where
  rest : List Char
  eof : Bool
  failed : Bool
  deriving DecidableEq

namespace InFile

/-- The stream right after a file with the given characters was opened. -/
def opened (text : List Char) : InFile :=
  ⟨text, false, false⟩

/-- `isspace` in the "C" locale: space, `\t`, `\n`, `\v`, `\f`, `\r`. -/
def isSpace (c : Char) : Bool :=
  c = ' ' || c = '\t' || c = '\n' || c = '\x0b' || c = '\x0c' || c = '\r'

/-- The characters left after the white space at the front is dropped. -/
def skipSpace : List Char → List Char
  | [] => []
  | c :: cs => if isSpace c then skipSpace cs else c :: cs

/-- The sentry of a formatted extraction `>>`: on a stream that is not good it sets
`failbit`; otherwise it skips white space, and when that reaches the end of the file it
sets `eofbit` and `failbit`. The flag tells whether the extraction goes on. -/
def sentry (f : InFile) : InFile × Bool :=
  if f.eof || f.failed then (⟨f.rest, f.eof, true⟩, false)
  else
    match skipSpace f.rest with
    | [] => (⟨[], true, true⟩, false)
    | c :: cs => (⟨c :: cs, false, false⟩, true)

/-- An optional sign: whether it is `-`, and the characters after it. -/
def takeSign : List Char → Bool × List Char
  | [] => (false, [])
  | c :: cs => if c = '-' then (true, cs) else if c = '+' then (false, cs) else (false, c :: cs)

/-- The decimal digits at the front, and the characters after them. -/
def spanDigits : List Char → List Char × List Char
  | [] => ([], [])
  | c :: cs =>
    if c.isDigit then (c :: (spanDigits cs).1, (spanDigits cs).2) else ([], c :: cs)

/-- The number that a sequence of decimal digits spells. -/
def digitsValue (ds : List Char) : Nat :=
  ds.foldl (fun n c => n * 10 + (c.toNat - 48)) 0

/-- Extraction `file >> v` of an `int`: when the sentry fails `v` is left as it is;
otherwise a sign and digits are consumed, and with no digit 0 is stored and `failbit` set.
`eofbit` is set when the end of the file is reached. -/
def readInt (f : InFile) (v : Int) : InFile × Int :=
  let s := f.sentry
  if s.2 then
    let g := takeSign s.1.rest
    let d := spanDigits g.2
    if d.1 = [] then (⟨d.2, d.2.isEmpty, true⟩, 0)
    else (⟨d.2, d.2.isEmpty, false⟩, if g.1 then -(digitsValue d.1 : Int) else digitsValue d.1)
  else (s.1, v)

/-- An optional decimal point: whether it is there, and the characters after it. -/
def takePoint : List Char → Bool × List Char
  | [] => (false, [])
  | c :: cs => if c = '.' then (true, cs) else (false, c :: cs)

/-- An optional exponent letter `e` or `E`: whether it is there, and the characters after
it. -/
def takeExponent : List Char → Bool × List Char
  | [] => (false, [])
  | c :: cs => if c = 'e' || c = 'E' then (true, cs) else (false, c :: cs)

/-- The characters that the extraction of a `double` consumes and the value it finds: a
sign, digits, a decimal point, digits, and, once a digit was seen, an exponent letter with
its sign and digits. The value is `none` when the characters consumed are not a complete
number (no digit in the mantissa, or none in the exponent). -/
def scanDouble (cs : List Char) : Option ℚ × List Char :=
  let g := takeSign cs
  let i := spanDigits g.2
  let p := takePoint i.2
  let fr := if p.1 then spanDigits p.2 else ([], p.2)
  if i.1 = [] ∧ fr.1 = [] then (none, fr.2)
  else
    let m : ℚ := (if g.1 then -1 else 1) * (digitsValue (i.1 ++ fr.1) : ℚ)
    let e := takeExponent fr.2
    if e.1 then
      let sg := takeSign e.2
      let ex := spanDigits sg.2
      if ex.1 = [] then (none, ex.2)
      else
        (some (m * (10 : ℚ) ^
          ((if sg.1 then -(digitsValue ex.1 : Int) else digitsValue ex.1) - (fr.1.length : Int))),
          ex.2)
    else (some (m * (10 : ℚ) ^ (-(fr.1.length : Int))), fr.2)

/-- Extraction `file >> v` of a `double`: when the sentry fails `v` is left as it is;
otherwise the characters of `scanDouble` are consumed, and when they are not a number 0 is
stored and `failbit` set. `eofbit` is set when the end of the file is reached. -/
def readDouble (f : InFile) (v : ℚ) : InFile × ℚ :=
  let s := f.sentry
  if s.2 then
    let r := scanDouble s.1.rest
    match r.1 with
    | some x => (⟨r.2, r.2.isEmpty, false⟩, x)
    | none => (⟨r.2, r.2.isEmpty, true⟩, 0)
  else (s.1, v)

/-- The characters before the first line break. -/
def lineOf : List Char → List Char
  | [] => []
  | c :: cs => if c = '\n' then [] else c :: lineOf cs

/-- The characters after the first line break; none when there is no line break. -/
def afterLine : List Char → List Char
  | [] => []
  | c :: cs => if c = '\n' then cs else afterLine cs

/-- Call `getline(file, str)`: on a stream that is not good `failbit` is set and `str` is
left as it is; otherwise `str` is erased and takes the characters up to the first line
break, which is consumed and not stored. Reaching the end of the file sets `eofbit`, and
`failbit` too when nothing was consumed. -/
def getline (f : InFile) (str : String) : InFile × String :=
  if f.eof || f.failed then (⟨f.rest, f.eof, true⟩, str)
  else
    match f.rest with
    | [] => (⟨[], true, true⟩, "")
    | c :: cs => (⟨afterLine (c :: cs), !(c :: cs).contains '\n', false⟩, ⟨lineOf (c :: cs)⟩)

/-- Call `file.ignore()`: on a stream that is not good `failbit` is set; otherwise one
character is consumed, and `eofbit` is set when there is none. -/
def ignore (f : InFile) : InFile :=
  if f.eof || f.failed then ⟨f.rest, f.eof, true⟩
  else
    match f.rest with
    | [] => ⟨[], true, false⟩
    | _ :: cs => ⟨cs, false, false⟩

end InFile

/-- The character of a decimal digit. -/
def digitChar (d : Nat) : Char :=
  Char.ofNat (48 + d)

/-- The decimal digits of a natural number, the leading one first; the first argument bounds
the number of steps. -/
def showNatAux : Nat → Nat → List Char
  | 0, n => [digitChar n]
  | fuel + 1, n =>
    if n < 10 then [digitChar n] else showNatAux fuel (n / 10) ++ [digitChar (n % 10)]

/-- The characters that `<<` prints for an `int`: a `-` for a negative value, then the
decimal digits. -/
def showInt (i : Int) : List Char :=
  if i < 0 then '-' :: showNatAux i.natAbs i.natAbs else showNatAux i.natAbs i.natAbs

/-- The integer `X` with `10^X <= a < 10^(X+1)`, for `a > 0`, searched upwards from
`10^X <= a`; `fuel` bounds the search. -/
def log10Up : Nat → ℚ → Int → Int
  | 0, _, X => X
  | fuel + 1, a, X => if (10 : ℚ) ^ (X + 1) ≤ a then log10Up fuel a (X + 1) else X

/-- The integer `X` with `10^X <= a < 10^(X+1)`, for `a > 0`, searched downwards from
`a < 10^(X+1)`; `fuel` bounds the search. -/
def log10Down : Nat → ℚ → Int → Int
  | 0, _, X => X
  | fuel + 1, a, X => if a < (10 : ℚ) ^ X then log10Down fuel a (X - 1) else X

/-- The decimal exponent of `a > 0`: the integer `X` with `10^X <= a < 10^(X+1)`. The
exponent of a `double` lies between -324 and 308. -/
def log10Floor (a : ℚ) : Int :=
  if 1 ≤ a then log10Up 400 a 0 else log10Down 400 a (-1)

/-- A sequence of digits without the zeros at its end. -/
def stripZeros (ds : List Char) : List Char :=
  (ds.reverse.dropWhile (fun c => c = '0')).reverse

/-- The characters that `<<` prints for a `double` with the default settings of the stream
(the format `%g` with six significant digits): the value is rounded to six significant
digits, ties to even; with a decimal exponent `X` from -4 to 5 it is written in fixed
notation, otherwise as `d.ddddde+XX` with at least two digits of exponent; zeros at the end
of the fraction are dropped, and the decimal point with them when nothing follows it. -/
def showDouble (x : ℚ) : List Char :=
  let v := Double.round x
  if v = 0 then ['0']
  else
    let a := |v|
    let X0 := log10Floor a
    let N0 := (Double.nearestEven (a / (10 : ℚ) ^ (X0 - 5))).natAbs
    let X := if N0 = 1000000 then X0 + 1 else X0
    let N := if N0 = 1000000 then 100000 else N0
    let ds := stripZeros (showNatAux N N)
    let sign := if v < 0 then ['-'] else []
    if X < -4 ∨ 6 ≤ X then
      let frac := ds.drop 1
      let e := showNatAux X.natAbs X.natAbs
      sign ++ ds.take 1 ++ (if frac = [] then [] else '.' :: frac) ++
        ['e', if X < 0 then '-' else '+'] ++ (if X.natAbs < 10 then '0' :: e else e)
    else if 0 ≤ X then
      let whole := ds.take (X.natAbs + 1)
      let frac := ds.drop (X.natAbs + 1)
      sign ++ whole ++ List.replicate (X.natAbs + 1 - whole.length) '0' ++
        (if frac = [] then [] else '.' :: frac)
    else
      sign ++ ['0', '.'] ++ List.replicate (X.natAbs - 1) '0' ++ ds

/-- The characters of a file written by a sequence of `file << field << endl`. -/
def writeLines : List (List Char) → List Char
  | [] => []
  | t :: ts => t ++ '\n' :: writeLines ts

namespace Kingdom

/-- `Kingdom::saveGame`, for a file that could be opened: the 27 fields in the order they
are written, each followed by `endl`. `shown x` is the decimal text printed for the
`double` `x`. The bloodline and the years in power are read through
`dynamic_cast<King*>(ruler.get())`; the result is `none` when that pointer is null and is
dereferenced. -/
def saveGame (shown : ℚ → List Char) (k : Kingdom) : Option (List Char) :=
  match k.ruler.getRoyalBloodline, k.ruler.getYearsInPower with
  | some royalBloodline, some yearsInPower =>
    some (writeLines
      [ k.name.data, showInt k.gameYear, showInt k.score,
        showInt k.population.peasants, showInt k.population.merchants,
        showInt k.population.nobles,
        shown k.population.happiness, shown k.population.growthRate,
        showInt k.army.infantry, showInt k.army.cavalry, showInt k.army.archers,
        shown k.army.morale, showInt k.army.trainingLevel,
        showInt (if k.army.getWarStatus then 1 else 0),
        showInt k.economy.treasuryGold, showInt k.economy.debt,
        shown k.economy.peasantTaxRate, shown k.economy.merchantTaxRate,
        shown k.economy.nobleTaxRate, shown k.economy.inflation,
        showInt k.market.food.amount, showInt k.market.wood.amount,
        showInt k.market.stone.amount, showInt k.market.iron.amount,
        k.ruler.getName.data, showInt royalBloodline, showInt yearsInPower ])
  | _, _ => none

/-- The locals of `loadGame` next to the stream and the kingdom being written: `tempName`,
`tempInt`, `tempDouble`, `royalBloodline`, `yearsInPower`. -/
structure Loading where
  file : InFile
  tempName : String
  tempInt : Int
  tempDouble : ℚ
  royalBloodline : Int
  yearsInPower : Int
  kingdom : Kingdom

namespace Loading

/-- Statement pair `getline(file, tempName); setName(tempName);`. -/
def line (l : Loading) (set : Kingdom → String → Kingdom) : Loading :=
  let r := l.file.getline l.tempName
  { l with file := r.1, tempName := r.2, kingdom := set l.kingdom r.2 }

/-- Statement pair `file >> tempInt; setter(tempInt);`. -/
def int (l : Loading) (set : Kingdom → Int → Kingdom) : Loading :=
  let r := l.file.readInt l.tempInt
  { l with file := r.1, tempInt := r.2, kingdom := set l.kingdom r.2 }

/-- Statement pair `file >> tempDouble; setter(tempDouble);`. -/
def double (l : Loading) (set : Kingdom → ℚ → Kingdom) : Loading :=
  let r := l.file.readDouble l.tempDouble
  { l with file := r.1, tempDouble := r.2, kingdom := set l.kingdom r.2 }

/-- Statement `file.ignore();`. -/
def ignore (l : Loading) : Loading :=
  { l with file := l.file.ignore }

/-- The end of `loadGame`: `getline(file, rulerName); file >> royalBloodline >> yearsInPower;`
then `setRuler(make_unique<King>(rulerName, 50, 50, 50, royalBloodline))` and
`incrementYearsInPower()` on the new ruler. `rulerName` starts as the empty string. The
`yearsInPower` that was read is not used. -/
def ruler (l : Loading) : Loading :=
  let r := l.file.getline ""
  let rulerName := r.2
  let r := r.1.readInt l.royalBloodline
  let royalBloodline := r.2
  let r := r.1.readInt l.yearsInPower
  let yearsInPower := r.2
  let k := l.kingdom.setRuler (Leader.newKing rulerName 50 50 50 royalBloodline)
  let k := k.setRuler k.ruler.incrementYearsInPower
  { l with file := r.1, royalBloodline := royalBloodline, yearsInPower := yearsInPower,
           kingdom := k }

end Loading

/-- `Kingdom::loadGame`, for a file that could be opened, `text` being its characters: every
field is read in order and passed to its setter straight away; no read is checked.
`tempInt`, `tempDouble`, `royalBloodline` and `yearsInPower` are the values that the locals
of these names, declared without an initial value, hold at first. The function returns
`true`. -/
def loadGame (k : Kingdom) (tempInt : Int) (tempDouble : ℚ) (royalBloodline yearsInPower : Int)
    (text : List Char) : Bool × Kingdom :=
  let l : Loading := ⟨InFile.opened text, "", tempInt, tempDouble, royalBloodline,
    yearsInPower, k⟩
  -- basic kingdom data
  let l := l.line (fun k v => k.setName v)
  let l := l.int (fun k v => k.setGameYear v)
  let l := l.int (fun k v => k.setScore v)
  let l := l.ignore
  -- population data
  let l := l.int (fun k v => { k with population := k.population.setPeasants v })
  let l := l.int (fun k v => { k with population := k.population.setMerchants v })
  let l := l.int (fun k v => { k with population := k.population.setNobles v })
  let l := l.double (fun k v => { k with population := k.population.setHappiness v })
  let l := l.double (fun k v => { k with population := k.population.setGrowthRate v })
  -- army data
  let l := l.int (fun k v => { k with army := k.army.setInfantry v })
  let l := l.int (fun k v => { k with army := k.army.setCavalry v })
  let l := l.int (fun k v => { k with army := k.army.setArchers v })
  let l := l.double (fun k v => { k with army := k.army.setMorale v })
  let l := l.int (fun k v => { k with army := k.army.setTrainingLevel v })
  let l := l.int (fun k v => { k with army := k.army.setWarStatus (v != 0) })
  -- economy data
  let l := l.int (fun k v => { k with economy := k.economy.setTreasuryGold v })
  let l := l.int (fun k v => { k with economy := k.economy.setDebt v })
  let l := l.double (fun k v => { k with economy := k.economy.setPeasantTaxRate v })
  let l := l.double (fun k v => { k with economy := k.economy.setMerchantTaxRate v })
  let l := l.double (fun k v => { k with economy := k.economy.setNobleTaxRate v })
  let l := l.double (fun k v => { k with economy := k.economy.setInflation v })
  -- market data
  let l := l.int (fun k v => { k with market := { k.market with food := k.market.food.setAmount v } })
  let l := l.int (fun k v => { k with market := { k.market with wood := k.market.wood.setAmount v } })
  let l := l.int (fun k v => { k with market := { k.market with stone := k.market.stone.setAmount v } })
  let l := l.int (fun k v => { k with market := { k.market with iron := k.market.iron.setAmount v } })
  -- ruler data
  let l := l.ignore
  let l := l.ruler
  (true, l.kingdom)

end Kingdom

/-! ## Conditions used to state the round trip -/

/-- Every saved field of the kingdom lies in the range that the setter called by
`loadGame` for that field enforces. -/
def Kingdom.withinSetterRanges (k : Kingdom) : Prop :=
  1 ≤ k.gameYear ∧ 0 ≤ k.score ∧
  0 ≤ k.population.peasants ∧ 0 ≤ k.population.merchants ∧ 0 ≤ k.population.nobles ∧
  (0 ≤ k.population.happiness ∧ k.population.happiness ≤ 1) ∧
  (0 ≤ k.population.growthRate ∧ k.population.growthRate ≤ 0.2) ∧
  0 ≤ k.army.infantry ∧ 0 ≤ k.army.cavalry ∧ 0 ≤ k.army.archers ∧
  (0 ≤ k.army.morale ∧ k.army.morale ≤ 1) ∧ 1 ≤ k.army.trainingLevel ∧
  0 ≤ k.economy.treasuryGold ∧ 0 ≤ k.economy.debt ∧
  (0 ≤ k.economy.peasantTaxRate ∧ k.economy.peasantTaxRate ≤ 0.5) ∧
  (0 ≤ k.economy.merchantTaxRate ∧ k.economy.merchantTaxRate ≤ 0.5) ∧
  (0 ≤ k.economy.nobleTaxRate ∧ k.economy.nobleTaxRate ≤ 0.5) ∧
  (0.01 ≤ k.economy.inflation ∧ k.economy.inflation ≤ 0.2) ∧
  0 ≤ k.market.food.amount ∧ 0 ≤ k.market.wood.amount ∧
  0 ≤ k.market.stone.amount ∧ 0 ≤ k.market.iron.amount

/-- The text `shown x` printed for the `double` `x` is read back as `x`: the extraction of
a `double` consumes all of it and finds the value `x` (no digit is lost by the
formatting). -/
def InFile.readsBack (shown : ℚ → List Char) (x : ℚ) : Prop :=
  InFile.scanDouble (shown x) = (some x, [])

/-- The seven saved `double` fields are read back from their printed text as the same
values. -/
def Kingdom.printedExactly (shown : ℚ → List Char) (k : Kingdom) : Prop :=
  InFile.readsBack shown k.population.happiness ∧
  InFile.readsBack shown k.population.growthRate ∧
  InFile.readsBack shown k.army.morale ∧
  InFile.readsBack shown k.economy.peasantTaxRate ∧
  InFile.readsBack shown k.economy.merchantTaxRate ∧
  InFile.readsBack shown k.economy.nobleTaxRate ∧
  InFile.readsBack shown k.economy.inflation

/-- Neither the name of the kingdom nor the name of its ruler contains a line break. -/
def Kingdom.namesOnOneLine (k : Kingdom) : Prop :=
  '\n' ∉ k.name.data ∧ '\n' ∉ k.ruler.getName.data

instance (k : Kingdom) : Decidable k.withinSetterRanges := by
  unfold Kingdom.withinSetterRanges
  infer_instance

instance (shown : ℚ → List Char) (x : ℚ) : Decidable (InFile.readsBack shown x) := by
  unfold InFile.readsBack
  infer_instance

instance (shown : ℚ → List Char) (k : Kingdom) : Decidable (k.printedExactly shown) := by
  unfold Kingdom.printedExactly
  infer_instance

instance (k : Kingdom) : Decidable k.namesOnOneLine := by
  unfold Kingdom.namesOnOneLine
  infer_instance

/-! ## The random stream

Every probabilistic decision of the program calls `rand()`. The values that the
successive calls return are an infinite sequence; a function that calls `rand()` takes
the sequence and returns what is left of it.
-/

/-- The values returned by the successive calls of `rand()`, each `>= 0`: `draw n` is the
value of the call number `n` from now on. -/
structure Rand where
  draw : ℕ → ℕ

/-- One call of `rand()`: the value returned and the rest of the sequence. -/
def Rand.next (r : Rand) : Int × Rand :=
  ((r.draw 0 : Int), ⟨fun n => r.draw (n + 1)⟩)

/-! ## Yearly updates of Population, Army and Economy -/

/-- `Population::updatePopulation`: the growth rate is recomputed, in `double` arithmetic
from left to right, and clamped to [0.01, 0.2]; each cohort grows by the truncated `double`
product; then, with `rand() % 100 < 5`, `max(1, (int)(peasants * 0.01))` peasants become
merchants, and with a second `rand() % 100 < 2`, `max(1, (int)(merchants * 0.01))` merchants
become nobles. The counts are written directly, not through the setters. -/
def Population.updatePopulation (p : Population) (economy : Economy) (_army : Army)
    (rand : Rand) : Population × Rand :=
  let taxBurden :=
    Double.add (Double.add economy.peasantTaxRate economy.merchantTaxRate) economy.nobleTaxRate
  let foodSecurity : ℚ := 1.0
  let growthRate :=
    Double.add (Double.sub (Double.add 0.05 (Double.mul p.happiness 0.05))
      (Double.mul taxBurden 0.1)) (Double.mul foodSecurity 0.02)
  let growthRate := max 0.01 (min 0.2 growthRate)
  let peasants := p.peasants + toInt (Double.mul p.peasants growthRate)
  let merchants := p.merchants + toInt (Double.mul p.merchants (Double.mul growthRate 0.8))
  let nobles := p.nobles + toInt (Double.mul p.nobles (Double.mul growthRate 0.5))
  let d1 := rand.next
  let socialMobility1 := max 1 (toInt (Double.mul peasants 0.01))
  let peasants := if d1.1 % 100 < 5 then peasants - socialMobility1 else peasants
  let merchants := if d1.1 % 100 < 5 then merchants + socialMobility1 else merchants
  let d2 := d1.2.next
  let socialMobility2 := max 1 (toInt (Double.mul merchants 0.01))
  let merchants := if d2.1 % 100 < 2 then merchants - socialMobility2 else merchants
  let nobles := if d2.1 % 100 < 2 then nobles + socialMobility2 else nobles
  ({ p with peasants := peasants, merchants := merchants, nobles := nobles,
            growthRate := growthRate }, d2.2)

/-- `Population::calculateHappiness`: the new happiness is
`0.7*happiness + 0.1*taxFactor + 0.1*armyPresence + 0.1*inflationFactor`, clamped to
[0, 1]. The quotient `army total / population total` is taken in `ℚ`; with an empty
population the source divides by zero. -/
def Population.calculateHappiness (p : Population) (economy : Economy) (army : Army) :
    Population :=
  let taxFactor := 1.0 - ((economy.peasantTaxRate * 2) + (economy.merchantTaxRate * 1.5) +
    (economy.nobleTaxRate * 0.5))
  let armyPresence := min 1.0 ((army.getTotal : ℚ) / (p.getTotal : ℚ) * 0.5)
  let inflationFactor := 1.0 - (economy.inflation * 2.0)
  let newHappiness := (p.happiness * 0.7) + (taxFactor * 0.1) + (armyPresence * 0.1) +
    (inflationFactor * 0.1)
  { p with happiness := max 0.0 (min 1.0 newHappiness) }

/-- `Population::checkRebellion`: only when `happiness < 0.2` is `rand()` called, and the
result is `rand() % 100 < (0.2 - happiness) * 100 * 2`, the draw converted to `double` and
the right-hand side computed in `double` arithmetic. -/
def Population.checkRebellion (p : Population) (rand : Rand) : Bool × Rand :=
  if Double.lt p.happiness 0.2 then
    let d := rand.next
    (decide (Double.lt ((d.1 % 100 : Int) : ℚ)
      (Double.mul (Double.mul (Double.sub 0.2 p.happiness) 100) 2)), d.2)
  else (false, rand)

/-- `Army::calculateStrength`:
`(int)((infantry + 3*cavalry + 2*archers) * (0.5 + 0.5*morale) * (0.8 + 0.2*trainingLevel))`,
the two multipliers and the two products computed in `double` arithmetic. -/
def Army.calculateStrength (a : Army) : Int :=
  let baseStrength := a.infantry + (a.cavalry * 3) + (a.archers * 2)
  let moraleMultiplier : ℚ := Double.add 0.5 (Double.mul a.morale 0.5)
  let trainingMultiplier : ℚ := Double.add 0.8 (Double.mul (a.trainingLevel : ℚ) 0.2)
  toInt (Double.mul (Double.mul (baseStrength : ℚ) moraleMultiplier) trainingMultiplier)

/-- `Army::updateMorale`: the new morale is
`0.7*morale + 0.1*payFactor + 0.1*happiness + warEffect`, clamped to [0.1, 1], with
`payFactor = min(1, treasury / (5 * army total))` and `warEffect` -0.1 at war, 0.05 at
peace. The quotient is taken in `ℚ`; with an empty army the source divides by zero. -/
def Army.updateMorale (a : Army) (economy : Economy) (population : Population) : Army :=
  let payFactor := min 1.0 ((economy.treasuryGold : ℚ) / ((a.getTotal * 5 : Int) : ℚ))
  let populationSupport := population.happiness
  let warEffect : ℚ := if a.isAtWar then -0.1 else 0.05
  let newMorale := (a.morale * 0.7) + (payFactor * 0.1) + (populationSupport * 0.1) + warEffect
  { a with morale := max 0.1 (min 1.0 newMorale) }

/-- `Army::checkRebellion`: only when `morale < 0.2 && happiness < 0.3` is `rand()` called,
and the result is `rand() % 100 < (0.2 - morale) * 100 * 3`, the draw converted to `double`
and the right-hand side computed in `double` arithmetic. -/
def Army.checkRebellion (a : Army) (population : Population) (rand : Rand) : Bool × Rand :=
  if Double.lt a.morale 0.2 ∧ Double.lt population.happiness 0.3 then
    let d := rand.next
    (decide (Double.lt ((d.1 % 100 : Int) : ℚ)
      (Double.mul (Double.mul (Double.sub 0.2 a.morale) 100) 3)), d.2)
  else (false, rand)

/-- `Economy::collectTaxes`: each cohort pays the truncated `double` product of its rate
and the `int` product of its count and its weight (2, 10, 50); the sum is added to the
treasury and returned. -/
def Economy.collectTaxes (e : Economy) (population : Population) : Int × Economy :=
  let peasantTax := toInt (Double.mul (population.peasants * 2 : Int) e.peasantTaxRate)
  let merchantTax := toInt (Double.mul (population.merchants * 10 : Int) e.merchantTaxRate)
  let nobleTax := toInt (Double.mul (population.nobles * 50 : Int) e.nobleTaxRate)
  let totalTax := peasantTax + merchantTax + nobleTax
  (totalTax, { e with treasuryGold := e.treasuryGold + totalTax })

/-- `Economy::updateEconomy`: `treasury -= min(treasury, 2 * army total)`, then
`treasury -= min(treasury, population total / 10)`; the inflation becomes
`0.8*inflation + 0.05*(population/1000) - 0.03*min(1, treasury/10000)` clamped to
[0.01, 0.2]; a positive debt grows by `(int)(debt * 0.1)`. -/
def Economy.updateEconomy (e : Economy) (population : Population) (army : Army) : Economy :=
  let armyCost := army.getTotal * 2
  let treasuryGold := e.treasuryGold - min e.treasuryGold armyCost
  let bureaucracyCost := Int.tdiv population.getTotal 10
  let treasuryGold := treasuryGold - min treasuryGold bureaucracyCost
  let economicActivity : ℚ := (population.getTotal : ℚ) / 1000.0
  let treasuryRatio : ℚ := min 1.0 ((treasuryGold : ℚ) / 10000.0)
  let inflation := (e.inflation * 0.8) + (economicActivity * 0.05) - (treasuryRatio * 0.03)
  let inflation := max 0.01 (min 0.2 inflation)
  let debt := if e.debt > 0 then e.debt + toInt (e.debt * 0.1) else e.debt
  { e with treasuryGold := treasuryGold, inflation := inflation, debt := debt }

/-- `Economy::calculateUnrest`:
`min(1, 0.5*averageTaxRate + 0.3*(5*inflation) - 0.5*happiness)`. -/
def Economy.calculateUnrest (e : Economy) (population : Population) : ℚ :=
  let taxBurden := (e.peasantTaxRate + e.merchantTaxRate + e.nobleTaxRate) / 3.0
  let inflationImpact := e.inflation * 5.0
  let happinessOffset := population.happiness
  min 1.0 ((taxBurden * 0.5) + (inflationImpact * 0.3) - (happinessOffset * 0.5))

/-- `Economy::checkRiots`: `(unrest > 0.6) && (rand() % 100 < unrest * 100)`; `rand()` is
only called when `unrest > 0.6`. -/
def Economy.checkRiots (e : Economy) (population : Population) (rand : Rand) : Bool × Rand :=
  let unrest := e.calculateUnrest population
  if unrest > 0.6 then
    let d := rand.next
    (decide (((d.1 % 100 : Int) : ℚ) < unrest * 100), d.2)
  else (false, rand)

/-! ## Yearly updates of Market, Diplomacy and Bank -/

/-- `Market::updatePrices`: four calls of `rand()`, one per resource; the value becomes
`base * (1 + inflation) * (1 + (rand() % 20 - 10) * 0.01)` through `setValue`, with the
bases 1, 2, 3, 5 for food, wood, stone, iron. -/
def Market.updatePrices (m : Market) (economy : Economy) (rand : Rand) : Market × Rand :=
  let inflationFactor : ℚ := 1.0 + economy.inflation
  let d1 := rand.next
  let food := m.food.setValue (1.0 * inflationFactor * (1.0 + ((d1.1 % 20 - 10 : Int) : ℚ) * 0.01))
  let d2 := d1.2.next
  let wood := m.wood.setValue (2.0 * inflationFactor * (1.0 + ((d2.1 % 20 - 10 : Int) : ℚ) * 0.01))
  let d3 := d2.2.next
  let stone := m.stone.setValue (3.0 * inflationFactor * (1.0 + ((d3.1 % 20 - 10 : Int) : ℚ) * 0.01))
  let d4 := d3.2.next
  let iron := m.iron.setValue (5.0 * inflationFactor * (1.0 + ((d4.1 % 20 - 10 : Int) : ℚ) * 0.01))
  ({ m with food := food, wood := wood, stone := stone, iron := iron }, d4.2)

/-- `Market::produceResources`: with `peasantProduction = peasants / 5` and
`merchantProduction = merchants / 2`, food grows by `2 * peasantProduction`, wood by
`peasantProduction`, stone by `peasantProduction / 2`, iron by `peasantProduction / 4`, gold
by `2 * merchantProduction`. -/
def Market.produceResources (m : Market) (population : Population) : Market :=
  let peasantProduction := Int.tdiv population.peasants 5
  let merchantProduction := Int.tdiv population.merchants 2
  { m with
    food := m.food.changeAmount (peasantProduction * 2)
    wood := m.wood.changeAmount peasantProduction
    stone := m.stone.changeAmount (Int.tdiv peasantProduction 2)
    iron := m.iron.changeAmount (Int.tdiv peasantProduction 4)
    gold := m.gold.changeAmount (merchantProduction * 2) }

/-- `Market::consumeResources`: food shrinks by `min(stock, population + 2 * army)`, wood by
`min(stock, population / 10)`, iron by `min(stock, population / 50 + army / 20)`. -/
def Market.consumeResources (m : Market) (population : Population) (army : Army) : Market :=
  let totalPopulation := population.getTotal
  let totalArmy := army.getTotal
  let foodConsumption := totalPopulation + (totalArmy * 2)
  let woodConsumption := Int.tdiv totalPopulation 10
  let ironConsumption := Int.tdiv totalPopulation 50 + Int.tdiv totalArmy 20
  { m with
    food := m.food.changeAmount (-(min m.food.amount foodConsumption))
    wood := m.wood.changeAmount (-(min m.wood.amount woodConsumption))
    iron := m.iron.changeAmount (-(min m.iron.amount ironConsumption)) }

/-- `Diplomacy::improveRelations`: on the first entry with that name, with
`cost = 20 + 5 * relationLevel`: when `treasury >= cost` the treasury is set to
`treasury - cost` and `relationLevel = min(10, relationLevel + 2)`; otherwise nothing is
written. -/
def Diplomacy.improveRelations (d : Diplomacy) (kingdomName : String) (economy : Economy) :
    Bool × Diplomacy × Economy :=
  match Diplomacy.lookup kingdomName d.foreignKingdoms with
  | none => (false, d, economy)
  | some (before, k, after) =>
    let cost := 20 + (k.relationLevel * 5)
    if economy.treasuryGold ≥ cost then
      let economy := economy.setTreasuryGold (economy.treasuryGold - cost)
      let k := { k with relationLevel := min 10 (k.relationLevel + 2) }
      (true, { d with foreignKingdoms := before ++ k :: after }, economy)
    else
      (false, d, economy)

/-- `Diplomacy::establishTrade`: on the first entry with that name, when
`!atWar && relationLevel >= 2`: food, wood and iron grow by `100 + 20r`, `50 + 10r`,
`30 + 5r` and the treasury is set to `treasury + 200 + 50r`; the roster is not written. -/
def Diplomacy.establishTrade (d : Diplomacy) (kingdomName : String) (market : Market)
    (economy : Economy) : Bool × Diplomacy × Market × Economy :=
  match Diplomacy.lookup kingdomName d.foreignKingdoms with
  | none => (false, d, market, economy)
  | some (_, k, _) =>
    if !k.atWar && decide (k.relationLevel ≥ 2) then
      let market := { market with
        food := market.food.changeAmount (100 + (k.relationLevel * 20))
        wood := market.wood.changeAmount (50 + (k.relationLevel * 10))
        iron := market.iron.changeAmount (30 + (k.relationLevel * 5)) }
      let economy := economy.setTreasuryGold (economy.treasuryGold + 200 + (k.relationLevel * 50))
      (true, d, market, economy)
    else
      (false, d, market, economy)

/-- The loop of `Diplomacy::updateDiplomacy` over the roster, one call of `rand()` per
entry. An entry at war: `relationLevel = max(-10, relationLevel - 1)`, and with
`rand() % 100 < 20` a battle: when the strength of the army exceeds the strength of the
entry, `strength = max(100, strength - playerStrength / 10)`. An entry at peace:
`relationLevel = max(-10, min(10, relationLevel + rand() % 3 - 1))`. -/
def Diplomacy.updateEntries (army : Army) :
    List Diplomacy.Kingdom → Rand → List Diplomacy.Kingdom × Rand
  | [], rand => ([], rand)
  | k :: ks, rand =>
    let d := rand.next
    let k : Diplomacy.Kingdom :=
      if k.atWar then
        let k := { k with relationLevel := max (-10) (k.relationLevel - 1) }
        let playerStrength := army.calculateStrength
        let enemyStrength := k.strength
        if d.1 % 100 < 20 then
          if playerStrength > enemyStrength then
            { k with strength := max 100 (k.strength - Int.tdiv playerStrength 10) }
          else k
        else k
      else
        let drift := d.1 % 3 - 1
        { k with relationLevel := max (-10) (min 10 (k.relationLevel + drift)) }
    let r := Diplomacy.updateEntries army ks d.2
    (k :: r.1, r.2)

/-- `Diplomacy::updateDiplomacy`; the economy is not read. -/
def Diplomacy.updateDiplomacy (d : Diplomacy) (army : Army) (_economy : Economy) (rand : Rand) :
    Diplomacy × Rand :=
  let r := Diplomacy.updateEntries army d.foreignKingdoms rand
  ({ d with foreignKingdoms := r.1 }, r.2)

/-- `Bank::repayLoan`: rejected when
`amount <= 0 || amount > treasury || amount > debt`; otherwise the treasury and the debt are
lowered through their setters, `currentLoans -= amount` and a negative `currentLoans` is
reset to 0. -/
def Bank.repayLoan (b : Bank) (amount : Int) (economy : Economy) : Bool × Bank × Economy :=
  if amount ≤ 0 ∨ amount > economy.treasuryGold ∨ amount > economy.debt then
    (false, b, economy)
  else
    let economy := economy.setTreasuryGold (economy.treasuryGold - amount)
    let economy := economy.setDebt (economy.debt - amount)
    let currentLoans := b.currentLoans - amount
    let currentLoans := if currentLoans < 0 then 0 else currentLoans
    (true, { b with currentLoans := currentLoans }, economy)

/-- `Bank::updateInterest`: the debt is set to `debt + (int)(debt * interestRate)`, the
product taken in `double` arithmetic. -/
def Bank.updateInterest (b : Bank) (economy : Economy) : Economy :=
  let interest := toInt (Double.mul economy.debt b.interestRate)
  economy.setDebt (economy.debt + interest)

/-- `Bank::attemptCorruption`: only when `corruptionLevel > 0` is `rand()` called; with
`rand() % 100 < corruptionLevel` the treasury loses `treasury * corruptionLevel / 1000` and
the happiness changes by `-0.05 - corruptionLevel / 1000`. -/
def Bank.attemptCorruption (b : Bank) (economy : Economy) (population : Population)
    (rand : Rand) : Economy × Population × Rand :=
  if b.corruptionLevel > 0 then
    let d := rand.next
    if d.1 % 100 < b.corruptionLevel then
      let corruptionAmount := Int.tdiv (economy.treasuryGold * b.corruptionLevel) 1000
      let economy := economy.setTreasuryGold (economy.treasuryGold - corruptionAmount)
      let happinessImpact : ℚ := -0.05 - ((b.corruptionLevel : ℚ) / 1000.0)
      (economy, population.setHappiness (population.happiness + happinessImpact), d.2)
    else (economy, population, d.2)
  else (economy, population, rand)

/-! ## Effects of the ruler and of the resources -/

/-- `King::applyEffects`: `setInflation(max(0.01, inflation - 0.01*intelligence))`,
`setMorale(min(1.0, morale + 0.01*strength))`,
`setHappiness(min(1.0, happiness + 0.02*royalBloodline))`. The bonus computed from the
charisma is not used. -/
def King.applyEffects (intelligence strength royalBloodline : Int) (kingdom : Kingdom) :
    Kingdom :=
  let economyBonus : ℚ := (intelligence : ℚ) * 0.01
  let economy := kingdom.economy.setInflation (max 0.01 (kingdom.economy.inflation - economyBonus))
  let armyBonus : ℚ := (strength : ℚ) * 0.01
  let army := kingdom.army.setMorale (min 1.0 (kingdom.army.morale + armyBonus))
  let loyaltyBonus : ℚ := (royalBloodline : ℚ) * 0.02
  let population :=
    kingdom.population.setHappiness (min 1.0 (kingdom.population.happiness + loyaltyBonus))
  { kingdom with economy := economy, army := army, population := population }

/-- `Commander::applyEffects`: `setMorale(min(1.0, morale + 0.02*tacticalSkill*0.1))`; then
`rand()` is called only when `loyalty < 30`, for a warning that changes no state. -/
def Commander.applyEffects (tacticalSkill loyalty : Int) (kingdom : Kingdom) (rand : Rand) :
    Kingdom × Rand :=
  let armyStrengthBonus : ℚ := (tacticalSkill : ℚ) * 0.02
  let currentMorale := kingdom.army.morale
  let army := kingdom.army.setMorale (min 1.0 (currentMorale + armyStrengthBonus * 0.1))
  let rand := if loyalty < 30 then rand.next.2 else rand
  ({ kingdom with army := army }, rand)

/-- `GuildLeader::applyEffects`:
`setInflation(max(0.01, inflation - 0.02*businessAcumen*0.01))`; then for the guild
"Merchants" the treasury is set to `treasury + merchants * businessAcumen / 100`, for
"Farmers" the food grows by `businessAcumen / 10 + 5`, for any other guild nothing. -/
def GuildLeader.applyEffects (guildType : String) (businessAcumen : Int) (kingdom : Kingdom) :
    Kingdom :=
  let economyBonus : ℚ := (businessAcumen : ℚ) * 0.02
  let economy :=
    kingdom.economy.setInflation (max 0.01 (kingdom.economy.inflation - economyBonus * 0.01))
  let kingdom := { kingdom with economy := economy }
  if guildType = "Merchants" then
    let merchantCount := kingdom.population.merchants
    let bonusGold := Int.tdiv (merchantCount * businessAcumen) 100
    { kingdom with
      economy := kingdom.economy.setTreasuryGold (kingdom.economy.treasuryGold + bonusGold) }
  else if guildType = "Craftsmen" then
    kingdom
  else if guildType = "Farmers" then
    { kingdom with
      market := { kingdom.market with
        food := kingdom.market.food.changeAmount (Int.tdiv businessAcumen 10 + 5) } }
  else kingdom

/-- The virtual call `ruler->applyEffects(kingdom)`. -/
def Leader.applyEffects (l : Leader) (kingdom : Kingdom) (rand : Rand) : Kingdom × Rand :=
  match l with
  | .King _ _ intelligence strength royalBloodline _ =>
    (King.applyEffects intelligence strength royalBloodline kingdom, rand)
  | .Commander _ _ _ _ tacticalSkill loyalty =>
    Commander.applyEffects tacticalSkill loyalty kingdom rand
  | .GuildLeader _ _ _ _ guildType businessAcumen =>
    (GuildLeader.applyEffects guildType businessAcumen kingdom, rand)

/-- `Iron::applyEffects`, run on the iron resource of the market: when `amount > 100` the
training level of the army is set to `trainingLevel + 1`. -/
def Iron.applyEffects (iron : Resource) (kingdom : Kingdom) : Kingdom :=
  if iron.amount > 100 then
    let currentLevel := kingdom.army.trainingLevel
    { kingdom with army := kingdom.army.setTrainingLevel (currentLevel + 1) }
  else kingdom

/-! ## RandomEvents: the catalog -/

/-- Enumeration `RandomEvents::EventType`, in the order of its declaration (0 to 9). -/
inductive EventType where
  | PLAGUE
  | GOOD_HARVEST
  | DROUGHT
  | FOREIGN_INVASION
  | REBELLION
  | ASSASSINATION
  | DISCOVERY
  | FESTIVAL
  | FIRE
  | EARTHQUAKE
  deriving DecidableEq

namespace RandomEvents

/-- `RandomEvents::checkForEvent`; `now` is the value of `time(0)`. Only when more than 5
seconds have passed since `lastEventTime` is `rand()` called; with
`rand() % 100 < eventChance` the time of the last event becomes `now` and the result is
true. -/
def checkForEvent (ev : RandomEvents) (now : Int) (rand : Rand) : Bool × RandomEvents × Rand :=
  let currentTime := now
  if currentTime - ev.lastEventTime > 5 then
    let d := rand.next
    if d.1 % 100 < ev.eventChance then
      (true, { ev with lastEventTime := currentTime }, d.2)
    else (false, ev, d.2)
  else (false, ev, rand)

/-- `RandomEvents::generateEvent`: `static_cast<EventType>(rand() % 10)`. -/
def generateEvent (rand : Rand) : EventType × Rand :=
  let d := rand.next
  let e : EventType :=
    if d.1 % 10 = 0 then .PLAGUE
    else if d.1 % 10 = 1 then .GOOD_HARVEST
    else if d.1 % 10 = 2 then .DROUGHT
    else if d.1 % 10 = 3 then .FOREIGN_INVASION
    else if d.1 % 10 = 4 then .REBELLION
    else if d.1 % 10 = 5 then .ASSASSINATION
    else if d.1 % 10 = 6 then .DISCOVERY
    else if d.1 % 10 = 7 then .FESTIVAL
    else if d.1 % 10 = 8 then .FIRE
    else .EARTHQUAKE
  (e, d.2)

/-- `RandomEvents::describePlagueEvent`: with `populationLoss = total / 10`,
`setPeasants(peasants - populationLoss * 8 / 10)`,
`setMerchants((int)(merchants - populationLoss * 1.5 / 10))`,
`setNobles((int)(nobles - populationLoss * 0.5 / 10))`, `setHappiness(happiness - 0.2)`. -/
def describePlagueEvent (kingdom : Kingdom) : Kingdom :=
  let populationLoss := Int.tdiv kingdom.population.getTotal 10
  let p := kingdom.population
  let p := p.setPeasants (p.peasants - Int.tdiv (populationLoss * 8) 10)
  let p := p.setMerchants (toInt ((p.merchants : ℚ) - ((populationLoss : ℚ) * 1.5 / 10)))
  let p := p.setNobles (toInt ((p.nobles : ℚ) - ((populationLoss : ℚ) * 0.5 / 10)))
  let p := p.setHappiness (p.happiness - 0.2)
  { kingdom with population := p }

/-- `RandomEvents::describeGoodHarvestEvent`: the food grows by `2 * peasants`,
`setHappiness(happiness + 0.15)`. -/
def describeGoodHarvestEvent (kingdom : Kingdom) : Kingdom :=
  let foodGain := kingdom.population.peasants * 2
  { kingdom with
    market := { kingdom.market with food := kingdom.market.food.changeAmount foodGain }
    population := kingdom.population.setHappiness (kingdom.population.happiness + 0.15) }

/-- `RandomEvents::describeDroughtEvent`: the food shrinks by `food / 3`,
`setHappiness(happiness - 0.1)`. -/
def describeDroughtEvent (kingdom : Kingdom) : Kingdom :=
  let foodLoss := Int.tdiv kingdom.market.food.amount 3
  { kingdom with
    market := { kingdom.market with food := kingdom.market.food.changeAmount (-foodLoss) }
    population := kingdom.population.setHappiness (kingdom.population.happiness - 0.1) }

/-- `RandomEvents::describeForeignInvasionEvent`: with `armyLoss = army total / 10`,
`setInfantry(infantry - armyLoss * 6 / 10)`, `setCavalry(cavalry - armyLoss * 2 / 10)`,
`setArchers(archers - armyLoss * 2 / 10)`, `setWarStatus(true)`,
`setMorale(morale - 0.15)`. -/
def describeForeignInvasionEvent (kingdom : Kingdom) : Kingdom :=
  let armyLoss := Int.tdiv kingdom.army.getTotal 10
  let a := kingdom.army
  let a := a.setInfantry (a.infantry - Int.tdiv (armyLoss * 6) 10)
  let a := a.setCavalry (a.cavalry - Int.tdiv (armyLoss * 2) 10)
  let a := a.setArchers (a.archers - Int.tdiv (armyLoss * 2) 10)
  let a := a.setWarStatus true
  let a := a.setMorale (a.morale - 0.15)
  { kingdom with army := a }

/-- `RandomEvents::describeRebellionEvent`:
`setPeasants(peasants - population total / 10)`, `setInfantry(infantry - army total / 10)`,
`setHappiness(happiness - 0.2)`, `setMorale(morale - 0.2)`. -/
def describeRebellionEvent (kingdom : Kingdom) : Kingdom :=
  let populationLoss := Int.tdiv kingdom.population.getTotal 10
  let p := kingdom.population.setPeasants (kingdom.population.peasants - populationLoss)
  let armyLoss := Int.tdiv kingdom.army.getTotal 10
  let a := kingdom.army.setInfantry (kingdom.army.infantry - armyLoss)
  let p := p.setHappiness (p.happiness - 0.2)
  let a := a.setMorale (a.morale - 0.2)
  { kingdom with population := p, army := a }

/-- `RandomEvents::describeAssassinationEvent`: with `rand() % 2 == 0`,
`setHappiness(happiness - 0.1)`; otherwise the ruler becomes
`King("New King", 50, 50, 50, 50)` and `setHappiness(happiness - 0.3)`. -/
def describeAssassinationEvent (kingdom : Kingdom) (rand : Rand) : Kingdom × Rand :=
  let d := rand.next
  if d.1 % 2 = 0 then
    ({ kingdom with
        population := kingdom.population.setHappiness (kingdom.population.happiness - 0.1) },
      d.2)
  else
    let kingdom := kingdom.setRuler (Leader.newKing "New King" 50 50 50 50)
    ({ kingdom with
        population := kingdom.population.setHappiness (kingdom.population.happiness - 0.3) },
      d.2)

/-- `RandomEvents::describeDiscoveryEvent`: `rand() % 3` chooses iron
(`100 + rand() % 100`), wood (`200 + rand() % 200`) or stone (`150 + rand() % 150`), which
grows by that amount; then `setHappiness(happiness + 0.1)`. -/
def describeDiscoveryEvent (kingdom : Kingdom) (rand : Rand) : Kingdom × Rand :=
  let d := rand.next
  let resourceType := d.1 % 3
  let g := d.2.next
  let market : Market :=
    if resourceType = 0 then
      { kingdom.market with iron := kingdom.market.iron.changeAmount (100 + g.1 % 100) }
    else if resourceType = 1 then
      { kingdom.market with wood := kingdom.market.wood.changeAmount (200 + g.1 % 200) }
    else
      { kingdom.market with stone := kingdom.market.stone.changeAmount (150 + g.1 % 150) }
  ({ kingdom with
      market := market
      population := kingdom.population.setHappiness (kingdom.population.happiness + 0.1) },
    g.2)

/-- `RandomEvents::describeFestivalEvent`: `setHappiness(happiness + 0.2)`,
`setTreasuryGold(treasury - 100)`. -/
def describeFestivalEvent (kingdom : Kingdom) : Kingdom :=
  { kingdom with
    population := kingdom.population.setHappiness (kingdom.population.happiness + 0.2)
    economy := kingdom.economy.setTreasuryGold (kingdom.economy.treasuryGold - 100) }

/-- `RandomEvents::describeFireEvent`: the wood shrinks by `wood / 4`, the food by
`food / 5`, `setHappiness(happiness - 0.15)`. -/
def describeFireEvent (kingdom : Kingdom) : Kingdom :=
  let woodLoss := Int.tdiv kingdom.market.wood.amount 4
  let foodLoss := Int.tdiv kingdom.market.food.amount 5
  { kingdom with
    market := { kingdom.market with
      wood := kingdom.market.wood.changeAmount (-woodLoss)
      food := kingdom.market.food.changeAmount (-foodLoss) }
    population := kingdom.population.setHappiness (kingdom.population.happiness - 0.15) }

/-- `RandomEvents::describeEarthquakeEvent`: the stone shrinks by `stone / 3`,
`setPeasants(peasants - population total / 20)`, `setHappiness(happiness - 0.2)`. -/
def describeEarthquakeEvent (kingdom : Kingdom) : Kingdom :=
  let stoneLoss := Int.tdiv kingdom.market.stone.amount 3
  let populationLoss := Int.tdiv kingdom.population.getTotal 20
  let p := kingdom.population.setPeasants (kingdom.population.peasants - populationLoss)
  let p := p.setHappiness (p.happiness - 0.2)
  { kingdom with
    market := { kingdom.market with stone := kingdom.market.stone.changeAmount (-stoneLoss) }
    population := p }

/-- `RandomEvents::applyEvent`: the `switch` over the ten kinds. -/
def applyEvent (event : EventType) (kingdom : Kingdom) (rand : Rand) : Kingdom × Rand :=
  match event with
  | .PLAGUE => (describePlagueEvent kingdom, rand)
  | .GOOD_HARVEST => (describeGoodHarvestEvent kingdom, rand)
  | .DROUGHT => (describeDroughtEvent kingdom, rand)
  | .FOREIGN_INVASION => (describeForeignInvasionEvent kingdom, rand)
  | .REBELLION => (describeRebellionEvent kingdom, rand)
  | .ASSASSINATION => describeAssassinationEvent kingdom rand
  | .DISCOVERY => describeDiscoveryEvent kingdom rand
  | .FESTIVAL => (describeFestivalEvent kingdom, rand)
  | .FIRE => (describeFireEvent kingdom, rand)
  | .EARTHQUAKE => (describeEarthquakeEvent kingdom, rand)

end RandomEvents

/-! ## Kingdom: game over, elections and the yearly pipeline -/

/-- Constructor `Commander::Commander(name, charisma, intelligence, strength, tacticalSkill)`:
the loyalty is `50 + rand() % 51`. -/
def Leader.newCommander (name : String) (charisma intelligence strength tacticalSkill : Int)
    (rand : Rand) : Leader × Rand :=
  let d := rand.next
  (.Commander name charisma intelligence strength tacticalSkill (50 + d.1 % 51), d.2)

namespace Kingdom

/-- `Kingdom::isGameOver`:
`total < 10 || (treasury <= 0 && debt > 5000) || (happiness < 0.1 && morale < 0.1)`. -/
def isGameOver (k : Kingdom) : Bool :=
  decide (k.population.getTotal < 10) ||
    (decide (k.economy.treasuryGold ≤ 0) && decide (k.economy.debt > 5000)) ||
    (decide (k.population.happiness < 0.1) && decide (k.army.morale < 0.1))

/-- `Kingdom::holdElections`: `rand() % 3` chooses `King("Elected King", 60, 50, 50, 60)`,
`Commander("Elected Commander", 50, 50, 70, 60)` or
`GuildLeader("Elected Guild Leader", 50, 60, 50, "Merchants", 60)` as the new ruler; then
`setHappiness(happiness + 0.1)`. -/
def holdElections (k : Kingdom) (rand : Rand) : Kingdom × Rand :=
  let d := rand.next
  let leaderType := d.1 % 3
  let r : Leader × Rand :=
    if leaderType = 0 then (Leader.newKing "Elected King" 60 50 50 60, d.2)
    else if leaderType = 1 then Leader.newCommander "Elected Commander" 50 50 70 60 d.2
    else (.GuildLeader "Elected Guild Leader" 50 60 50 "Merchants" 60, d.2)
  let k := k.setRuler r.1
  ({ k with population := k.population.setHappiness (k.population.happiness + 0.1) }, r.2)

end Kingdom

/-! ### The statements of `Kingdom::advanceYear`

Each definition is one statement (or one `if` block) of `advanceYear`, acting on the
kingdom and on what is left of the random stream. -/

namespace advanceYear

/-- Statement `population->updatePopulation(*economy, *army);`. -/
def updatePopulation (s : Kingdom × Rand) : Kingdom × Rand :=
  let r := s.1.population.updatePopulation s.1.economy s.1.army s.2
  ({ s.1 with population := r.1 }, r.2)

/-- Statement `population->calculateHappiness(*economy, *army);`. -/
def calculateHappiness (s : Kingdom × Rand) : Kingdom × Rand :=
  ({ s.1 with population := s.1.population.calculateHappiness s.1.economy s.1.army }, s.2)

/-- Statement `army->updateMorale(*economy, *population);`. -/
def updateMorale (s : Kingdom × Rand) : Kingdom × Rand :=
  ({ s.1 with army := s.1.army.updateMorale s.1.economy s.1.population }, s.2)

/-- Statement `economy->updateEconomy(*population, *army);`. -/
def updateEconomy (s : Kingdom × Rand) : Kingdom × Rand :=
  ({ s.1 with economy := s.1.economy.updateEconomy s.1.population s.1.army }, s.2)

/-- Statement `market->updatePrices(*economy);`. -/
def updatePrices (s : Kingdom × Rand) : Kingdom × Rand :=
  let r := s.1.market.updatePrices s.1.economy s.2
  ({ s.1 with market := r.1 }, r.2)

/-- Statement `market->produceResources(*population);`. -/
def produceResources (s : Kingdom × Rand) : Kingdom × Rand :=
  ({ s.1 with market := s.1.market.produceResources s.1.population }, s.2)

/-- Statement `market->consumeResources(*population, *army);`. -/
def consumeResources (s : Kingdom × Rand) : Kingdom × Rand :=
  ({ s.1 with market := s.1.market.consumeResources s.1.population s.1.army }, s.2)

/-- Statement `diplomacy->updateDiplomacy(*army, *economy);`. -/
def updateDiplomacy (s : Kingdom × Rand) : Kingdom × Rand :=
  let r := s.1.diplomacy.updateDiplomacy s.1.army s.1.economy s.2
  ({ s.1 with diplomacy := r.1 }, r.2)

/-- Statement `bank->updateInterest(*economy);`. -/
def updateInterest (s : Kingdom × Rand) : Kingdom × Rand :=
  ({ s.1 with economy := s.1.bank.updateInterest s.1.economy }, s.2)

/-- Statement `bank->attemptCorruption(*economy, *population);`. -/
def attemptCorruption (s : Kingdom × Rand) : Kingdom × Rand :=
  let r := s.1.bank.attemptCorruption s.1.economy s.1.population s.2
  ({ s.1 with economy := r.1, population := r.2.1 }, r.2.2)

/-- Statement `ruler->applyEffects(*this);`. -/
def rulerEffects (s : Kingdom × Rand) : Kingdom × Rand :=
  s.1.ruler.applyEffects s.1 s.2

/-- Statement `market->getFood()->applyEffects(*this);`. -/
def foodEffects (s : Kingdom × Rand) : Kingdom × Rand :=
  (Food.applyEffects s.1.market.food s.1, s.2)

/-- Statement `market->getIron()->applyEffects(*this);`. -/
def ironEffects (s : Kingdom × Rand) : Kingdom × Rand :=
  (Iron.applyEffects s.1.market.iron s.1, s.2)

/-- Block `if (events->checkForEvent()) { event = events->generateEvent();
events->applyEvent(event, *this); }`; `now` is the value of `time(0)`. -/
def randomEvent (now : Int) (s : Kingdom × Rand) : Kingdom × Rand :=
  let c := s.1.events.checkForEvent now s.2
  let k := { s.1 with events := c.2.1 }
  if c.1 then
    let e := RandomEvents.generateEvent c.2.2
    RandomEvents.applyEvent e.1 k e.2
  else (k, c.2.2)

/-- Block `if (population->checkRebellion() || army->checkRebellion(*population) ||
economy->checkRiots(*population)) events->applyEvent(REBELLION, *this);`; a later test is
only evaluated when the earlier ones are false. -/
def unrest (s : Kingdom × Rand) : Kingdom × Rand :=
  let c1 := s.1.population.checkRebellion s.2
  let c : Bool × Rand :=
    if c1.1 then c1
    else
      let c2 := s.1.army.checkRebellion s.1.population c1.2
      if c2.1 then c2
      else s.1.economy.checkRiots s.1.population c2.2
  if c.1 then RandomEvents.applyEvent .REBELLION s.1 c.2 else (s.1, c.2)

/-- Statement `int taxes = economy->collectTaxes(*population);`. -/
def collectTaxes (s : Kingdom × Rand) : Kingdom × Rand :=
  ({ s.1 with economy := (s.1.economy.collectTaxes s.1.population).2 }, s.2)

/-- Statements `gameYear++; calculateScore();`. -/
def nextYear (s : Kingdom × Rand) : Kingdom × Rand :=
  (Kingdom.calculateScore { s.1 with gameYear := s.1.gameYear + 1 }, s.2)

end advanceYear

/-- `Kingdom::advanceYear`: the statements in their order. `rand` holds the values that
`rand()` will return and `now` is the value of `time(0)` at the cooldown check; the result
holds the new kingdom and the part of the random stream that was not used. -/
def Kingdom.advanceYear (k : Kingdom) (rand : Rand) (now : Int) : Kingdom × Rand :=
  (k, rand)
    |> advanceYear.updatePopulation
    |> advanceYear.calculateHappiness
    |> advanceYear.updateMorale
    |> advanceYear.updateEconomy
    |> advanceYear.updatePrices
    |> advanceYear.produceResources
    |> advanceYear.consumeResources
    |> advanceYear.updateDiplomacy
    |> advanceYear.updateInterest
    |> advanceYear.attemptCorruption
    |> advanceYear.rulerEffects
    |> advanceYear.foodEffects
    |> advanceYear.ironEffects
    |> advanceYear.randomEvent now
    |> advanceYear.unrest
    |> advanceYear.collectTaxes
    |> advanceYear.nextYear

/-- `Kingdom::loadGame` with its first statements: `none` is a file that cannot be opened,
for which the function returns false at once; `some file` is read by `loadGame`. -/
def Kingdom.loadGameFile (k : Kingdom) (tempInt : Int) (tempDouble : ℚ)
    (royalBloodline yearsInPower : Int) (file : Option (List Char)) : Bool × Kingdom :=
  match file with
  | none => (false, k)
  | some f => k.loadGame tempInt tempDouble royalBloodline yearsInPower f

/-! ## Conditions used to state what `loadGame` leaves alone -/

/-- The parts of a kingdom that the snapshot file does not hold are the same in `k` and in
`k2`: the roster, the bank, the event state, the gold, the price fluctuation, and the name
and unit value of food, wood, stone and iron. -/
def Kingdom.unsavedPartsEq (k k2 : Kingdom) : Prop :=
  k2.diplomacy = k.diplomacy ∧ k2.bank = k.bank ∧ k2.events = k.events ∧
  k2.market.gold = k.market.gold ∧
  k2.market.priceFluctuation = k.market.priceFluctuation ∧
  (k2.market.food.name = k.market.food.name ∧ k2.market.food.value = k.market.food.value) ∧
  (k2.market.wood.name = k.market.wood.name ∧ k2.market.wood.value = k.market.wood.value) ∧
  (k2.market.stone.name = k.market.stone.name ∧
    k2.market.stone.value = k.market.stone.value) ∧
  (k2.market.iron.name = k.market.iron.name ∧ k2.market.iron.value = k.market.iron.value)

instance (k k2 : Kingdom) : Decidable (k.unsavedPartsEq k2) := by
  unfold Kingdom.unsavedPartsEq
  infer_instance

/-! ## Sequences of calls on the roster -/

/-- One call of an operation of `Diplomacy` that can write the roster, with the arguments
passed to it. (The raw pointer returned by `getForeignKingdomsMutable` is not a call of this
kind; the program uses it once, to lower the strength of an entry after a battle.) -/
inductive Diplomacy.Call where
  | addKingdom (name : String) (strength : Int)
  | improveRelations (kingdomName : String) (economy : Economy)
  | declareWar (kingdomName : String) (army : Army)
  | signPeace (kingdomName : String) (economy : Economy)
  | formAlliance (kingdomName : String)
  | establishTrade (kingdomName : String) (market : Market) (economy : Economy)
  | updateDiplomacy (army : Army) (economy : Economy) (rand : Rand)

/-- The `Diplomacy` object after one call. -/
def Diplomacy.call (d : Diplomacy) : Diplomacy.Call → Diplomacy
  | .addKingdom name strength => d.addKingdom name strength
  | .improveRelations kingdomName economy => (d.improveRelations kingdomName economy).2.1
  | .declareWar kingdomName army => (d.declareWar kingdomName army).2.1
  | .signPeace kingdomName economy => (d.signPeace kingdomName economy).2.1
  | .formAlliance kingdomName => (d.formAlliance kingdomName).2
  | .establishTrade kingdomName market economy =>
    (d.establishTrade kingdomName market economy).2.1
  | .updateDiplomacy army economy rand => (d.updateDiplomacy army economy rand).1

/-- The `Diplomacy` object after a sequence of calls, the first call first. -/
def Diplomacy.calls (d : Diplomacy) (cs : List Diplomacy.Call) : Diplomacy :=
  cs.foldl Diplomacy.call d

/-- The names of the roster entries, in the order of the array. -/
def Diplomacy.names (d : Diplomacy) : List String :=
  d.foreignKingdoms.map (fun k => k.name)

/-- Every `addKingdom` of the sequence is called with a name that no roster entry carries
at the time of the call. -/
def Diplomacy.addsNewNames : Diplomacy → List Diplomacy.Call → Prop
  | _, [] => True
  | d, c :: cs =>
    (match c with
      | .addKingdom name _ => name ∉ d.names
      | _ => True) ∧
    Diplomacy.addsNewNames (d.call c) cs

instance Diplomacy.addsNewNames.decidable :
    (d : Diplomacy) → (cs : List Diplomacy.Call) → Decidable (d.addsNewNames cs)
  | _, [] => isTrue trivial
  | d, c :: cs =>
    have := Diplomacy.addsNewNames.decidable (d.call c) cs
    match c with
    | .addKingdom name _ =>
      inferInstanceAs (Decidable (name ∉ d.names ∧ Diplomacy.addsNewNames _ cs))
    | .improveRelations _ _ => inferInstanceAs (Decidable (True ∧ Diplomacy.addsNewNames _ cs))
    | .declareWar _ _ => inferInstanceAs (Decidable (True ∧ Diplomacy.addsNewNames _ cs))
    | .signPeace _ _ => inferInstanceAs (Decidable (True ∧ Diplomacy.addsNewNames _ cs))
    | .formAlliance _ => inferInstanceAs (Decidable (True ∧ Diplomacy.addsNewNames _ cs))
    | .establishTrade _ _ _ => inferInstanceAs (Decidable (True ∧ Diplomacy.addsNewNames _ cs))
    | .updateDiplomacy _ _ _ => inferInstanceAs (Decidable (True ∧ Diplomacy.addsNewNames _ cs))

/-! ## Conditions used to follow the population through a year -/

/-- The three cohort counts of `k2` are those of `k`. -/
def Kingdom.sameCohorts (k k2 : Kingdom) : Prop :=
  k2.population.peasants = k.population.peasants ∧
  k2.population.merchants = k.population.merchants ∧
  k2.population.nobles = k.population.nobles

instance (k k2 : Kingdom) : Decidable (k.sameCohorts k2) := by
  unfold Kingdom.sameCohorts
  infer_instance

/-! ## Desertion -/

/-- `Army::calculateDesertion`: with `morale < 0.4`,
`deserters = (int)(total * ((0.4 - morale) * 0.5))`; the infantry loses
`min(infantry, (int)(deserters * 0.6))`, the cavalry `min(cavalry, (int)(deserters * 0.2))`,
the archers `min(archers, (int)(deserters * 0.2))`, and the sum of the three is returned;
otherwise 0 is returned and nothing is written. The comparison, the difference and the
products are those of `double`. The counts are written directly. -/
def Army.calculateDesertion (a : Army) : Int × Army :=
  if Double.lt a.morale 0.4 then
    let desertionRate : ℚ := Double.mul (Double.sub 0.4 a.morale) 0.5
    let deserters := toInt (Double.mul (a.getTotal : ℚ) desertionRate)
    let infantryDeserters := min a.infantry (toInt (Double.mul (deserters : ℚ) 0.6))
    let cavalryDeserters := min a.cavalry (toInt (Double.mul (deserters : ℚ) 0.2))
    let archerDeserters := min a.archers (toInt (Double.mul (deserters : ℚ) 0.2))
    (infantryDeserters + cavalryDeserters + archerDeserters,
      { a with infantry := a.infantry - infantryDeserters
               cavalry := a.cavalry - cavalryDeserters
               archers := a.archers - archerDeserters })
  else (0, a)

/-! ## The statements of `advanceYear` before the taxes, and the loan of the bank menu -/

/-- `displayBankMenu`, choice 1: the amount typed is accepted by `validateIntInput` when it
lies between 1 and `getMaxLoanAmount()`, and then
`kingdom.getBank()->takeLoan(amount, *kingdom.getEconomy())` runs. -/
def displayBankMenu_takeLoan (kingdom : Kingdom) (amount : Int) : Kingdom :=
  if amount < 1 ∨ amount > kingdom.bank.maxLoanAmount then kingdom
  else
    let r := kingdom.bank.takeLoan amount kingdom.economy
    { kingdom with bank := r.2.1, economy := r.2.2 }

/-! ## More call sites of the menus, and the statements before the event block -/

/-- `displayResourceManagementMenu`, choice 1: the amount typed is accepted by
`validateIntInput` when it lies between 1 and 1000, and then
`kingdom.getMarket()->buyResource(resourceType, amount, *kingdom.getEconomy())` runs. -/
def displayResourceManagementMenu_buyResource (kingdom : Kingdom) (resourceType : String)
    (amount : Int) : Kingdom :=
  if amount < 1 ∨ amount > 1000 then kingdom
  else
    let r := kingdom.market.buyResource resourceType amount kingdom.economy
    { kingdom with market := r.2.1, economy := r.2.2 }

/-- `displayResourceManagementMenu`, choice 2: the amount typed is accepted by
`validateIntInput` when it lies between 1 and 1000, and then
`kingdom.getMarket()->sellResource(resourceType, amount, *kingdom.getEconomy())` runs. -/
def displayResourceManagementMenu_sellResource (kingdom : Kingdom) (resourceType : String)
    (amount : Int) : Kingdom :=
  if amount < 1 ∨ amount > 1000 then kingdom
  else
    let r := kingdom.market.sellResource resourceType amount kingdom.economy
    { kingdom with market := r.2.1, economy := r.2.2 }

/-- `displayDiplomacyMenu`, choice 2:
`kingdom.getDiplomacy()->improveRelations(kingdomName, *kingdom.getEconomy())`. -/
def displayDiplomacyMenu_improveRelations (kingdom : Kingdom) (kingdomName : String) :
    Bool × Kingdom :=
  let r := kingdom.diplomacy.improveRelations kingdomName kingdom.economy
  (r.1, { kingdom with diplomacy := r.2.1, economy := r.2.2 })

/-- The statements of `Kingdom::advanceYear` that come before the random event block, from
`updatePopulation` to the effect of the iron, in their order. -/
def advanceYear.beforeEvent (k : Kingdom) (rand : Rand) : Kingdom × Rand :=
  (k, rand)
    |> advanceYear.updatePopulation
    |> advanceYear.calculateHappiness
    |> advanceYear.updateMorale
    |> advanceYear.updateEconomy
    |> advanceYear.updatePrices
    |> advanceYear.produceResources
    |> advanceYear.consumeResources
    |> advanceYear.updateDiplomacy
    |> advanceYear.updateInterest
    |> advanceYear.attemptCorruption
    |> advanceYear.rulerEffects
    |> advanceYear.foodEffects
    |> advanceYear.ironEffects

/-! # Theorems -/

/-! ## Shared lemmas -/

/-- A clamp `max(lo, min(hi, v))` lies between its bounds. -/
theorem clamp_between {α : Type} [LinearOrder α] (lo hi v : α) (h : lo ≤ hi) :
    lo ≤ max lo (min hi v) ∧ max lo (min hi v) ≤ hi :=
  ⟨le_max_left _ _, max_le h (min_le_left _ _)⟩

/-- A clamp leaves a value between the bounds as it is. -/
theorem clamp_of_between {α : Type} [LinearOrder α] (lo hi v : α) (h1 : lo ≤ v) (h2 : v ≤ hi) :
    max lo (min hi v) = v := by
  rw [min_eq_right h2, max_eq_right h1]

/-! ## Rounding to the nearest `double` -/

/-- The digit count is exact once the fuel is at least the number. -/
theorem Double.log2Aux_spec (fuel n : Nat) (hf : n ≤ fuel) (hn : n ≠ 0) :
    2 ^ Double.log2Aux fuel n ≤ n ∧ n < 2 ^ (Double.log2Aux fuel n + 1) := by
  induction fuel generalizing n with
  | zero => omega
  | succ fuel ih =>
    simp only [Double.log2Aux]
    split_ifs with h
    · constructor <;> simp <;> omega
    · have h2 : n / 2 ≠ 0 := by omega
      have h3 : n / 2 ≤ fuel := by omega
      obtain ⟨a, b⟩ := ih (n / 2) h3 h2
      constructor
      · rw [pow_succ]
        omega
      · rw [pow_succ]
        omega

/-- The exponent found for `x` is a lower bound: `2^L <= |x|`. -/
theorem Double.ilog2_le (x : ℚ) (hx : x ≠ 0) : (2 : ℚ) ^ Double.ilog2 x ≤ |x| := by
  simp only [Double.ilog2]
  split_ifs with h
  · exact h
  · have hnum : x.num.natAbs ≠ 0 := by
      simpa using Rat.num_ne_zero.mpr hx
    have hden : x.den ≠ 0 := x.den_nz
    obtain ⟨a1, _⟩ := Double.log2Aux_spec _ _ (le_refl _) hnum
    obtain ⟨_, b2⟩ := Double.log2Aux_spec _ _ (le_refl _) hden
    have habs : |x| = (x.num.natAbs : ℚ) / (x.den : ℚ) := by
      conv_lhs => rw [← Rat.num_div_den x]
      rw [abs_div, Nat.abs_cast, Nat.cast_natAbs, Int.cast_abs]
    rw [habs, zpow_sub_one₀ (by norm_num), zpow_sub₀ (by norm_num), zpow_natCast, zpow_natCast]
    have hd : (0 : ℚ) < (x.den : ℚ) := by exact_mod_cast Nat.pos_of_ne_zero hden
    have hp : (0 : ℚ) < (2 : ℚ) ^ Double.log2Aux x.den x.den := by positivity
    have a1q : (2 : ℚ) ^ Double.log2Aux x.num.natAbs x.num.natAbs ≤ (x.num.natAbs : ℚ) := by
      exact_mod_cast a1
    have b2q : (x.den : ℚ) < (2 : ℚ) ^ (Double.log2Aux x.den x.den + 1) := by
      exact_mod_cast b2
    rw [div_mul_eq_mul_div, div_le_div_iff₀ (by positivity) hd, pow_succ] at *
    nlinarith

/-- The exponent found for `x` is sharp: `|x| < 2^(L+1)`. -/
theorem Double.ilog2_lt (x : ℚ) (hx : x ≠ 0) : |x| < (2 : ℚ) ^ (Double.ilog2 x + 1) := by
  have hnum : x.num.natAbs ≠ 0 := by
    simpa using Rat.num_ne_zero.mpr hx
  have hden : x.den ≠ 0 := x.den_nz
  obtain ⟨_, a2⟩ := Double.log2Aux_spec _ _ (le_refl _) hnum
  obtain ⟨b1, _⟩ := Double.log2Aux_spec _ _ (le_refl _) hden
  have hlt : |x| < (2 : ℚ) ^
      (((Double.log2Aux x.num.natAbs x.num.natAbs : Int) -
        (Double.log2Aux x.den x.den : Int)) + 1) := by
    have habs : |x| = (x.num.natAbs : ℚ) / (x.den : ℚ) := by
      conv_lhs => rw [← Rat.num_div_den x]
      rw [abs_div, Nat.abs_cast, Nat.cast_natAbs, Int.cast_abs]
    have hd : (0 : ℚ) < (x.den : ℚ) := by exact_mod_cast Nat.pos_of_ne_zero hden
    have e : (2 : ℚ) ^ (((Double.log2Aux x.num.natAbs x.num.natAbs : Int) -
        (Double.log2Aux x.den x.den : Int)) + 1) =
        (2 : ℚ) ^ (Double.log2Aux x.num.natAbs x.num.natAbs + 1) /
          (2 : ℚ) ^ (Double.log2Aux x.den x.den) := by
      rw [show ((Double.log2Aux x.num.natAbs x.num.natAbs : Int) -
          (Double.log2Aux x.den x.den : Int)) + 1 =
          ((Double.log2Aux x.num.natAbs x.num.natAbs + 1 : Nat) : Int) -
            ((Double.log2Aux x.den x.den : Nat) : Int) by push_cast; ring,
        zpow_sub₀ (by norm_num), zpow_natCast, zpow_natCast]
    rw [habs, e, div_lt_div_iff₀ hd (by positivity)]
    have a2' : (x.num.natAbs : ℚ) < (2 : ℚ) ^ (Double.log2Aux x.num.natAbs x.num.natAbs + 1) := by
      exact_mod_cast a2
    have b1' : (2 : ℚ) ^ (Double.log2Aux x.den x.den) ≤ (x.den : ℚ) := by
      exact_mod_cast b1
    have hn0 : (0 : ℚ) ≤ (x.num.natAbs : ℚ) := by positivity
    have hp : (0 : ℚ) < (2 : ℚ) ^ (Double.log2Aux x.num.natAbs x.num.natAbs + 1) := by
      positivity
    nlinarith
  simp only [Double.ilog2]
  split_ifs with h
  · exact hlt
  · rw [sub_add_cancel]
    exact lt_of_not_le h

/-- The nearest integer of a non-negative number is not negative. -/
theorem Double.nearestEven_nonneg {m : ℚ} (h : 0 ≤ m) : 0 ≤ Double.nearestEven m := by
  have hf : 0 ≤ ⌊m⌋ := Int.floor_nonneg.mpr h
  simp only [Double.nearestEven]
  split_ifs <;> omega

/-- The nearest integer is at most one half away. -/
theorem Double.nearestEven_error (m : ℚ) : |(Double.nearestEven m : ℚ) - m| ≤ 1 / 2 := by
  have hfl := Int.floor_le m
  have hlt := Int.lt_floor_add_one m
  simp only [Double.nearestEven]
  split_ifs with h1 h2 h3
  · rw [abs_le]; constructor <;> linarith
  · push_cast
    rw [abs_le]; constructor <;> linarith
  · rw [abs_le]; constructor <;> linarith
  · push_cast
    rw [abs_le]; constructor <;> linarith

/-- The spacing is positive. -/
theorem Double.quantum_pos (x : ℚ) : 0 < Double.quantum x := by
  simp only [Double.quantum]
  positivity

/-- Half the spacing around `x` is at most `|x| / 2^53 + 2^(-1075)`. -/
theorem Double.quantum_le (x : ℚ) (hx : x ≠ 0) :
    Double.quantum x / 2 ≤ |x| / 2 ^ 53 + 1 / 2 ^ 1075 := by
  simp only [Double.quantum]
  rcases le_total (Double.ilog2 x - 52) (-1074) with h | h
  · rw [max_eq_right h]
    have h0 : (0 : ℚ) ≤ |x| / 2 ^ 53 := by positivity
    have : (2 : ℚ) ^ (-1074 : Int) / 2 = 1 / 2 ^ 1075 := by
      have e1 : (2 : ℚ) ^ (1074 + 1) = 2 ^ 1074 * 2 := pow_succ 2 1074
      have e2 : (2 : ℚ) ^ 1075 = 2 ^ (1074 + 1) := by norm_num
      rw [zpow_neg, zpow_ofNat, e2, e1, one_div, mul_inv, div_eq_mul_inv]
    rw [this]
    exact le_add_of_nonneg_left h0
  · rw [max_eq_left h, zpow_sub₀ (by norm_num)]
    have hl := Double.ilog2_le x hx
    have h0 : (0 : ℚ) ≤ 1 / 2 ^ 1075 := by positivity
    have h2 : (2 : ℚ) ^ Double.ilog2 x / 2 ^ (52 : Int) / 2 = (2 : ℚ) ^ Double.ilog2 x / 2 ^ 53 := by
      rw [div_div]
      norm_num
    rw [h2]
    have : (2 : ℚ) ^ Double.ilog2 x / 2 ^ 53 ≤ |x| / 2 ^ 53 :=
      div_le_div_of_nonneg_right hl (by positivity)
    exact this.trans (le_add_of_nonneg_right h0)

/-- Rounding keeps the sign: the `double` nearest to a non-negative number is not
negative. -/
theorem Double.round_nonneg {x : ℚ} (h : 0 ≤ x) : 0 ≤ Double.round x := by
  simp only [Double.round]
  have hq := Double.quantum_pos x
  exact mul_nonneg (by exact_mod_cast Double.nearestEven_nonneg (div_nonneg h hq.le)) hq.le

/-- The `double` nearest to `x` is within half a unit in the last place of `x`:
`|round x - x| <= |x| / 2^53 + 2^(-1075)`. -/
theorem Double.round_error (x : ℚ) :
    |Double.round x - x| ≤ |x| / 2 ^ 53 + 1 / 2 ^ 1075 := by
  by_cases hx : x = 0
  · subst hx
    have : Double.round 0 = 0 := by simp [Double.round, Double.nearestEven]
    rw [this]
    simp only [sub_zero, abs_zero, zero_div, zero_add]
    positivity
  have hq := Double.quantum_pos x
  have hxq : x = x / Double.quantum x * Double.quantum x := by field_simp
  have he := Double.nearestEven_error (x / Double.quantum x)
  have h1 : Double.round x - x =
      ((Double.nearestEven (x / Double.quantum x) : ℚ) - x / Double.quantum x) *
        Double.quantum x := by
    rw [sub_mul, ← hxq]
    rfl
  rw [h1, abs_mul, abs_of_pos hq]
  calc |(Double.nearestEven (x / Double.quantum x) : ℚ) - x / Double.quantum x| *
        Double.quantum x
      ≤ 1 / 2 * Double.quantum x := mul_le_mul_of_nonneg_right he hq.le
    _ = Double.quantum x / 2 := by ring
    _ ≤ |x| / 2 ^ 53 + 1 / 2 ^ 1075 := Double.quantum_le x hx

/-- A coarser form of the rounding error, with `2^(-100)` in place of `2^(-1075)`. -/
theorem Double.round_near (x : ℚ) : |Double.round x - x| ≤ |x| / 2 ^ 53 + 1 / 2 ^ 100 := by
  have h : (1 : ℚ) / 2 ^ 1075 ≤ 1 / 2 ^ 100 :=
    one_div_le_one_div_of_le (by positivity) (pow_le_pow_right₀ (by norm_num) (by norm_num))
  exact (Double.round_error x).trans (add_le_add_left h _)

/-- The `double` nearest to a non-negative `x` is at most `x * (1 + 2^(-53)) + 2^(-100)`. -/
theorem Double.round_le {x : ℚ} (h : 0 ≤ x) :
    Double.round x ≤ x * (1 + 1 / 2 ^ 53) + 1 / 2 ^ 100 := by
  have := Double.round_near x
  rw [abs_of_nonneg h] at this
  have := (abs_le.mp this).2
  linarith

/-- On a `double` value `m` the test `m < 0.4` of the code is the comparison of `m` with the
number 0.4: no `double` lies between 0.4 and the `double` nearest to it. -/
theorem Double.lt_point_four (m : ℚ) (hm : Double.round m = m) :
    Double.lt m 0.4 ↔ m < 0.4 := by
  have hc : Double.round 0.4 = 7205759403792794 / 2 ^ 54 := by decide!
  simp only [Double.lt, hm, hc]
  constructor
  · intro h
    by_contra hge
    rw [not_lt] at hge
    have hpos : (0 : ℚ) < m := lt_of_lt_of_le (by norm_num) hge
    have hne : m ≠ 0 := ne_of_gt hpos
    have h1 := Double.ilog2_le m hne
    have h2 := Double.ilog2_lt m hne
    rw [abs_of_pos hpos] at h1 h2
    have hL : Double.ilog2 m = -2 := by
      have u1 : (2 : ℚ) ^ Double.ilog2 m < (2 : ℚ) ^ (-1 : Int) := by
        refine lt_of_le_of_lt h1 (lt_trans h ?_)
        norm_num
      have u2 : (2 : ℚ) ^ (-2 : Int) < (2 : ℚ) ^ (Double.ilog2 m + 1) := by
        refine lt_of_lt_of_le ?_ (le_trans hge h2.le)
        norm_num
      have v1 := (zpow_lt_zpow_iff_right₀ (by norm_num : (1 : ℚ) < 2)).mp u1
      have v2 := (zpow_lt_zpow_iff_right₀ (by norm_num : (1 : ℚ) < 2)).mp u2
      omega
    have hq : Double.quantum m = 1 / 2 ^ 54 := by
      simp only [Double.quantum, hL]
      norm_num
    have hr : ((Double.nearestEven (m / (1 / 2 ^ 54)) : Int) : ℚ) * (1 / 2 ^ 54) = m := by
      have := hm
      simp only [Double.round, hq] at this
      exact this
    generalize Double.nearestEven (m / (1 / 2 ^ 54)) = n at hr
    have e1 : (n : ℚ) = m * 2 ^ 54 := by
      rw [← hr]
      field_simp
    have l1 : ((7205759403792793 : Int) : ℚ) < (n : ℚ) := by
      rw [e1]
      norm_num at hge ⊢
      linarith
    have l2 : (n : ℚ) < ((7205759403792794 : Int) : ℚ) := by
      rw [e1]
      norm_num at h ⊢
      linarith
    have l1' : (7205759403792793 : Int) < n := by exact_mod_cast l1
    have l2' : n < (7205759403792794 : Int) := by exact_mod_cast l2
    omega
  · intro h
    refine lt_trans h ?_
    norm_num

/-- The `double` product of two non-negative values is non-negative. -/
theorem Double.zero_le_mul {a b : ℚ} (ha : 0 ≤ a) (hb : 0 ≤ b) : 0 ≤ Double.mul a b :=
  Double.round_nonneg (mul_nonneg (Double.round_nonneg ha) (Double.round_nonneg hb))

/-! ## Resource amounts (C6) -/

/-- C6. For every resource and every integer `d`, `changeAmount(d)` leaves
`amount = max(0, amount + d)`, so the amount is never negative afterwards, and
`setAmount(n)` leaves `amount = max(0, n)`; neither writes the name or the unit value.
The equations hold for every previous amount, in particular for every amount `>= 0`. -/
theorem Resource.changeAmount_setAmount_floor (r : Resource) (d n : Int) :
    (r.changeAmount d).amount = max 0 (r.amount + d) ∧
    0 ≤ (r.changeAmount d).amount ∧
    (r.setAmount n).amount = max 0 n ∧
    0 ≤ (r.setAmount n).amount ∧
    (r.changeAmount d).name = r.name ∧ (r.changeAmount d).value = r.value ∧
    (r.setAmount n).name = r.name ∧ (r.setAmount n).value = r.value := by
  refine ⟨?_, ?_, ?_, ?_, rfl, rfl, rfl, rfl⟩ <;>
    simp only [Resource.changeAmount, Resource.setAmount] <;>
    split_ifs with h <;> omega

/-! ## Setters of Population (C4) -/

/-- C4, as amended. For every input, `setPeasants`, `setMerchants`, `setNobles` leave a
count `>= 0`, `setHappiness` leaves the happiness in [0, 1], and `setGrowthRate` leaves the
growth rate in [0, 0.2]: the floor of that setter is 0.0, not 0.01. -/
theorem Population.setters_within_range (p : Population) (count : Int) (x : ℚ) :
    0 ≤ (p.setPeasants count).peasants ∧
    0 ≤ (p.setMerchants count).merchants ∧
    0 ≤ (p.setNobles count).nobles ∧
    (0 ≤ (p.setHappiness x).happiness ∧ (p.setHappiness x).happiness ≤ 1) ∧
    (0 ≤ (p.setGrowthRate x).growthRate ∧ (p.setGrowthRate x).growthRate ≤ 0.2) := by
  simp only [Population.setPeasants, Population.setMerchants, Population.setNobles,
    Population.setHappiness, Population.setGrowthRate]
  refine ⟨le_max_left _ _, le_max_left _ _, le_max_left _ _, ?_, ?_⟩
  · norm_num
  · norm_num

/-- C4, the claim as stated fails: on the default population `setGrowthRate(0.005)` stores
0.005, which is below the documented floor 0.01. -/
theorem Population.setGrowthRate_below_floor :
    ((Population.new 100 20 5).setGrowthRate 0.005).growthRate = 0.005 ∧
    ¬ (0.01 ≤ ((Population.new 100 20 5).setGrowthRate 0.005).growthRate ∧
       ((Population.new 100 20 5).setGrowthRate 0.005).growthRate ≤ 0.2) := by
  norm_num [Population.setGrowthRate, Population.new]

/-! ## Setters of Army, Economy and Bank (C5) -/

/-- C5. For every input, each setter of `Army`, `Economy` and `Bank` leaves its field in
the documented range (unit counts `>= 0`, morale in [0, 1], training level `>= 1`; the three
tax rates in [0, 0.5], inflation in [0.01, 0.2], treasury `>= 0`, debt `>= 0`; interest rate
in [0.01, 0.2], maximal loan `>= 100`, corruption level in [0, 100]), and applying a setter
twice with the same argument gives the same object as applying it once. -/
theorem setters_within_range_and_idempotent
    (a : Army) (e : Economy) (b : Bank) (n : Int) (x : ℚ) (s : Bool) :
    -- Army
    (0 ≤ (a.setInfantry n).infantry ∧ 0 ≤ (a.setCavalry n).cavalry ∧
      0 ≤ (a.setArchers n).archers ∧
      (0 ≤ (a.setMorale x).morale ∧ (a.setMorale x).morale ≤ 1) ∧
      1 ≤ (a.setTrainingLevel n).trainingLevel) ∧
    -- Economy
    ((0 ≤ (e.setPeasantTaxRate x).peasantTaxRate ∧ (e.setPeasantTaxRate x).peasantTaxRate ≤ 0.5) ∧
      (0 ≤ (e.setMerchantTaxRate x).merchantTaxRate ∧
        (e.setMerchantTaxRate x).merchantTaxRate ≤ 0.5) ∧
      (0 ≤ (e.setNobleTaxRate x).nobleTaxRate ∧ (e.setNobleTaxRate x).nobleTaxRate ≤ 0.5) ∧
      (0.01 ≤ (e.setInflation x).inflation ∧ (e.setInflation x).inflation ≤ 0.2) ∧
      0 ≤ (e.setTreasuryGold n).treasuryGold ∧ 0 ≤ (e.setDebt n).debt) ∧
    -- Bank
    ((0.01 ≤ (b.setInterestRate x).interestRate ∧ (b.setInterestRate x).interestRate ≤ 0.2) ∧
      100 ≤ (b.setMaxLoanAmount n).maxLoanAmount ∧
      (0 ≤ (b.setCorruptionLevel n).corruptionLevel ∧
        (b.setCorruptionLevel n).corruptionLevel ≤ 100)) ∧
    -- applying a setter twice
    ((a.setInfantry n).setInfantry n = a.setInfantry n ∧
      (a.setCavalry n).setCavalry n = a.setCavalry n ∧
      (a.setArchers n).setArchers n = a.setArchers n ∧
      (a.setMorale x).setMorale x = a.setMorale x ∧
      (a.setTrainingLevel n).setTrainingLevel n = a.setTrainingLevel n ∧
      (a.setWarStatus s).setWarStatus s = a.setWarStatus s ∧
      (e.setPeasantTaxRate x).setPeasantTaxRate x = e.setPeasantTaxRate x ∧
      (e.setMerchantTaxRate x).setMerchantTaxRate x = e.setMerchantTaxRate x ∧
      (e.setNobleTaxRate x).setNobleTaxRate x = e.setNobleTaxRate x ∧
      (e.setInflation x).setInflation x = e.setInflation x ∧
      (e.setTreasuryGold n).setTreasuryGold n = e.setTreasuryGold n ∧
      (e.setDebt n).setDebt n = e.setDebt n ∧
      (b.setInterestRate x).setInterestRate x = b.setInterestRate x ∧
      (b.setMaxLoanAmount n).setMaxLoanAmount n = b.setMaxLoanAmount n ∧
      (b.setCorruptionLevel n).setCorruptionLevel n = b.setCorruptionLevel n) := by
  have h02 := clamp_between (0.01 : ℚ) 0.2 x (by norm_num)
  have hc := clamp_between (0 : Int) 100 n (by norm_num)
  refine ⟨⟨le_max_left _ _, le_max_left _ _, le_max_left _ _, ?_, le_max_left _ _⟩,
    ⟨?_, ?_, ?_, h02, le_max_left _ _, le_max_left _ _⟩,
    ⟨h02, le_max_left _ _, hc⟩,
    ⟨rfl, rfl, rfl, rfl, rfl, rfl, rfl, rfl, rfl, rfl, rfl, rfl, rfl, rfl, rfl⟩⟩
  · simp only [Army.setMorale]
    norm_num
  · simp only [Economy.setPeasantTaxRate]
    norm_num
  · simp only [Economy.setMerchantTaxRate]
    norm_num
  · simp only [Economy.setNobleTaxRate]
    norm_num

/-! ## Loans (C10) -/

/-- C10. For every bank and every economy with treasury `>= 0` and debt `>= 0`:
`takeLoan(maxLoanAmount + 1)` returns false and changes nothing; `takeLoan(a)` with
`a <= 0` returns false and changes nothing; `takeLoan(a)` with `0 < a <= maxLoanAmount`
returns true and raises the treasury, the debt and `currentLoans` by exactly `a`, leaving
every other field of the bank and of the economy as it was. -/
theorem Bank.takeLoan_spec (b : Bank) (e : Economy) (a : Int)
    (ht : 0 ≤ e.treasuryGold) (hd : 0 ≤ e.debt) :
    b.takeLoan (b.maxLoanAmount + 1) e = (false, b, e) ∧
    (a ≤ 0 → b.takeLoan a e = (false, b, e)) ∧
    (0 < a → a ≤ b.maxLoanAmount →
      b.takeLoan a e =
        (true, { b with currentLoans := b.currentLoans + a },
          { e with treasuryGold := e.treasuryGold + a, debt := e.debt + a })) := by
  refine ⟨?_, ?_, ?_⟩
  · simp [Bank.takeLoan]
  · intro ha
    simp [Bank.takeLoan, ha]
  · intro h0 hmax
    have hcond : ¬ (a ≤ 0 ∨ a > b.maxLoanAmount) := by omega
    simp only [Bank.takeLoan, hcond, if_false, Economy.setDebt, Economy.setTreasuryGold]
    rw [max_eq_right (by omega : 0 ≤ e.debt + a),
      max_eq_right (by omega : 0 ≤ e.treasuryGold + a)]

/-- C10 at a concrete input: the default bank (`maxLoanAmount = 1000`) and the default
economy (treasury 1000, no debt); a loan of 1000 is granted and raises treasury, debt and
`currentLoans` by 1000. -/
theorem Bank.takeLoan_spec_witness :
    ((Bank.new 0.05 1000).takeLoan 1000 (Economy.new 0.10 0.15 0.20)).1 = true ∧
    ((Bank.new 0.05 1000).takeLoan 1000 (Economy.new 0.10 0.15 0.20)).2.1.currentLoans = 1000 ∧
    ((Bank.new 0.05 1000).takeLoan 1000 (Economy.new 0.10 0.15 0.20)).2.2.treasuryGold = 2000 ∧
    ((Bank.new 0.05 1000).takeLoan 1000 (Economy.new 0.10 0.15 0.20)).2.2.debt = 1000 := by
  have h := (Bank.takeLoan_spec (Bank.new 0.05 1000) (Economy.new 0.10 0.15 0.20) 1000
    (by simp [Economy.new]) (by simp [Economy.new])).2.2 (by norm_num) (by simp [Bank.new])
  rw [h]
  simp [Bank.new, Economy.new]

/-! ## Market transactions (C7, C8) -/

/-- Each of the four type names selects its resource. -/
theorem Market.select_typeName (t : Tradable) : Market.select t.typeName = some t := by
  cases t <;> simp [Market.select, Tradable.typeName]

/-- Truncation of a non-negative value is non-negative. -/
theorem toInt_nonneg {x : ℚ} (h : 0 ≤ x) : 0 ≤ toInt x := by
  simp only [toInt, h, if_true]
  exact Int.floor_nonneg.mpr h

/-- C7. For each resource type `t` among Food, Wood, Stone, Iron, every amount `n` and every
economy whose treasury is below the cost the code computes, the truncated `double` product
`cost = trunc(n * unitValue)`: `buyResource` returns false and leaves the economy (so the
treasury) and the whole market (so every resource amount, the food amount among them)
unchanged. -/
theorem Market.buyResource_unaffordable (m : Market) (e : Economy) (t : Tradable) (n : Int)
    (h : e.treasuryGold < toInt (Double.mul n (m.get t).value)) :
    m.buyResource t.typeName n e = (false, m, e) := by
  simp only [Market.buyResource, Market.select_typeName]
  rw [if_neg (by omega)]

/-- C7 at a concrete input: iron at unit value 5.1 and a treasury of 253; the `double`
product `50 * 5.1` is 254.99999999999997, the cost of 50 iron is 254, and the purchase is
refused without change. -/
theorem Market.buyResource_unaffordable_witness :
    toInt (Double.mul 50 5.1) = 254 ∧
    Market.buyResource { Market.new with iron := Iron 200 5.1 } "Iron" 50
        { Economy.new 0.10 0.15 0.20 with treasuryGold := 253 } =
      (false, { Market.new with iron := Iron 200 5.1 },
        { Economy.new 0.10 0.15 0.20 with treasuryGold := 253 }) :=
  ⟨by decide!, Market.buyResource_unaffordable { Market.new with iron := Iron 200 5.1 }
    { Economy.new 0.10 0.15 0.20 with treasuryGold := 253 } .iron 50 (by decide!)⟩

/-- The cost is the truncation of the `double` product, not of the exact one: with iron at
unit value 5.1 and a treasury of 254, which is below the exact product 255, the purchase of
50 iron goes through at a cost of 254 and empties the treasury. -/
theorem Market.buyResource_double_cost :
    (254 : Int) < toInt ((50 : Int) * (5.1 : ℚ)) ∧
    Market.buyResource { Market.new with iron := Iron 200 5.1 } "Iron" 50
        { Economy.new 0.10 0.15 0.20 with treasuryGold := 254 } =
      (true, { Market.new with iron := Iron 250 5.1 },
        { Economy.new 0.10 0.15 0.20 with treasuryGold := 0 }) := by
  decide!

/-- Reading back the member just written. -/
theorem Market.get_set_same (m : Market) (t : Tradable) (r : Resource) :
    (m.set t r).get t = r := by
  cases t <;> rfl

/-- A write through one member leaves the other tradable members as they are. -/
theorem Market.get_set_other (m : Market) (t u : Tradable) (r : Resource) (h : u ≠ t) :
    (m.set t r).get u = m.get u := by
  cases t <;> cases u <;> first | rfl | exact absurd rfl h

/-- A write through a tradable member leaves the gold as it is. -/
theorem Market.gold_set (m : Market) (t : Tradable) (r : Resource) :
    (m.set t r).gold = m.gold := by
  cases t <;> rfl

/-- C8. For each resource type `t` among Food, Wood, Stone, Iron, in a market whose unit
values are `>= 0` and an economy whose treasury is `>= 0` (the invariants of the data
model): when `n` exceeds the stock, `sellResource` returns false and leaves the economy and
the whole market unchanged; when `stock >= n >= 0` it returns true, lowers that stock by
exactly `n`, leaves the other resources as they were and raises the treasury by exactly
the revenue the code computes, `trunc((n * unitValue) * 0.9)` with the two products taken in
`double` arithmetic, writing no other field of the economy. -/
theorem Market.sellResource_spec (m : Market) (e : Economy) (t : Tradable) (n : Int)
    (hv : 0 ≤ (m.get t).value) (ht : 0 ≤ e.treasuryGold) :
    ((m.get t).amount < n → m.sellResource t.typeName n e = (false, m, e)) ∧
    (0 ≤ n → n ≤ (m.get t).amount →
      (m.sellResource t.typeName n e).1 = true ∧
      ((m.sellResource t.typeName n e).2.1.get t).amount = (m.get t).amount - n ∧
      (∀ u, u ≠ t → (m.sellResource t.typeName n e).2.1.get u = m.get u) ∧
      (m.sellResource t.typeName n e).2.1.gold = m.gold ∧
      (m.sellResource t.typeName n e).2.2 =
        { e with treasuryGold :=
            e.treasuryGold + toInt (Double.mul (Double.mul n (m.get t).value) 0.9) }) := by
  refine ⟨?_, ?_⟩
  · intro h
    simp only [Market.sellResource, Market.select_typeName]
    rw [if_pos h]
  · intro h0 hn
    have hrev : 0 ≤ toInt (Double.mul (Double.mul n (m.get t).value) 0.9) := by
      apply toInt_nonneg
      have : (0 : ℚ) ≤ (n : ℚ) := by exact_mod_cast h0
      exact Double.zero_le_mul (Double.zero_le_mul this hv) (by norm_num)
    simp only [Market.sellResource, Market.select_typeName]
    rw [if_neg (by omega)]
    refine ⟨rfl, ?_, ?_, ?_, ?_⟩
    · simp only [Market.get_set_same, Resource.changeAmount]
      split_ifs with hneg <;> omega
    · intro u hu
      exact Market.get_set_other m t u _ hu
    · exact Market.gold_set m t _
    · simp only [Economy.setTreasuryGold]
      rw [max_eq_right (by omega)]

/-- C8 at a concrete input: iron at unit value 5.1, a stock of 200 and the default economy
(treasury 1000). Selling 201 iron is refused without change; selling 100 iron succeeds,
leaves 100 iron and a treasury of 1458: the `double` products are `100 * 5.1 = 510` and
`510 * 0.9 = 458.99999999999994`, so the revenue is 458, one below the truncation 459 of the
exact product. -/
theorem Market.sellResource_spec_witness :
    Market.sellResource { Market.new with iron := Iron 200 5.1 } "Iron" 201
        (Economy.new 0.10 0.15 0.20) =
      (false, { Market.new with iron := Iron 200 5.1 }, Economy.new 0.10 0.15 0.20) ∧
    (Market.sellResource { Market.new with iron := Iron 200 5.1 } "Iron" 100
        (Economy.new 0.10 0.15 0.20)).1 = true ∧
    (Market.sellResource { Market.new with iron := Iron 200 5.1 } "Iron" 100
        (Economy.new 0.10 0.15 0.20)).2.1.iron.amount = 100 ∧
    (Market.sellResource { Market.new with iron := Iron 200 5.1 } "Iron" 100
        (Economy.new 0.10 0.15 0.20)).2.2 =
      { Economy.new 0.10 0.15 0.20 with treasuryGold := 1458 } ∧
    toInt ((100 : Int) * (5.1 : ℚ) * 0.9) = 459 := by
  have h := Market.sellResource_spec { Market.new with iron := Iron 200 5.1 }
    (Economy.new 0.10 0.15 0.20) .iron 100 (by decide!) (by decide!)
  have h201 := (Market.sellResource_spec { Market.new with iron := Iron 200 5.1 }
    (Economy.new 0.10 0.15 0.20) .iron 201 (by decide!) (by decide!)).1 (by decide!)
  obtain ⟨h1, h2, -, -, h5⟩ := h.2 (by decide) (by decide!)
  refine ⟨h201, h1, ?_, ?_, by decide!⟩
  · exact h2.trans (by decide!)
  · exact h5.trans (by decide!)

/-! ## Diplomacy (C9, C1) -/

/-- The search loop stops at the first entry that carries the name. -/
theorem Diplomacy.lookup_first (before after : List Diplomacy.Kingdom) (k : Diplomacy.Kingdom)
    (h : ∀ j ∈ before, j.name ≠ k.name) :
    Diplomacy.lookup k.name (before ++ k :: after) = some (before, k, after) := by
  induction before with
  | nil => simp [Diplomacy.lookup]
  | cons j js ih =>
    have hj : j.name ≠ k.name := h j (List.mem_cons_self _ _)
    have hjs : ∀ i ∈ js, i.name ≠ k.name := fun i hi => h i (List.mem_cons_of_mem _ hi)
    simp [Diplomacy.lookup, hj, ih hjs]

/-- C9. Let `k` be the roster entry that the name `k.name` finds (no earlier entry has
that name). If `k` is not at war and its relation level is below 5 (for example 4),
`formAlliance` returns false and leaves the whole roster unchanged; if `k` is not at war and
its relation level is at least 5 it returns true, sets `isAlly` on `k`, makes its relation
level `min(10, relationLevel + 1)` (6 at relation level 5) and changes nothing else; if `k`
is at war it returns false without change at every relation level. -/
theorem Diplomacy.formAlliance_spec (d : Diplomacy) (before after : List Diplomacy.Kingdom)
    (k : Diplomacy.Kingdom) (hd : d.foreignKingdoms = before ++ k :: after)
    (hfirst : ∀ j ∈ before, j.name ≠ k.name) :
    (k.atWar = false → k.relationLevel < 5 → d.formAlliance k.name = (false, d)) ∧
    (k.atWar = false → 5 ≤ k.relationLevel →
      d.formAlliance k.name =
        (true, { d with foreignKingdoms :=
          before ++ { k with isAlly := true, relationLevel := min 10 (k.relationLevel + 1) }
            :: after })) ∧
    (k.atWar = false → k.relationLevel = 5 →
      d.formAlliance k.name =
        (true, { d with foreignKingdoms :=
          before ++ { k with isAlly := true, relationLevel := 6 } :: after })) ∧
    (k.atWar = true → d.formAlliance k.name = (false, d)) := by
  have hl := Diplomacy.lookup_first before after k hfirst
  refine ⟨?_, ?_, ?_, ?_⟩
  · intro hw hr
    have : ¬ (5 ≤ k.relationLevel) := by omega
    simp [Diplomacy.formAlliance, hd, hl, hw, this]
  · intro hw hr
    simp [Diplomacy.formAlliance, hd, hl, hw, hr]
  · intro hw hr
    simp [Diplomacy.formAlliance, hd, hl, hw, hr]
  · intro hw
    simp [Diplomacy.formAlliance, hd, hl, hw]

/-- C9 at a concrete roster: Northlands at relation 4, Eastern Empire at relation 5, Southern
Realms at relation 7 and at war. The alliance with Eastern Empire succeeds and leaves its
relation at 6; the ones with Northlands and with Southern Realms fail without change. -/
theorem Diplomacy.formAlliance_spec_witness :
    (Diplomacy.mk [⟨"Northlands", 4, false, false, 500⟩, ⟨"Eastern Empire", 5, false, false, 600⟩,
        ⟨"Southern Realms", 7, false, true, 400⟩] 5).formAlliance "Eastern Empire" =
      (true, Diplomacy.mk [⟨"Northlands", 4, false, false, 500⟩,
        ⟨"Eastern Empire", 6, true, false, 600⟩, ⟨"Southern Realms", 7, false, true, 400⟩] 5) ∧
    (Diplomacy.mk [⟨"Northlands", 4, false, false, 500⟩, ⟨"Eastern Empire", 5, false, false, 600⟩,
        ⟨"Southern Realms", 7, false, true, 400⟩] 5).formAlliance "Northlands" =
      (false, Diplomacy.mk [⟨"Northlands", 4, false, false, 500⟩,
        ⟨"Eastern Empire", 5, false, false, 600⟩, ⟨"Southern Realms", 7, false, true, 400⟩] 5) ∧
    (Diplomacy.mk [⟨"Northlands", 4, false, false, 500⟩, ⟨"Eastern Empire", 5, false, false, 600⟩,
        ⟨"Southern Realms", 7, false, true, 400⟩] 5).formAlliance "Southern Realms" =
      (false, Diplomacy.mk [⟨"Northlands", 4, false, false, 500⟩,
        ⟨"Eastern Empire", 5, false, false, 600⟩, ⟨"Southern Realms", 7, false, true, 400⟩] 5) :=
  ⟨(Diplomacy.formAlliance_spec _ [⟨"Northlands", 4, false, false, 500⟩]
      [⟨"Southern Realms", 7, false, true, 400⟩] ⟨"Eastern Empire", 5, false, false, 600⟩ rfl
      (by decide)).2.2.1 rfl rfl,
    (Diplomacy.formAlliance_spec _ []
      [⟨"Eastern Empire", 5, false, false, 600⟩, ⟨"Southern Realms", 7, false, true, 400⟩]
      ⟨"Northlands", 4, false, false, 500⟩ rfl (by decide)).1 rfl (by decide),
    (Diplomacy.formAlliance_spec _
      [⟨"Northlands", 4, false, false, 500⟩, ⟨"Eastern Empire", 5, false, false, 600⟩] []
      ⟨"Southern Realms", 7, false, true, 400⟩ rfl (by decide)).2.2.2 rfl⟩

/-- C1, the code at a concrete input. In a freshly constructed kingdom (roster Northlands
500, Eastern Empire 600, Southern Realms 400, all at peace; treasury 1000; army at peace),
war is declared on Northlands and then peace is signed with it, as the diplomacy menu does.
Both calls return true, the treasury pays 250, Northlands ends with relation level 0 and
`atWar = false`, and no roster entry is at war; yet the war flag of the army of the kingdom
is still true: `signPeace` clears the flag of a local `Army` only. -/
theorem declareWar_signPeace_keeps_war_flag :
    (displayDiplomacyMenu_declareWar (Kingdom.new "Camelot" 0 0 0 0) "Northlands").1 = true ∧
    (displayDiplomacyMenu_signPeace
      (displayDiplomacyMenu_declareWar (Kingdom.new "Camelot" 0 0 0 0) "Northlands").2
      "Northlands").1 = true ∧
    (displayDiplomacyMenu_signPeace
      (displayDiplomacyMenu_declareWar (Kingdom.new "Camelot" 0 0 0 0) "Northlands").2
      "Northlands").2.diplomacy.foreignKingdoms =
        [⟨"Northlands", 0, false, false, 500⟩, ⟨"Eastern Empire", 0, false, false, 600⟩,
          ⟨"Southern Realms", 0, false, false, 400⟩] ∧
    (displayDiplomacyMenu_signPeace
      (displayDiplomacyMenu_declareWar (Kingdom.new "Camelot" 0 0 0 0) "Northlands").2
      "Northlands").2.economy.treasuryGold = 750 ∧
    (displayDiplomacyMenu_signPeace
      (displayDiplomacyMenu_declareWar (Kingdom.new "Camelot" 0 0 0 0) "Northlands").2
      "Northlands").2.army.getWarStatus = true := by
  decide

/-! ## Food and happiness (C3) -/

/-- C3, the code at a concrete input. A freshly constructed kingdom (population 125,
happiness 0.5) whose food stock has been brought down to 25 has
`foodPerPerson = 0.2 < 0.25`. `Food::applyEffects` leaves the happiness at 0.3, a change of
-0.2: the test `< 0.5` stands before the test `< 0.25` in the chain, so the modifier -0.4
(which would leave 0.1) is never chosen. -/
theorem Food.applyEffects_severe_shortage :
    (Kingdom.new "Camelot" 0 0 0 0).population.getTotal = 125 ∧
    (Kingdom.new "Camelot" 0 0 0 0).population.happiness = 0.5 ∧
    ((25 : ℚ) / 125 < 0.25) ∧
    (Kingdom.applyFoodEffects
      { Kingdom.new "Camelot" 0 0 0 0 with
        market := { Market.new with food := Market.new.food.setAmount 25 } }).population.happiness
      = 0.3 ∧
    (Kingdom.applyFoodEffects
      { Kingdom.new "Camelot" 0 0 0 0 with
        market := { Market.new with food := Market.new.food.setAmount 25 } }).population.happiness
      ≠ 0.5 - 0.4 := by
  norm_num [Kingdom.applyFoodEffects, Food.applyEffects, Food, Kingdom.new, Population.new,
    Population.getTotal, Population.setHappiness, Market.new, Resource.setAmount]

/-! ## Save and load (C2) -/

/-! ## Reading back what was written -/

/-- The character of a digit below 10 is a decimal digit with that value, and it is neither
white space nor a sign. -/
theorem digitChar_spec (d : Nat) (h : d < 10) :
    (digitChar d).isDigit = true ∧ (digitChar d).toNat - 48 = d ∧
    InFile.isSpace (digitChar d) = false ∧ digitChar d ≠ '-' ∧ digitChar d ≠ '+' := by
  interval_cases d <;> decide

/-- The text of a natural number starts with a digit, consists of digits and spells the
number. -/
theorem showNatAux_spec (fuel n : Nat) (h : n ≤ fuel) :
    (∀ c ∈ showNatAux fuel n, c.isDigit = true) ∧
    InFile.digitsValue (showNatAux fuel n) = n ∧
    ∃ d cs, d < 10 ∧ showNatAux fuel n = digitChar d :: cs := by
  have one : ∀ m, m < 10 → (∀ c ∈ [digitChar m], c.isDigit = true) ∧
      InFile.digitsValue [digitChar m] = m ∧
      ∃ d cs, d < 10 ∧ [digitChar m] = digitChar d :: cs := by
    intro m hm
    obtain ⟨a, b, -⟩ := digitChar_spec m hm
    refine ⟨?_, ?_, m, [], hm, rfl⟩
    · intro c hc
      rw [List.mem_singleton] at hc
      rw [hc]
      exact a
    · simp only [InFile.digitsValue, List.foldl, zero_mul, zero_add]
      exact b
  induction fuel generalizing n with
  | zero =>
    simp only [showNatAux]
    exact one n (by omega)
  | succ fuel ih =>
    simp only [showNatAux]
    split_ifs with hlt
    · exact one n hlt
    · obtain ⟨i1, i2, d, cs, i3, i4⟩ := ih (n / 10) (by omega)
      obtain ⟨a, b, -⟩ := digitChar_spec (n % 10) (Nat.mod_lt _ (by norm_num))
      refine ⟨?_, ?_, d, cs ++ [digitChar (n % 10)], i3, ?_⟩
      · intro x hx
        rw [List.mem_append, List.mem_singleton] at hx
        rcases hx with hx | hx
        · exact i1 x hx
        · rw [hx]
          exact a
      · simp only [InFile.digitsValue] at i2 ⊢
        rw [List.foldl_append, i2]
        simp only [List.foldl]
        rw [b]
        omega
      · rw [i4]
        rfl

/-- Digits followed by a character that is not a digit: the digits are taken and the rest
is left. -/
theorem InFile.spanDigits_digits (ds : List Char) (c : Char) (r : List Char)
    (hds : ∀ x ∈ ds, x.isDigit = true) (hc : c.isDigit = false) :
    InFile.spanDigits (ds ++ c :: r) = (ds, c :: r) := by
  induction ds with
  | nil => simp [InFile.spanDigits, hc]
  | cons d ds ih =>
    have hd := hds d (List.mem_cons_self _ _)
    have := ih (fun x hx => hds x (List.mem_cons_of_mem _ hx))
    simp [InFile.spanDigits, hd, this]

/-- The sentry of `>>` on a good stream: a line break in front is skipped, and a character
that is not white space stops the skipping. -/
theorem InFile.sentry_good (c : Char) (cs : List Char) (hc : InFile.isSpace c = false) :
    InFile.sentry ⟨c :: cs, false, false⟩ = (⟨c :: cs, false, false⟩, true) ∧
    InFile.sentry ⟨'\n' :: c :: cs, false, false⟩ = (⟨c :: cs, false, false⟩, true) := by
  have h1 : InFile.skipSpace (c :: cs) = c :: cs := by
    simp only [InFile.skipSpace, hc, Bool.false_eq_true, if_false]
  have h2 : InFile.skipSpace ('\n' :: c :: cs) = c :: cs := h1
  constructor
  · simp only [InFile.sentry, Bool.or_self, Bool.false_eq_true, if_false, h1]
  · simp only [InFile.sentry, Bool.or_self, Bool.false_eq_true, if_false, h2]

/-- An `int` written by `<<` and followed by a line break is read back by `>>` as the same
`int`, whether or not a line break is still in front of it; the stream stays good and stops
before the line break. -/
theorem InFile.readInt_showInt (i v : Int) (r : List Char) :
    InFile.readInt ⟨showInt i ++ '\n' :: r, false, false⟩ v = (⟨'\n' :: r, false, false⟩, i) ∧
    InFile.readInt ⟨'\n' :: (showInt i ++ '\n' :: r), false, false⟩ v =
      (⟨'\n' :: r, false, false⟩, i) := by
  obtain ⟨h1, h2, d, cs, hd, h3⟩ := showNatAux_spec i.natAbs i.natAbs (le_refl _)
  obtain ⟨-, -, d1, d2, d3⟩ := digitChar_spec d hd
  have hsp : InFile.spanDigits (showNatAux i.natAbs i.natAbs ++ '\n' :: r) =
      (showNatAux i.natAbs i.natAbs, '\n' :: r) :=
    InFile.spanDigits_digits _ _ _ h1 (by decide)
  have hne : showNatAux i.natAbs i.natAbs ≠ [] := by rw [h3]; simp
  have body : ∀ s : InFile × Bool, s = (⟨showInt i ++ '\n' :: r, false, false⟩, true) →
      (if s.2 = true then
        (if (InFile.spanDigits (InFile.takeSign s.1.rest).2).1 = [] then
          ((⟨(InFile.spanDigits (InFile.takeSign s.1.rest).2).2,
            (InFile.spanDigits (InFile.takeSign s.1.rest).2).2.isEmpty, true⟩ : InFile), (0 : Int))
        else
          (⟨(InFile.spanDigits (InFile.takeSign s.1.rest).2).2,
            (InFile.spanDigits (InFile.takeSign s.1.rest).2).2.isEmpty, false⟩,
            if (InFile.takeSign s.1.rest).1 = true then
              -((InFile.digitsValue (InFile.spanDigits (InFile.takeSign s.1.rest).2).1 : Nat) : Int)
            else (InFile.digitsValue (InFile.spanDigits (InFile.takeSign s.1.rest).2).1 : Nat)))
      else (s.1, v)) = (⟨'\n' :: r, false, false⟩, i) := by
    intro s hs
    subst hs
    by_cases hi : i < 0
    · have hts : InFile.takeSign (showInt i ++ '\n' :: r) =
          (true, showNatAux i.natAbs i.natAbs ++ '\n' :: r) := by
        simp only [showInt, hi, if_true, List.cons_append, InFile.takeSign]
      simp only [if_true, hts, hsp, hne, if_false, List.isEmpty_cons, h2]
      rw [Int.ofNat_natAbs_of_nonpos (by omega), neg_neg]
    · have hts : InFile.takeSign (showInt i ++ '\n' :: r) =
          (false, showNatAux i.natAbs i.natAbs ++ '\n' :: r) := by
        simp only [showInt, hi, if_false]
        rw [h3]
        simp only [List.cons_append, InFile.takeSign, d2, d3, if_false]
      simp only [if_true, hts, hsp, hne, if_false, List.isEmpty_cons, h2, Bool.false_eq_true]
      rw [Int.natAbs_of_nonneg (by omega)]
  have hfirst : ∃ c t, showInt i ++ '\n' :: r = c :: t ∧ InFile.isSpace c = false := by
    by_cases hi : i < 0
    · refine ⟨'-', showNatAux i.natAbs i.natAbs ++ '\n' :: r, ?_, by decide⟩
      simp only [showInt, hi, if_true, List.cons_append]
    · refine ⟨digitChar d, cs ++ '\n' :: r, ?_, d1⟩
      simp only [showInt, hi, if_false]
      rw [h3]
      rfl
  obtain ⟨c, t, hct, hc⟩ := hfirst
  obtain ⟨s1, s2⟩ := InFile.sentry_good c t hc
  rw [← hct] at s1
  constructor
  · exact body _ s1
  · rw [← hct] at s2
    exact body _ s2

/-- A line without a line break inside, followed by a line break: `getline` on a good stream
takes the line, consumes the line break and leaves the stream good. -/
theorem InFile.getline_line (s : List Char) (r : List Char) (str : String)
    (hs : '\n' ∉ s) :
    InFile.getline ⟨s ++ '\n' :: r, false, false⟩ str = (⟨r, false, false⟩, ⟨s⟩) := by
  have h1 : ∀ t : List Char, '\n' ∉ t → InFile.lineOf (t ++ '\n' :: r) = t ∧
      InFile.afterLine (t ++ '\n' :: r) = r ∧ (t ++ '\n' :: r).contains '\n' = true := by
    intro t ht
    induction t with
    | nil => simp [InFile.lineOf, InFile.afterLine]
    | cons c t ih =>
      have hc : c ≠ '\n' := fun h => ht (by rw [h]; exact List.mem_cons_self _ _)
      obtain ⟨a, b, -⟩ := ih (fun h => ht (List.mem_cons_of_mem _ h))
      simp [InFile.lineOf, InFile.afterLine, hc, a, b]
  obtain ⟨a, b, c⟩ := h1 s hs
  cases hcs : s ++ '\n' :: r with
  | nil => simp at hcs
  | cons x xs =>
    rw [hcs] at a b c
    simp only [InFile.getline, Bool.or_self, Bool.false_eq_true, if_false, a, b, c, Bool.not_true]

/-- What a line break after the text of a number changes in the scan: nothing is consumed
of the line break or of what follows it. -/
theorem InFile.scanDouble_line (t r : List Char) :
    InFile.scanDouble (t ++ '\n' :: r) =
      ((InFile.scanDouble t).1, (InFile.scanDouble t).2 ++ '\n' :: r) := by
  have hsign : ∀ u : List Char, InFile.takeSign (u ++ '\n' :: r) =
      ((InFile.takeSign u).1, (InFile.takeSign u).2 ++ '\n' :: r) := by
    intro u
    cases u with
    | nil => simp [InFile.takeSign]
    | cons c u =>
      simp only [List.cons_append, InFile.takeSign]
      split_ifs <;> rfl
  have hpoint : ∀ u : List Char, InFile.takePoint (u ++ '\n' :: r) =
      ((InFile.takePoint u).1, (InFile.takePoint u).2 ++ '\n' :: r) := by
    intro u
    cases u with
    | nil => simp [InFile.takePoint]
    | cons c u =>
      simp only [List.cons_append, InFile.takePoint]
      split_ifs <;> rfl
  have hexp : ∀ u : List Char, InFile.takeExponent (u ++ '\n' :: r) =
      ((InFile.takeExponent u).1, (InFile.takeExponent u).2 ++ '\n' :: r) := by
    intro u
    cases u with
    | nil => simp [InFile.takeExponent]
    | cons c u =>
      simp only [List.cons_append, InFile.takeExponent]
      split_ifs <;> rfl
  have hdig : ∀ u : List Char, InFile.spanDigits (u ++ '\n' :: r) =
      ((InFile.spanDigits u).1, (InFile.spanDigits u).2 ++ '\n' :: r) := by
    intro u
    induction u with
    | nil => simp [InFile.spanDigits]
    | cons c u ih =>
      have ih' : InFile.spanDigits (u.append ('\n' :: r)) =
          ((InFile.spanDigits u).1, (InFile.spanDigits u).2 ++ '\n' :: r) := ih
      simp only [List.cons_append, InFile.spanDigits, ih']
      split_ifs <;> rfl
  simp only [InFile.scanDouble, hsign, hdig, hpoint, hexp]
  split_ifs <;> simp_all [hdig]

/-- A `double` whose printed text `t` is read back as `x`, followed by a line break: `>>`
on a good stream with a line break in front reads `x`, stays good and stops before the line
break. -/
theorem InFile.readDouble_shown (t : List Char) (x v : ℚ) (r : List Char)
    (ht : InFile.scanDouble t = (some x, [])) :
    InFile.readDouble ⟨'\n' :: (t ++ '\n' :: r), false, false⟩ v =
      (⟨'\n' :: r, false, false⟩, x) := by
  have hsc := InFile.scanDouble_line t r
  rw [ht] at hsc
  have hfirst : ∃ c u, t = c :: u ∧ InFile.isSpace c = false := by
    cases t with
    | nil => simp [InFile.scanDouble, InFile.takeSign, InFile.spanDigits, InFile.takePoint] at ht
    | cons c u =>
      refine ⟨c, u, rfl, ?_⟩
      by_contra hc
      have hc' : InFile.isSpace c = true := by simpa using hc
      have hcases : ((((c = ' ' ∨ c = '\t') ∨ c = '\n') ∨ c = '\x0b') ∨ c = '\x0c') ∨
          c = '\r' := by
        simpa [InFile.isSpace] using hc'
      rcases hcases with ((((h | h) | h) | h) | h) | h <;> subst h <;>
        simp [InFile.scanDouble, InFile.takeSign, InFile.spanDigits, InFile.takePoint,
          Char.isDigit] at ht
  obtain ⟨c, u, hcu, hc⟩ := hfirst
  obtain ⟨-, s2⟩ := InFile.sentry_good c (u ++ '\n' :: r) hc
  have s2' : InFile.sentry ⟨'\n' :: (t ++ '\n' :: r), false, false⟩ =
      (⟨t ++ '\n' :: r, false, false⟩, true) := by
    rw [hcu]
    exact s2
  simp only [InFile.readDouble, s2', if_true, hsc, List.nil_append, List.isEmpty_cons]

/-- One step `getline` of the loader on a good stream that starts with a name line. -/
theorem Kingdom.Loading.line_text (s f : List Char) (tn : String) (ti : Int) (td : ℚ)
    (rb yp : Int) (k : Kingdom) (set : Kingdom → String → Kingdom) (hs : '\n' ∉ s) :
    Kingdom.Loading.line ⟨⟨s ++ '\n' :: f, false, false⟩, tn, ti, td, rb, yp, k⟩ set =
      ⟨⟨f, false, false⟩, ⟨s⟩, ti, td, rb, yp, set k ⟨s⟩⟩ := by
  simp only [Kingdom.Loading.line, InFile.getline_line s f tn hs]

/-- One step `file >> tempInt` of the loader on a good stream that starts with the text of
an `int`. -/
theorem Kingdom.Loading.int_first (i : Int) (f : List Char) (tn : String) (ti : Int) (td : ℚ)
    (rb yp : Int) (k : Kingdom) (set : Kingdom → Int → Kingdom) :
    Kingdom.Loading.int ⟨⟨showInt i ++ '\n' :: f, false, false⟩, tn, ti, td, rb, yp, k⟩ set =
      ⟨⟨'\n' :: f, false, false⟩, tn, i, td, rb, yp, set k i⟩ := by
  simp only [Kingdom.Loading.int, (InFile.readInt_showInt i ti f).1]

/-- One step `file >> tempInt` of the loader on a good stream that stands before the line
break in front of the text of an `int`. -/
theorem Kingdom.Loading.int_next (i : Int) (f : List Char) (tn : String) (ti : Int) (td : ℚ)
    (rb yp : Int) (k : Kingdom) (set : Kingdom → Int → Kingdom) :
    Kingdom.Loading.int ⟨⟨'\n' :: (showInt i ++ '\n' :: f), false, false⟩, tn, ti, td, rb, yp, k⟩
        set =
      ⟨⟨'\n' :: f, false, false⟩, tn, i, td, rb, yp, set k i⟩ := by
  simp only [Kingdom.Loading.int, (InFile.readInt_showInt i ti f).2]

/-- One step `file >> tempDouble` of the loader on a good stream that stands before the line
break in front of the text of a `double`. -/
theorem Kingdom.Loading.double_next (t : List Char) (x : ℚ) (f : List Char) (tn : String)
    (ti : Int) (td : ℚ) (rb yp : Int) (k : Kingdom) (set : Kingdom → ℚ → Kingdom)
    (ht : InFile.scanDouble t = (some x, [])) :
    Kingdom.Loading.double ⟨⟨'\n' :: (t ++ '\n' :: f), false, false⟩, tn, ti, td, rb, yp, k⟩ set =
      ⟨⟨'\n' :: f, false, false⟩, tn, ti, x, rb, yp, set k x⟩ := by
  simp only [Kingdom.Loading.double, InFile.readDouble_shown t x td f ht]

/-- The step `file.ignore()` of the loader on a good stream that stands before a line
break. -/
theorem Kingdom.Loading.ignore_break (f : List Char) (tn : String) (ti : Int) (td : ℚ)
    (rb yp : Int) (k : Kingdom) :
    Kingdom.Loading.ignore ⟨⟨'\n' :: f, false, false⟩, tn, ti, td, rb, yp, k⟩ =
      ⟨⟨f, false, false⟩, tn, ti, td, rb, yp, k⟩ :=
  rfl

/-- The ruler step of the loader on a good stream that holds a name line and two `int`
lines. -/
theorem Kingdom.Loading.ruler_fields (rn : List Char) (b y : Int) (f : List Char)
    (tn : String) (ti : Int) (td : ℚ) (rb yp : Int) (k : Kingdom) (hrn : '\n' ∉ rn) :
    Kingdom.Loading.ruler
        ⟨⟨rn ++ '\n' :: (showInt b ++ '\n' :: (showInt y ++ '\n' :: f)), false, false⟩,
          tn, ti, td, rb, yp, k⟩ =
      ⟨⟨'\n' :: f, false, false⟩, tn, ti, td, b, y,
        { k with ruler := Leader.King ⟨rn⟩ 50 50 50 b 1 }⟩ := by
  simp only [Kingdom.Loading.ruler, InFile.getline_line rn _ "" hrn,
    (InFile.readInt_showInt b rb _).1, (InFile.readInt_showInt y yp f).2]
  rfl

/-- What `loadGame` makes of a file of 27 well-formed lines, whatever the locals hold at
first: each value goes through its setter, the ruler becomes a King with the stats 50/50/50
whose `yearsInPower` is 1, and the fields that the file does not hold stay as they are in
the target. -/
theorem Kingdom.loadGame_wellFormed (target : Kingdom) (ti : Int) (td : ℚ) (rb0 yp0 : Int)
    (nm : List Char) (yr sc pe me no : Int) (tha tgr : List Char) (ha gr : ℚ)
    (inf cav arc : Int) (tmor : List Char) (mor : ℚ) (tl war tg de : Int)
    (tpt tmt tnt tinfl : List Char) (pt mt nt infl : ℚ)
    (fo wo st ir : Int) (rn : List Char) (rb yp : Int)
    (hnm : '\n' ∉ nm) (hrn : '\n' ∉ rn)
    (h1 : InFile.scanDouble tha = (some ha, [])) (h2 : InFile.scanDouble tgr = (some gr, []))
    (h3 : InFile.scanDouble tmor = (some mor, []))
    (h4 : InFile.scanDouble tpt = (some pt, [])) (h5 : InFile.scanDouble tmt = (some mt, []))
    (h6 : InFile.scanDouble tnt = (some nt, []))
    (h7 : InFile.scanDouble tinfl = (some infl, [])) :
    target.loadGame ti td rb0 yp0
      (writeLines
        [nm, showInt yr, showInt sc, showInt pe, showInt me, showInt no, tha, tgr,
          showInt inf, showInt cav, showInt arc, tmor, showInt tl, showInt war,
          showInt tg, showInt de, tpt, tmt, tnt, tinfl,
          showInt fo, showInt wo, showInt st, showInt ir, rn, showInt rb, showInt yp]) =
      (true,
        { target with
          name := ⟨nm⟩
          gameYear := max 1 yr
          score := max 0 sc
          population := ⟨max 0 pe, max 0 me, max 0 no, max 0.0 (min 0.2 gr),
            max 0.0 (min 1.0 ha)⟩
          army := ⟨max 0 inf, max 0 cav, max 0 arc, max 0.0 (min 1.0 mor), max 1 tl,
            war != 0⟩
          economy := ⟨max 0.0 (min 0.5 pt), max 0.0 (min 0.5 mt), max 0.0 (min 0.5 nt),
            max 0.01 (min 0.2 infl), max 0 tg, max 0 de⟩
          market :=
            { target.market with
              food := { target.market.food with amount := if fo < 0 then 0 else fo }
              wood := { target.market.wood with amount := if wo < 0 then 0 else wo }
              stone := { target.market.stone with amount := if st < 0 then 0 else st }
              iron := { target.market.iron with amount := if ir < 0 then 0 else ir } }
          ruler := Leader.King ⟨rn⟩ 50 50 50 rb 1 }) := by
  simp only [Kingdom.loadGame, writeLines, InFile.opened,
    Kingdom.Loading.line_text _ _ _ _ _ _ _ _ _ hnm, Kingdom.Loading.int_first,
    Kingdom.Loading.int_next, Kingdom.Loading.ignore_break,
    Kingdom.Loading.double_next _ _ _ _ _ _ _ _ _ _ h1,
    Kingdom.Loading.double_next _ _ _ _ _ _ _ _ _ _ h2,
    Kingdom.Loading.double_next _ _ _ _ _ _ _ _ _ _ h3,
    Kingdom.Loading.double_next _ _ _ _ _ _ _ _ _ _ h4,
    Kingdom.Loading.double_next _ _ _ _ _ _ _ _ _ _ h5,
    Kingdom.Loading.double_next _ _ _ _ _ _ _ _ _ _ h6,
    Kingdom.Loading.double_next _ _ _ _ _ _ _ _ _ _ h7,
    Kingdom.Loading.ruler_fields _ _ _ _ _ _ _ _ _ _ hrn, Kingdom.setName,
    Kingdom.setGameYear, Kingdom.setScore, Population.setPeasants, Population.setMerchants,
    Population.setNobles, Population.setHappiness, Population.setGrowthRate, Army.setInfantry,
    Army.setCavalry, Army.setArchers, Army.setMorale, Army.setTrainingLevel, Army.setWarStatus,
    Economy.setTreasuryGold, Economy.setDebt, Economy.setPeasantTaxRate,
    Economy.setMerchantTaxRate, Economy.setNobleTaxRate, Economy.setInflation,
    Resource.setAmount]

/-- C2, as amended. Let the ruler of `k` be a King, let every saved field of `k` lie in the
range of its setter (year `>= 1`, score `>= 0`, counts and amounts `>= 0`, happiness and
morale in [0, 1], growth rate in [0, 0.2], training level `>= 1`, treasury and debt `>= 0`,
tax rates in [0, 0.5], inflation in [0.01, 0.2]), let the seven `double` fields be printed
without loss and let neither the name of the kingdom nor the name of the ruler contain a
line break. Then `saveGame` writes a file, and `loadGame` of that file into any kingdom
`target` (a fresh one for instance), whatever its uninitialised locals hold, returns true
and reproduces name, year, score, the whole population (peasants, merchants, nobles,
happiness, growth rate), the whole army (infantry, cavalry, archers, morale, training level,
war flag), the whole economy (treasury, debt, three tax rates, inflation), the food, wood,
stone and iron amounts, the ruler name and the royal bloodline. -/
theorem Kingdom.saveGame_loadGame_roundtrip (shown : ℚ → List Char) (k target : Kingdom)
    (tempInt : Int) (tempDouble : ℚ) (royalBloodline yearsInPower : Int)
    (hking : ∃ n c i s b y, k.ruler = Leader.King n c i s b y)
    (hrange : k.withinSetterRanges) (hshown : k.printedExactly shown)
    (hnames : k.namesOnOneLine) :
    ∃ file loaded, k.saveGame shown = some file ∧
      target.loadGame tempInt tempDouble royalBloodline yearsInPower file = (true, loaded) ∧
      loaded.name = k.name ∧ loaded.gameYear = k.gameYear ∧ loaded.score = k.score ∧
      loaded.population = k.population ∧ loaded.army = k.army ∧
      loaded.economy = k.economy ∧
      loaded.market.food.amount = k.market.food.amount ∧
      loaded.market.wood.amount = k.market.wood.amount ∧
      loaded.market.stone.amount = k.market.stone.amount ∧
      loaded.market.iron.amount = k.market.iron.amount ∧
      loaded.ruler.getName = k.ruler.getName ∧
      loaded.ruler.getRoyalBloodline = k.ruler.getRoyalBloodline := by
  obtain ⟨n, c, i, s, b, y, hr⟩ := hking
  obtain ⟨kname, ⟨pe, me, no, gr, ha⟩, ⟨inf, cav, arc, mor, tl, war⟩,
    ⟨pt, mt, nt, infl, tg, de⟩, mkt, dip, bank, ev, ruler, year, score⟩ := k
  simp only at hr
  subst hr
  simp only [Kingdom.withinSetterRanges] at hrange
  simp only [Kingdom.printedExactly, InFile.readsBack] at hshown
  simp only [Kingdom.namesOnOneLine, Leader.getName] at hnames
  obtain ⟨h1, h2, h3, h4, h5, ⟨h6, h6b⟩, ⟨h7, h7b⟩, h8, h9, h10, ⟨h11, h11b⟩, h12, h13, h14,
    ⟨h15, h15b⟩, ⟨h16, h16b⟩, ⟨h17, h17b⟩, ⟨h18, h18b⟩, h19, h20, h21, h22⟩ := hrange
  obtain ⟨s1, s2, s3, s4, s5, s6, s7⟩ := hshown
  refine ⟨_, _, rfl, Kingdom.loadGame_wellFormed target tempInt tempDouble royalBloodline
    yearsInPower _ _ _ _ _ _ _ _ _ _ _ _ _ _ _ _ _ _ _ _ _ _ _ _ _ _ _ _ _ _ _ _ _ _
    hnames.1 hnames.2 s1 s2 s3 s4 s5 s6 s7, ?_⟩
  simp only [Army.getWarStatus, Leader.getName, Leader.getRoyalBloodline]
  have e01 : ∀ x : ℚ, 0 ≤ x → x ≤ 1 → max (0.0 : ℚ) (min 1.0 x) = x := fun x a b =>
    clamp_of_between _ _ x (by norm_num; exact a) (by norm_num; exact b)
  have e02 : ∀ x : ℚ, 0 ≤ x → x ≤ 0.2 → max (0.0 : ℚ) (min 0.2 x) = x := fun x a b =>
    clamp_of_between _ _ x (by norm_num; exact a) b
  have e05 : ∀ x : ℚ, 0 ≤ x → x ≤ 0.5 → max (0.0 : ℚ) (min 0.5 x) = x := fun x a b =>
    clamp_of_between _ _ x (by norm_num; exact a) b
  have hwar : ((if war = true then (1 : Int) else 0) != 0) = war := by
    cases war <;> rfl
  rw [e01 ha h6 h6b, e02 gr h7 h7b, e01 mor h11 h11b, e05 pt h15 h15b, e05 mt h16 h16b,
    e05 nt h17 h17b, clamp_of_between _ _ infl h18 h18b, hwar,
    max_eq_right h1, max_eq_right h2, max_eq_right h3, max_eq_right h4, max_eq_right h5,
    max_eq_right h8, max_eq_right h9, max_eq_right h10, max_eq_right h12, max_eq_right h13,
    max_eq_right h14, if_neg (by omega : ¬ mkt.food.amount < 0),
    if_neg (by omega : ¬ mkt.wood.amount < 0), if_neg (by omega : ¬ mkt.stone.amount < 0),
    if_neg (by omega : ¬ mkt.iron.amount < 0)]
  simp

/-- C2, as amended, at a concrete input: a freshly constructed kingdom "Camelot" is saved
(with the default formatting its seven `double` fields are printed as 0.5, 0.05, 0.7, 0.1,
0.15, 0.2 and 0.02) and
loaded into another fresh kingdom whose uninitialised locals hold 42, 0.3, 7 and 9; the
hypotheses hold there and the population, the army, the economy, the year and the name come
back as they were saved. -/
theorem Kingdom.saveGame_loadGame_roundtrip_witness :
    (Kingdom.new "Camelot" 0 0 0 0).withinSetterRanges ∧
    (Kingdom.new "Camelot" 0 0 0 0).printedExactly showDouble ∧
    (Kingdom.new "Camelot" 0 0 0 0).namesOnOneLine ∧
    (Kingdom.new "Camelot" 0 0 0 0).saveGame showDouble =
      some ("Camelot\n1\n0\n100\n20\n5\n0.5\n0.05\n50\n10\n20\n0.7\n1\n0\n1000\n0\n" ++
        "0.1\n0.15\n0.2\n0.02\n1000\n500\n300\n200\nDefault King\n50\n0\n").data ∧
    ∃ file loaded,
      (Kingdom.new "Camelot" 0 0 0 0).saveGame showDouble = some file ∧
      (Kingdom.new "Avalon" 1 2 3 9).loadGame 42 0.3 7 9 file = (true, loaded) ∧
      loaded.name = "Camelot" ∧ loaded.gameYear = 1 ∧
      loaded.population = Population.new 100 20 5 ∧ loaded.army = Army.new 50 10 20 ∧
      loaded.economy = Economy.new 0.10 0.15 0.20 := by
  have hrange : (Kingdom.new "Camelot" 0 0 0 0).withinSetterRanges := by decide!
  have hshown : (Kingdom.new "Camelot" 0 0 0 0).printedExactly showDouble := by decide!
  have hnames : (Kingdom.new "Camelot" 0 0 0 0).namesOnOneLine := by decide!
  obtain ⟨file, loaded, h1, h2, h3, h4, -, h6, h7, h8, -⟩ :=
    Kingdom.saveGame_loadGame_roundtrip showDouble
      (Kingdom.new "Camelot" 0 0 0 0) (Kingdom.new "Avalon" 1 2 3 9) 42 0.3 7 9
      ⟨_, _, _, _, _, _, rfl⟩ hrange hshown hnames
  exact ⟨hrange, hshown, hnames, by decide!, file, loaded, h1, h2, h3, h4, h6, h7, h8⟩

/-- C2, the claim as stated fails. A fresh kingdom that holds 37000 gold and owes 36000 has
its score computed by `calculateScore`, which stores -90. It is saved and loaded into
another fresh kingdom: the loaded score is 0, because `setScore` clamps it, and the loaded
`yearsInPower` is 1 instead of 0, because `loadGame` does not use the value it reads. -/
theorem Kingdom.saveGame_loadGame_not_exact :
    ∃ file loaded,
      (Kingdom.calculateScore
        { Kingdom.new "Camelot" 0 0 0 0 with
          economy := { Economy.new 0.10 0.15 0.20 with treasuryGold := 37000, debt := 36000 }
        }).saveGame showDouble = some file ∧
      (Kingdom.new "Avalon" 1 2 3 9).loadGame 42 0.3 7 9 file = (true, loaded) ∧
      (Kingdom.calculateScore
        { Kingdom.new "Camelot" 0 0 0 0 with
          economy := { Economy.new 0.10 0.15 0.20 with treasuryGold := 37000, debt := 36000 }
        }).score = -90 ∧
      loaded.score = 0 ∧
      (Kingdom.calculateScore
        { Kingdom.new "Camelot" 0 0 0 0 with
          economy := { Economy.new 0.10 0.15 0.20 with treasuryGold := 37000, debt := 36000 }
        }).ruler.getYearsInPower = some 0 ∧
      loaded.ruler.getYearsInPower = some 1 :=
  ⟨("Camelot\n1\n-90\n100\n20\n5\n0.5\n0.05\n50\n10\n20\n0.7\n1\n0\n37000\n36000\n" ++
      "0.1\n0.15\n0.2\n0.02\n1000\n500\n300\n200\nDefault King\n50\n0\n").data,
    ((Kingdom.new "Avalon" 1 2 3 9).loadGame 42 0.3 7 9
      ("Camelot\n1\n-90\n100\n20\n5\n0.5\n0.05\n50\n10\n20\n0.7\n1\n0\n37000\n36000\n" ++
        "0.1\n0.15\n0.2\n0.02\n1000\n500\n300\n200\nDefault King\n50\n0\n").data).2,
    by decide!, rfl, by decide!, by decide!, by decide!, by decide!⟩

/-- A name with a line break is not reproduced. A fresh kingdom named `Ava`, line break,
`lon` is saved and loaded into another fresh kingdom whose uninitialised locals hold 42,
0.3, 7 and 9: `getline` stops at the line break, so the loaded name is `Ava`; the year is
then looked for in `lon`, which stores 0 and sets `failbit`, so every later read leaves its
variable as it is: the year is 1, the cohorts and the treasury are 0, the happiness is 0.3
and the ruler is a King with an empty name and the bloodline 7. -/
theorem Kingdom.saveGame_loadGame_line_break :
    ∃ file loaded,
      (Kingdom.new "Ava\nlon" 0 0 0 0).saveGame showDouble = some file ∧
      (Kingdom.new "Avalon" 1 2 3 9).loadGame 42 0.3 7 9 file = (true, loaded) ∧
      loaded.name = "Ava" ∧ loaded.gameYear = 1 ∧ loaded.score = 0 ∧
      loaded.population = ⟨0, 0, 0, 0.2, 0.3⟩ ∧ loaded.economy.treasuryGold = 0 ∧
      loaded.ruler = Leader.King "" 50 50 50 7 1 :=
  ⟨("Ava\nlon\n1\n0\n100\n20\n5\n0.5\n0.05\n50\n10\n20\n0.7\n1\n0\n1000\n0\n" ++
      "0.1\n0.15\n0.2\n0.02\n1000\n500\n300\n200\nDefault King\n50\n0\n").data,
    ((Kingdom.new "Avalon" 1 2 3 9).loadGame 42 0.3 7 9
      ("Ava\nlon\n1\n0\n100\n20\n5\n0.5\n0.05\n50\n10\n20\n0.7\n1\n0\n1000\n0\n" ++
        "0.1\n0.15\n0.2\n0.02\n1000\n500\n300\n200\nDefault King\n50\n0\n").data).2,
    by decide!, rfl, by decide!, by decide!, by decide!, by decide!, by decide!, by decide!⟩

/-! ## Repaying a loan (C11) -/

/-- C11. `repayLoan(a)` returns false and leaves the bank and the economy (treasury, debt,
`currentLoans`) unchanged when `a <= 0` or `a > treasury` or `a > debt`; in every other case
it returns true, lowers the treasury and the debt by exactly `a` and sets `currentLoans` to
`max(0, currentLoans - a)`, writing nothing else. So it returns false exactly when
`a <= 0` or `a > treasury` or `a > debt`. -/
theorem Bank.repayLoan_spec (b : Bank) (e : Economy) (a : Int) :
    ((a ≤ 0 ∨ a > e.treasuryGold ∨ a > e.debt) → b.repayLoan a e = (false, b, e)) ∧
    (¬ (a ≤ 0 ∨ a > e.treasuryGold ∨ a > e.debt) →
      b.repayLoan a e =
        (true, { b with currentLoans := max 0 (b.currentLoans - a) },
          { e with treasuryGold := e.treasuryGold - a, debt := e.debt - a })) ∧
    ((b.repayLoan a e).1 = false ↔ (a ≤ 0 ∨ a > e.treasuryGold ∨ a > e.debt)) := by
  have hfail : (a ≤ 0 ∨ a > e.treasuryGold ∨ a > e.debt) → b.repayLoan a e = (false, b, e) := by
    intro h
    simp only [Bank.repayLoan, if_pos h]
  have hok : ¬ (a ≤ 0 ∨ a > e.treasuryGold ∨ a > e.debt) →
      b.repayLoan a e =
        (true, { b with currentLoans := max 0 (b.currentLoans - a) },
          { e with treasuryGold := e.treasuryGold - a, debt := e.debt - a }) := by
    intro h
    have h1 : 0 ≤ e.treasuryGold - a := by omega
    have h2 : 0 ≤ e.debt - a := by omega
    have h3 : (if b.currentLoans - a < 0 then 0 else b.currentLoans - a) =
        max 0 (b.currentLoans - a) := by
      split_ifs with hneg
      · omega
      · omega
    simp only [Bank.repayLoan, if_neg h, Economy.setTreasuryGold, Economy.setDebt, h3,
      max_eq_right h1, max_eq_right h2]
  refine ⟨hfail, hok, ?_⟩
  constructor
  · intro hf
    by_contra hc
    rw [hok hc] at hf
    exact Bool.noConfusion hf
  · intro h
    rw [hfail h]

/-! ## Game over (C12) -/

/-- C12. For every kingdom whose treasury is `>= 0`, `isGameOver()` is true if and only if
the population total is below 10, or the treasury is 0 and the debt exceeds 5000, or the
happiness and the morale are both below 0.1. Hence it is false at every boundary just
outside: a total of at least 10 (10 itself), a debt of at most 5000 whenever the treasury is
0 (5000 itself; with a treasury of 1 any debt), and a happiness or a morale of at least 0.1
(0.1 itself). -/
theorem Kingdom.isGameOver_iff (k : Kingdom) (ht : 0 ≤ k.economy.treasuryGold) :
    (k.isGameOver = true ↔
      (k.population.getTotal < 10 ∨ (k.economy.treasuryGold = 0 ∧ k.economy.debt > 5000) ∨
        (k.population.happiness < 0.1 ∧ k.army.morale < 0.1))) ∧
    (10 ≤ k.population.getTotal → (k.economy.treasuryGold = 0 → k.economy.debt ≤ 5000) →
      (0.1 ≤ k.population.happiness ∨ 0.1 ≤ k.army.morale) → k.isGameOver = false) := by
  have hiff : k.isGameOver = true ↔
      (k.population.getTotal < 10 ∨ (k.economy.treasuryGold = 0 ∧ k.economy.debt > 5000) ∨
        (k.population.happiness < 0.1 ∧ k.army.morale < 0.1)) := by
    have h0 : k.economy.treasuryGold ≤ 0 ↔ k.economy.treasuryGold = 0 := by omega
    simp only [Kingdom.isGameOver, Bool.or_eq_true, Bool.and_eq_true, decide_eq_true_eq, h0,
      or_assoc]
  refine ⟨hiff, ?_⟩
  intro hp hd hm
  cases hgo : k.isGameOver with
  | false => rfl
  | true =>
    exfalso
    rcases hiff.mp hgo with h | ⟨h1, h2⟩ | ⟨h1, h2⟩
    · omega
    · have := hd h1
      omega
    · rcases hm with h | h
      · exact absurd h1 (not_lt.mpr h)
      · exact absurd h2 (not_lt.mpr h)

/-- C12 at concrete inputs. A fresh kingdom is not over. With a population of 5/3/2 (total
10) it is not over, and with 5/3/1 (total 9) it is. With treasury 0 it is not over at debt
5000 and it is over at debt 5001; with treasury 1 and debt 6000 it is not over. -/
theorem Kingdom.isGameOver_iff_witness :
    (Kingdom.new "Camelot" 0 0 0 0).isGameOver = false ∧
    ({ Kingdom.new "Camelot" 0 0 0 0 with population := Population.new 5 3 2 }).isGameOver
      = false ∧
    ({ Kingdom.new "Camelot" 0 0 0 0 with population := Population.new 5 3 1 }).isGameOver
      = true ∧
    ({ Kingdom.new "Camelot" 0 0 0 0 with
        economy := { Economy.new 0.10 0.15 0.20 with treasuryGold := 0, debt := 5000 }
      }).isGameOver = false ∧
    ({ Kingdom.new "Camelot" 0 0 0 0 with
        economy := { Economy.new 0.10 0.15 0.20 with treasuryGold := 0, debt := 5001 }
      }).isGameOver = true ∧
    ({ Kingdom.new "Camelot" 0 0 0 0 with
        economy := { Economy.new 0.10 0.15 0.20 with treasuryGold := 1, debt := 6000 }
      }).isGameOver = false ∧
    ({ Kingdom.new "Camelot" 0 0 0 0 with
        population := { Population.new 100 20 5 with happiness := 0.1 }
        army := { Army.new 50 10 20 with morale := 0.05 } }).isGameOver = false ∧
    ({ Kingdom.new "Camelot" 0 0 0 0 with
        population := { Population.new 100 20 5 with happiness := 0.05 }
        army := { Army.new 50 10 20 with morale := 0.1 } }).isGameOver = false ∧
    ({ Kingdom.new "Camelot" 0 0 0 0 with
        population := { Population.new 100 20 5 with happiness := 0.05 }
        army := { Army.new 50 10 20 with morale := 0.05 } }).isGameOver = true := by
  refine ⟨?_, ?_, ?_, ?_, ?_, ?_, ?_, ?_, ?_⟩
  · exact (Kingdom.isGameOver_iff _ (by simp [Kingdom.new, Economy.new])).2
      (by simp [Kingdom.new, Population.new, Population.getTotal])
      (by simp [Kingdom.new, Economy.new])
      (by norm_num [Kingdom.new, Population.new])
  · exact (Kingdom.isGameOver_iff _ (by simp [Kingdom.new, Economy.new])).2
      (by simp [Population.new, Population.getTotal])
      (by simp [Kingdom.new, Economy.new])
      (by norm_num [Population.new])
  · exact (Kingdom.isGameOver_iff _ (by simp [Kingdom.new, Economy.new])).1.mpr
      (Or.inl (by simp [Population.new, Population.getTotal]))
  · exact (Kingdom.isGameOver_iff _ (by simp)).2
      (by simp [Kingdom.new, Population.new, Population.getTotal])
      (by simp)
      (by norm_num [Kingdom.new, Population.new])
  · exact (Kingdom.isGameOver_iff _ (by simp)).1.mpr (Or.inr (Or.inl (by simp)))
  · exact (Kingdom.isGameOver_iff _ (by simp)).2
      (by simp [Kingdom.new, Population.new, Population.getTotal])
      (by simp)
      (by norm_num [Kingdom.new, Population.new])
  · exact (Kingdom.isGameOver_iff _ (by simp [Kingdom.new, Economy.new])).2
      (by simp [Population.new, Population.getTotal])
      (by simp [Kingdom.new, Economy.new])
      (Or.inl (le_refl _))
  · exact (Kingdom.isGameOver_iff _ (by simp [Kingdom.new, Economy.new])).2
      (by simp [Population.new, Population.getTotal])
      (by simp [Kingdom.new, Economy.new])
      (Or.inr (le_refl _))
  · exact (Kingdom.isGameOver_iff _ (by simp [Kingdom.new, Economy.new])).1.mpr
      (Or.inr (Or.inr (by norm_num)))

/-! ## Upkeep (C14) -/

/-- C14. For every economy, army and population with a population total `P >= 0`,
`updateEconomy` sets the treasury to `max(0, max(0, treasury - 2*A) - P/10)` (integer
division), where `A` is the army total: the army upkeep and then the bureaucracy are each
charged in full or capped at what is left. The equation needs neither `treasury >= 0` nor
`A >= 0`. -/
theorem Economy.updateEconomy_treasury (e : Economy) (population : Population) (army : Army)
    (hP : 0 ≤ population.getTotal) :
    (e.updateEconomy population army).treasuryGold =
      max 0 (max 0 (e.treasuryGold - 2 * army.getTotal) - population.getTotal / 10) := by
  have hdiv : Int.tdiv population.getTotal 10 = population.getTotal / 10 :=
    Int.tdiv_eq_ediv hP (by norm_num)
  simp only [Economy.updateEconomy, hdiv]
  have h1 : e.treasuryGold - min e.treasuryGold (army.getTotal * 2) =
      max 0 (e.treasuryGold - 2 * army.getTotal) := by
    rcases le_total e.treasuryGold (army.getTotal * 2) with h | h
    · rw [min_eq_left h, max_eq_left (by omega)]
      omega
    · rw [min_eq_right h, max_eq_right (by omega)]
      omega
  rw [h1]
  generalize max 0 (e.treasuryGold - 2 * army.getTotal) = t
  generalize population.getTotal / 10 = c
  rcases le_total t c with h | h
  · rw [min_eq_left h, max_eq_left (by omega)]
    omega
  · rw [min_eq_right h, max_eq_right (by omega)]

/-- C14 in the scenario of the specification: treasury 1000, the default army of 80, and
the population of a fresh kingdom after its growth (105/20/5, total 130, when no social
mobility is drawn); the treasury after `updateEconomy` is `1000 - 160 - 13 = 827`. -/
theorem Economy.updateEconomy_treasury_witness :
    ((Population.new 100 20 5).updatePopulation (Economy.new 0.10 0.15 0.20)
      (Army.new 50 10 20) ⟨fun _ => 7⟩).1.getTotal = 130 ∧
    (Army.new 50 10 20).getTotal = 80 ∧
    ((Economy.new 0.10 0.15 0.20).updateEconomy
      ((Population.new 100 20 5).updatePopulation (Economy.new 0.10 0.15 0.20)
        (Army.new 50 10 20) ⟨fun _ => 7⟩).1 (Army.new 50 10 20)).treasuryGold = 827 := by
  have hp : ((Population.new 100 20 5).updatePopulation (Economy.new 0.10 0.15 0.20)
      (Army.new 50 10 20) ⟨fun _ => 7⟩).1.getTotal = 130 := by
    decide!
  refine ⟨hp, by simp [Army.new, Army.getTotal], ?_⟩
  rw [Economy.updateEconomy_treasury _ _ _ (by rw [hp]; norm_num), hp]
  simp [Army.new, Army.getTotal, Economy.new]

/-! ## Unknown entities (C15) -/

/-- The search loop finds nothing when no entry carries the name. -/
theorem Diplomacy.lookup_none (kingdomName : String) (ks : List Diplomacy.Kingdom)
    (h : ∀ k ∈ ks, k.name ≠ kingdomName) : Diplomacy.lookup kingdomName ks = none := by
  induction ks with
  | nil => rfl
  | cons j js ih =>
    have hj : j.name ≠ kingdomName := h j (List.mem_cons_self _ _)
    have hjs : ∀ i ∈ js, i.name ≠ kingdomName := fun i hi => h i (List.mem_cons_of_mem _ hi)
    simp [Diplomacy.lookup, hj, ih hjs]

/-- C15. For every resource-type string other than "Food", "Wood", "Stone", "Iron",
`buyResource` and `sellResource` return false and leave the market and the economy
unchanged; for every name that no roster entry carries, `improveRelations`, `declareWar`,
`signPeace`, `formAlliance` and `establishTrade` return false and leave the roster, the
economy, the army and the market unchanged. -/
theorem unknown_entity_rejected (m : Market) (e : Economy) (a : Army) (d : Diplomacy)
    (n : Int) (resourceType kingdomName : String)
    (hr : resourceType ≠ "Food" ∧ resourceType ≠ "Wood" ∧ resourceType ≠ "Stone" ∧
      resourceType ≠ "Iron")
    (hk : ∀ k ∈ d.foreignKingdoms, k.name ≠ kingdomName) :
    m.buyResource resourceType n e = (false, m, e) ∧
    m.sellResource resourceType n e = (false, m, e) ∧
    d.improveRelations kingdomName e = (false, d, e) ∧
    d.declareWar kingdomName a = (false, d, a) ∧
    d.signPeace kingdomName e = (false, d, e) ∧
    d.formAlliance kingdomName = (false, d) ∧
    d.establishTrade kingdomName m e = (false, d, m, e) := by
  have hs : Market.select resourceType = none := by
    simp [Market.select, hr.1, hr.2.1, hr.2.2.1, hr.2.2.2]
  have hl := Diplomacy.lookup_none kingdomName d.foreignKingdoms hk
  refine ⟨?_, ?_, ?_, ?_, ?_, ?_, ?_⟩
  · simp only [Market.buyResource, hs]
  · simp only [Market.sellResource, hs]
  · simp only [Diplomacy.improveRelations, hl]
  · simp only [Diplomacy.declareWar, hl]
  · simp only [Diplomacy.signPeace, hl]
  · simp only [Diplomacy.formAlliance, hl]
  · simp only [Diplomacy.establishTrade, hl]

/-- C15 at concrete inputs: in the default market and roster, buying or selling "Gold" or
the empty type fails without change, and so does every diplomacy operation on "Atlantis". -/
theorem unknown_entity_rejected_witness :
    Market.new.buyResource "Gold" 10 (Economy.new 0.10 0.15 0.20) =
      (false, Market.new, Economy.new 0.10 0.15 0.20) ∧
    Market.new.sellResource "Gold" 10 (Economy.new 0.10 0.15 0.20) =
      (false, Market.new, Economy.new 0.10 0.15 0.20) ∧
    Market.new.buyResource "" 10 (Economy.new 0.10 0.15 0.20) =
      (false, Market.new, Economy.new 0.10 0.15 0.20) ∧
    Market.new.sellResource "" 10 (Economy.new 0.10 0.15 0.20) =
      (false, Market.new, Economy.new 0.10 0.15 0.20) ∧
    (Diplomacy.new 0 0 0 5).declareWar "Atlantis" (Army.new 50 10 20) =
      (false, Diplomacy.new 0 0 0 5, Army.new 50 10 20) ∧
    (Diplomacy.new 0 0 0 5).establishTrade "Atlantis" Market.new (Economy.new 0.10 0.15 0.20) =
      (false, Diplomacy.new 0 0 0 5, Market.new, Economy.new 0.10 0.15 0.20) := by
  have hg := unknown_entity_rejected Market.new (Economy.new 0.10 0.15 0.20)
    (Army.new 50 10 20) (Diplomacy.new 0 0 0 5) 10 "Gold" "Atlantis" (by decide) (by decide)
  have he := unknown_entity_rejected Market.new (Economy.new 0.10 0.15 0.20)
    (Army.new 50 10 20) (Diplomacy.new 0 0 0 5) 10 "" "Atlantis" (by decide) (by decide)
  exact ⟨hg.1, hg.2.1, he.1, he.2.1, hg.2.2.2.1, hg.2.2.2.2.2.2⟩

/-! ## Saving under an elected ruler (C16) -/

/-- C16, the code at a concrete input. In a fresh kingdom `holdElections` is run with the
draws 1 and 1: `rand() % 3 == 1` installs `Commander("Elected Commander", 50, 50, 70, 60)`
with loyalty 51. `saveGame` then has no result, however the `double` fields are printed: it
reads the bloodline through `dynamic_cast<King*>(ruler.get())`, which is a null pointer for
a Commander, and dereferences it. The same holds after the draw 2, which installs a
GuildLeader. -/
theorem Kingdom.saveGame_elected_ruler :
    ((Kingdom.new "Camelot" 0 0 0 0).holdElections ⟨fun _ => 1⟩).1.ruler =
      Leader.Commander "Elected Commander" 50 50 70 60 51 ∧
    (∀ shown : ℚ → List Char,
      Kingdom.saveGame shown ((Kingdom.new "Camelot" 0 0 0 0).holdElections ⟨fun _ => 1⟩).1
        = none) ∧
    ((Kingdom.new "Camelot" 0 0 0 0).holdElections ⟨fun _ => 2⟩).1.ruler =
      Leader.GuildLeader "Elected Guild Leader" 50 60 50 "Merchants" 60 ∧
    (∀ shown : ℚ → List Char,
      Kingdom.saveGame shown ((Kingdom.new "Camelot" 0 0 0 0).holdElections ⟨fun _ => 2⟩).1
        = none) := by
  have h1 : ((Kingdom.new "Camelot" 0 0 0 0).holdElections ⟨fun _ => 1⟩).1.ruler =
      Leader.Commander "Elected Commander" 50 50 70 60 51 := by
    decide
  have h2 : ((Kingdom.new "Camelot" 0 0 0 0).holdElections ⟨fun _ => 2⟩).1.ruler =
      Leader.GuildLeader "Elected Guild Leader" 50 60 50 "Merchants" 60 := by
    decide
  refine ⟨h1, fun shown => ?_, h2, fun shown => ?_⟩
  · simp only [Kingdom.saveGame, h1, Leader.getRoyalBloodline]
  · simp only [Kingdom.saveGame, h2, Leader.getRoyalBloodline]

/-! ## Social mobility from an empty cohort (C20) -/

/-- C20, the code at a concrete input. A population of 0 peasants, 20 merchants and 5
nobles (happiness 0.5, default tax rates) is updated with both social-mobility draws
successful (`rand()` returns 0 twice). `max(1, (int)(peasants * 0.01))` is 1 although there
is no peasant, so the peasants end at -1. -/
theorem Population.updatePopulation_negative_peasants :
    0 ≤ (Population.new 0 20 5).peasants ∧
    0 ≤ (Population.new 0 20 5).merchants ∧
    0 ≤ (Population.new 0 20 5).nobles ∧
    ((Population.new 0 20 5).updatePopulation (Economy.new 0.10 0.15 0.20) (Army.new 50 10 20)
      ⟨fun _ => 0⟩).1.peasants = -1 ∧
    ((Population.new 0 20 5).updatePopulation (Economy.new 0.10 0.15 0.20) (Army.new 50 10 20)
      ⟨fun _ => 0⟩).1.merchants = 20 ∧
    ((Population.new 0 20 5).updatePopulation (Economy.new 0.10 0.15 0.20) (Army.new 50 10 20)
      ⟨fun _ => 0⟩).1.nobles = 6 := by
  decide!

/-! ## Loading a snapshot that cannot be parsed (C17) -/

/-- The relation `unsavedPartsEq` composes. -/
theorem Kingdom.unsavedPartsEq_trans {a b c : Kingdom} (h1 : a.unsavedPartsEq b)
    (h2 : b.unsavedPartsEq c) : a.unsavedPartsEq c := by
  obtain ⟨a1, a2, a3, a4, a5, ⟨a6, a7⟩, ⟨a8, a9⟩, ⟨a10, a11⟩, a12, a13⟩ := h1
  obtain ⟨b1, b2, b3, b4, b5, ⟨b6, b7⟩, ⟨b8, b9⟩, ⟨b10, b11⟩, b12, b13⟩ := h2
  exact ⟨b1.trans a1, b2.trans a2, b3.trans a3, b4.trans a4, b5.trans a5,
    ⟨b6.trans a6, b7.trans a7⟩, ⟨b8.trans a8, b9.trans a9⟩, ⟨b10.trans a10, b11.trans a11⟩,
    b12.trans a12, b13.trans a13⟩

/-- A `getline` step of the loader keeps the unsaved parts when its setter does. -/
theorem Kingdom.Loading.line_unsaved (k0 : Kingdom) (l : Kingdom.Loading)
    (set : Kingdom → String → Kingdom) (hset : ∀ (k : Kingdom) v, k.unsavedPartsEq (set k v))
    (h : k0.unsavedPartsEq l.kingdom) : k0.unsavedPartsEq (l.line set).kingdom :=
  Kingdom.unsavedPartsEq_trans h (hset _ _)

/-- An `int` step of the loader keeps the unsaved parts when its setter does. -/
theorem Kingdom.Loading.int_unsaved (k0 : Kingdom) (l : Kingdom.Loading)
    (set : Kingdom → Int → Kingdom) (hset : ∀ (k : Kingdom) v, k.unsavedPartsEq (set k v))
    (h : k0.unsavedPartsEq l.kingdom) : k0.unsavedPartsEq (l.int set).kingdom :=
  Kingdom.unsavedPartsEq_trans h (hset _ _)

/-- A `double` step of the loader keeps the unsaved parts when its setter does. -/
theorem Kingdom.Loading.double_unsaved (k0 : Kingdom) (l : Kingdom.Loading)
    (set : Kingdom → ℚ → Kingdom) (hset : ∀ (k : Kingdom) v, k.unsavedPartsEq (set k v))
    (h : k0.unsavedPartsEq l.kingdom) : k0.unsavedPartsEq (l.double set).kingdom :=
  Kingdom.unsavedPartsEq_trans h (hset _ _)

/-- One step `file >> tempInt` of the loader at the end of the file: the stream gets
`eofbit` and `failbit`, and `tempInt` keeps its value, which is passed to the setter. -/
theorem Kingdom.Loading.int_eof (tn : String) (ti : Int) (td : ℚ) (rb yp : Int) (k : Kingdom)
    (set : Kingdom → Int → Kingdom) :
    Kingdom.Loading.int ⟨⟨[], false, false⟩, tn, ti, td, rb, yp, k⟩ set =
      ⟨⟨[], true, true⟩, tn, ti, td, rb, yp, set k ti⟩ :=
  rfl

/-- One step `file >> tempInt` of the loader on a stream that failed at the end of the
file: `tempInt` keeps its value, which is passed to the setter again. -/
theorem Kingdom.Loading.int_failed (tn : String) (ti : Int) (td : ℚ) (rb yp : Int)
    (k : Kingdom) (set : Kingdom → Int → Kingdom) :
    Kingdom.Loading.int ⟨⟨[], true, true⟩, tn, ti, td, rb, yp, k⟩ set =
      ⟨⟨[], true, true⟩, tn, ti, td, rb, yp, set k ti⟩ :=
  rfl

/-- One step `file >> tempDouble` of the loader on a stream that failed at the end of the
file. -/
theorem Kingdom.Loading.double_failed (tn : String) (ti : Int) (td : ℚ) (rb yp : Int)
    (k : Kingdom) (set : Kingdom → ℚ → Kingdom) :
    Kingdom.Loading.double ⟨⟨[], true, true⟩, tn, ti, td, rb, yp, k⟩ set =
      ⟨⟨[], true, true⟩, tn, ti, td, rb, yp, set k td⟩ :=
  rfl

/-- The step `file.ignore()` of the loader on a stream that failed at the end of the
file. -/
theorem Kingdom.Loading.ignore_failed (tn : String) (ti : Int) (td : ℚ) (rb yp : Int)
    (k : Kingdom) :
    Kingdom.Loading.ignore ⟨⟨[], true, true⟩, tn, ti, td, rb, yp, k⟩ =
      ⟨⟨[], true, true⟩, tn, ti, td, rb, yp, k⟩ :=
  rfl

/-- The ruler step of the loader on a stream that failed at the end of the file: the name
stays empty and the bloodline is what `royalBloodline` held. -/
theorem Kingdom.Loading.ruler_failed (tn : String) (ti : Int) (td : ℚ) (rb yp : Int)
    (k : Kingdom) :
    Kingdom.Loading.ruler ⟨⟨[], true, true⟩, tn, ti, td, rb, yp, k⟩ =
      ⟨⟨[], true, true⟩, tn, ti, td, rb, yp,
        { k with ruler := Leader.King "" 50 50 50 rb 1 }⟩ :=
  rfl

/-- What `loadGame` makes of a file that holds the name line only: the name is taken from
the file, every later read fails and leaves its variable as it is, so every saved `int`
field is set from what `tempInt` held at first, every saved `double` field from what
`tempDouble` held, and the bloodline is what `royalBloodline` held. -/
theorem Kingdom.loadGame_nameOnly (target : Kingdom) (nm : List Char) (ti : Int) (td : ℚ)
    (rb yp : Int) (hnm : '\n' ∉ nm) :
    target.loadGame ti td rb yp (nm ++ ['\n']) =
      (true,
        { target with
          name := ⟨nm⟩
          gameYear := max 1 ti
          score := max 0 ti
          population := ⟨max 0 ti, max 0 ti, max 0 ti, max 0.0 (min 0.2 td),
            max 0.0 (min 1.0 td)⟩
          army := ⟨max 0 ti, max 0 ti, max 0 ti, max 0.0 (min 1.0 td), max 1 ti, ti != 0⟩
          economy := ⟨max 0.0 (min 0.5 td), max 0.0 (min 0.5 td), max 0.0 (min 0.5 td),
            max 0.01 (min 0.2 td), max 0 ti, max 0 ti⟩
          market :=
            { target.market with
              food := { target.market.food with amount := if ti < 0 then 0 else ti }
              wood := { target.market.wood with amount := if ti < 0 then 0 else ti }
              stone := { target.market.stone with amount := if ti < 0 then 0 else ti }
              iron := { target.market.iron with amount := if ti < 0 then 0 else ti } }
          ruler := Leader.King "" 50 50 50 rb 1 }) := by
  simp only [Kingdom.loadGame, InFile.opened,
    Kingdom.Loading.line_text _ _ _ _ _ _ _ _ _ hnm, Kingdom.Loading.int_eof,
    Kingdom.Loading.int_failed, Kingdom.Loading.double_failed, Kingdom.Loading.ignore_failed,
    Kingdom.Loading.ruler_failed,
    Kingdom.setName, Kingdom.setGameYear, Kingdom.setScore, Population.setPeasants,
    Population.setMerchants, Population.setNobles, Population.setHappiness,
    Population.setGrowthRate, Army.setInfantry, Army.setCavalry, Army.setArchers,
    Army.setMorale, Army.setTrainingLevel, Army.setWarStatus, Economy.setTreasuryGold,
    Economy.setDebt, Economy.setPeasantTaxRate, Economy.setMerchantTaxRate,
    Economy.setNobleTaxRate, Economy.setInflation, Resource.setAmount]

/-- C17, the claim as stated fails. A snapshot that holds the name line "Avalon" and
nothing else is loaded into a fresh kingdom "Camelot": `loadGame` returns true and the name
becomes "Avalon", whatever the uninitialised locals hold. Every later read fails at the end
of the file and leaves its variable as it is; when `tempInt` holds 42, `tempDouble` 0.3 and
`royalBloodline` 7, the peasants go from 100 to 42, the treasury from 1000 to 42, the food
from 1000 to 42, the happiness from 0.5 to 0.3 and the ruler becomes a King with an empty
name and the bloodline 7. -/
theorem Kingdom.loadGame_truncated_not_atomic :
    (∀ (tempInt : Int) (tempDouble : ℚ) (royalBloodline yearsInPower : Int),
      ((Kingdom.new "Camelot" 0 0 0 0).loadGame tempInt tempDouble royalBloodline yearsInPower
        "Avalon\n".data).1 = true ∧
      ((Kingdom.new "Camelot" 0 0 0 0).loadGame tempInt tempDouble royalBloodline yearsInPower
        "Avalon\n".data).2.name = "Avalon") ∧
    (Kingdom.new "Camelot" 0 0 0 0).name = "Camelot" ∧
    ∃ loaded, (Kingdom.new "Camelot" 0 0 0 0).loadGame 42 0.3 7 9 "Avalon\n".data =
        (true, loaded) ∧
      loaded.name = "Avalon" ∧
      (Kingdom.new "Camelot" 0 0 0 0).population.peasants = 100 ∧
      loaded.population.peasants = 42 ∧
      (Kingdom.new "Camelot" 0 0 0 0).economy.treasuryGold = 1000 ∧
      loaded.economy.treasuryGold = 42 ∧
      (Kingdom.new "Camelot" 0 0 0 0).market.food.amount = 1000 ∧
      loaded.market.food.amount = 42 ∧
      (Kingdom.new "Camelot" 0 0 0 0).population.happiness = 0.5 ∧
      loaded.population.happiness = 0.3 ∧
      loaded.ruler = Leader.King "" 50 50 50 7 1 := by
  refine ⟨fun ti td rb yp => ?_, rfl, _,
    Kingdom.loadGame_nameOnly (Kingdom.new "Camelot" 0 0 0 0) "Avalon".data 42 0.3 7 9
      (by decide), rfl, rfl, by decide, rfl, by decide, rfl, by decide, rfl, by decide!, rfl⟩
  rw [show "Avalon\n".data = "Avalon".data ++ ['\n'] from rfl,
    Kingdom.loadGame_nameOnly (Kingdom.new "Camelot" 0 0 0 0) "Avalon".data ti td rb yp
      (by decide)]
  exact ⟨rfl, rfl⟩

/-- The step `file.ignore()` of the loader keeps the kingdom. -/
theorem Kingdom.Loading.ignore_unsaved (k0 : Kingdom) (l : Kingdom.Loading)
    (h : k0.unsavedPartsEq l.kingdom) : k0.unsavedPartsEq l.ignore.kingdom :=
  h

/-- The ruler step of the loader keeps the unsaved parts. -/
theorem Kingdom.Loading.ruler_unsaved (k0 : Kingdom) (l : Kingdom.Loading)
    (h : k0.unsavedPartsEq l.kingdom) : k0.unsavedPartsEq l.ruler.kingdom :=
  Kingdom.unsavedPartsEq_trans h ⟨rfl, rfl, rfl, rfl, rfl, ⟨rfl, rfl⟩, ⟨rfl, rfl⟩, ⟨rfl, rfl⟩,
    rfl, rfl⟩

/-- C17, as amended. `loadGame` leaves the kingdom unchanged only when the file cannot be
opened, and then returns false. For every file that opens, whatever its characters and
whether or not it can be fully parsed, and whatever the uninitialised locals hold, it
returns true, and what it is certain to leave unchanged are the parts of the kingdom that
the snapshot format does not hold: the roster, the bank, the event state, the gold, the
price fluctuation and the names and unit values of the resources. The saved fields are
written one by one as they are read. -/
theorem Kingdom.loadGame_unsaved_parts (k : Kingdom) (tempInt : Int) (tempDouble : ℚ)
    (royalBloodline yearsInPower : Int) (file : List Char) :
    k.loadGameFile tempInt tempDouble royalBloodline yearsInPower none = (false, k) ∧
    (k.loadGameFile tempInt tempDouble royalBloodline yearsInPower (some file)).1 = true ∧
    k.unsavedPartsEq
      (k.loadGameFile tempInt tempDouble royalBloodline yearsInPower (some file)).2 := by
  refine ⟨rfl, rfl, ?_⟩
  show k.unsavedPartsEq (k.loadGame tempInt tempDouble royalBloodline yearsInPower file).2
  unfold Kingdom.loadGame
  dsimp only
  refine Kingdom.Loading.ruler_unsaved _ _ ?_
  repeat
    first
    | refine Kingdom.Loading.int_unsaved _ _ _
        (fun _ _ => ⟨rfl, rfl, rfl, rfl, rfl, ⟨rfl, rfl⟩, ⟨rfl, rfl⟩, ⟨rfl, rfl⟩, rfl, rfl⟩) ?_
    | refine Kingdom.Loading.double_unsaved _ _ _
        (fun _ _ => ⟨rfl, rfl, rfl, rfl, rfl, ⟨rfl, rfl⟩, ⟨rfl, rfl⟩, ⟨rfl, rfl⟩, rfl, rfl⟩) ?_
    | refine Kingdom.Loading.line_unsaved _ _ _
        (fun _ _ => ⟨rfl, rfl, rfl, rfl, rfl, ⟨rfl, rfl⟩, ⟨rfl, rfl⟩, ⟨rfl, rfl⟩, rfl, rfl⟩) ?_
    | refine Kingdom.Loading.ignore_unsaved _ (Kingdom.Loading.int _ _) ?_
  exact ⟨rfl, rfl, rfl, rfl, rfl, ⟨rfl, rfl⟩, ⟨rfl, rfl⟩, ⟨rfl, rfl⟩, rfl, rfl⟩

/-! ## Invariants of the roster (C18, C19) -/

/-- The search loop splits the roster at the entry it returns. -/
theorem Diplomacy.lookup_eq (kingdomName : String) (ks before after : List Diplomacy.Kingdom)
    (k : Diplomacy.Kingdom) (h : Diplomacy.lookup kingdomName ks = some (before, k, after)) :
    ks = before ++ k :: after := by
  induction ks generalizing before with
  | nil => simp [Diplomacy.lookup] at h
  | cons j js ih =>
    simp only [Diplomacy.lookup] at h
    split_ifs at h with hj
    · simp only [Option.some.injEq, Prod.mk.injEq] at h
      obtain ⟨rfl, rfl, rfl⟩ := h
      rfl
    · cases hl : Diplomacy.lookup kingdomName js with
      | none => simp [hl] at h
      | some r =>
        obtain ⟨b, e, a⟩ := r
        simp only [hl, Option.some.injEq, Prod.mk.injEq] at h
        obtain ⟨rfl, rfl, rfl⟩ := h
        rw [ih b hl]
        rfl

/-- Replacing the entry found by the search loop by an entry within the bounds keeps every
relation level within the bounds. -/
theorem Diplomacy.bounds_replace (ks before after : List Diplomacy.Kingdom)
    (k k2 : Diplomacy.Kingdom) (hks : ks = before ++ k :: after)
    (h : ∀ j ∈ ks, -10 ≤ j.relationLevel ∧ j.relationLevel ≤ 10)
    (h2 : -10 ≤ k2.relationLevel ∧ k2.relationLevel ≤ 10) :
    ∀ j ∈ before ++ k2 :: after, -10 ≤ j.relationLevel ∧ j.relationLevel ≤ 10 := by
  intro j hj
  rw [List.mem_append, List.mem_cons] at hj
  rcases hj with hj | rfl | hj
  · exact h j (by rw [hks]; simp [hj])
  · exact h2
  · exact h j (by rw [hks]; simp [hj])

/-- The yearly loop keeps every relation level within the bounds. -/
theorem Diplomacy.updateEntries_bounds (army : Army) (ks : List Diplomacy.Kingdom) (rand : Rand)
    (h : ∀ j ∈ ks, -10 ≤ j.relationLevel ∧ j.relationLevel ≤ 10) :
    ∀ j ∈ (Diplomacy.updateEntries army ks rand).1,
      -10 ≤ j.relationLevel ∧ j.relationLevel ≤ 10 := by
  induction ks generalizing rand with
  | nil => intro j hj; simp [Diplomacy.updateEntries] at hj
  | cons k ks ih =>
    have hk := h k (List.mem_cons_self _ _)
    have hks : ∀ j ∈ ks, -10 ≤ j.relationLevel ∧ j.relationLevel ≤ 10 :=
      fun j hj => h j (List.mem_cons_of_mem _ hj)
    intro j hj
    simp only [Diplomacy.updateEntries, List.mem_cons] at hj
    rcases hj with rfl | hj
    · split_ifs
      · exact ⟨le_max_left _ _, max_le (by norm_num) (by omega)⟩
      · exact ⟨le_max_left _ _, max_le (by norm_num) (by omega)⟩
      · exact ⟨le_max_left _ _, max_le (by norm_num) (by omega)⟩
      · exact ⟨le_max_left _ _, max_le (by norm_num) (min_le_left _ _)⟩
    · exact ih _ hks j hj

/-- One call keeps every relation level within the bounds. -/
theorem Diplomacy.call_bounds (d : Diplomacy) (c : Diplomacy.Call)
    (h : ∀ j ∈ d.foreignKingdoms, -10 ≤ j.relationLevel ∧ j.relationLevel ≤ 10) :
    ∀ j ∈ (d.call c).foreignKingdoms, -10 ≤ j.relationLevel ∧ j.relationLevel ≤ 10 := by
  cases c with
  | addKingdom name strength =>
    simp only [Diplomacy.call, Diplomacy.addKingdom]
    split_ifs
    · intro j hj
      rw [List.mem_append, List.mem_singleton] at hj
      rcases hj with hj | rfl
      · exact h j hj
      · exact ⟨by norm_num, by norm_num⟩
    · exact h
  | improveRelations kingdomName economy =>
    simp only [Diplomacy.call, Diplomacy.improveRelations]
    cases hl : Diplomacy.lookup kingdomName d.foreignKingdoms with
    | none => exact h
    | some r =>
      obtain ⟨b, k, a⟩ := r
      have hks := Diplomacy.lookup_eq _ _ _ _ _ hl
      have hk := h k (by rw [hks]; simp)
      dsimp only
      split_ifs
      · exact Diplomacy.bounds_replace _ _ _ _ _ hks h
          ⟨le_min (by norm_num) (by omega), min_le_left _ _⟩
      · exact h
  | declareWar kingdomName army =>
    simp only [Diplomacy.call, Diplomacy.declareWar]
    cases hl : Diplomacy.lookup kingdomName d.foreignKingdoms with
    | none => exact h
    | some r =>
      obtain ⟨b, k, a⟩ := r
      have hks := Diplomacy.lookup_eq _ _ _ _ _ hl
      have hk := h k (by rw [hks]; simp)
      dsimp only
      split_ifs
      · exact Diplomacy.bounds_replace _ _ _ _ _ hks h
          ⟨le_max_left _ _, max_le (by norm_num) (by omega)⟩
      · exact h
  | signPeace kingdomName economy =>
    simp only [Diplomacy.call, Diplomacy.signPeace]
    cases hl : Diplomacy.lookup kingdomName d.foreignKingdoms with
    | none => exact h
    | some r =>
      obtain ⟨b, k, a⟩ := r
      have hks := Diplomacy.lookup_eq _ _ _ _ _ hl
      dsimp only
      split_ifs
      · exact Diplomacy.bounds_replace _ _ _ _ _ hks h ⟨by norm_num, by norm_num⟩
      · exact h
      · exact h
  | formAlliance kingdomName =>
    simp only [Diplomacy.call, Diplomacy.formAlliance]
    cases hl : Diplomacy.lookup kingdomName d.foreignKingdoms with
    | none => exact h
    | some r =>
      obtain ⟨b, k, a⟩ := r
      have hks := Diplomacy.lookup_eq _ _ _ _ _ hl
      have hk := h k (by rw [hks]; simp)
      dsimp only
      split_ifs
      · exact Diplomacy.bounds_replace _ _ _ _ _ hks h
          ⟨le_min (by norm_num) (by omega), min_le_left _ _⟩
      · exact h
  | establishTrade kingdomName market economy =>
    simp only [Diplomacy.call, Diplomacy.establishTrade]
    cases hl : Diplomacy.lookup kingdomName d.foreignKingdoms with
    | none => exact h
    | some r =>
      obtain ⟨b, k, a⟩ := r
      dsimp only
      split_ifs
      · exact h
      · exact h
  | updateDiplomacy army economy rand =>
    simp only [Diplomacy.call, Diplomacy.updateDiplomacy]
    exact Diplomacy.updateEntries_bounds army _ rand h

/-- A sequence of calls keeps every relation level within the bounds. -/
theorem Diplomacy.calls_bounds (cs : List Diplomacy.Call) (d : Diplomacy)
    (h : ∀ j ∈ d.foreignKingdoms, -10 ≤ j.relationLevel ∧ j.relationLevel ≤ 10) :
    ∀ j ∈ (d.calls cs).foreignKingdoms, -10 ≤ j.relationLevel ∧ j.relationLevel ≤ 10 := by
  induction cs generalizing d with
  | nil => exact h
  | cons c cs ih => exact ih (d.call c) (Diplomacy.call_bounds d c h)

/-- C18. Starting from the roster built by the `Diplomacy` constructor (whatever its three
random draws and its capacity), after every finite sequence of `improveRelations`,
`declareWar`, `signPeace`, `formAlliance`, `establishTrade` and `updateDiplomacy` calls
(and of `addKingdom` calls as well), with any arguments and any random draws, every roster
entry has its relation level in [-10, 10]. -/
theorem Diplomacy.relationLevel_invariant (r1 r2 r3 maxForeignKingdoms : Int)
    (cs : List Diplomacy.Call) :
    ∀ j ∈ ((Diplomacy.new r1 r2 r3 maxForeignKingdoms).calls cs).foreignKingdoms,
      -10 ≤ j.relationLevel ∧ j.relationLevel ≤ 10 := by
  apply Diplomacy.calls_bounds
  have h0 : ∀ j ∈ (⟨[], maxForeignKingdoms⟩ : Diplomacy).foreignKingdoms,
      -10 ≤ j.relationLevel ∧ j.relationLevel ≤ 10 := by
    intro j hj
    simp at hj
  exact Diplomacy.call_bounds _ (.addKingdom "Southern Realms" (400 + r3 % 400))
    (Diplomacy.call_bounds _ (.addKingdom "Eastern Empire" (600 + r2 % 600))
      (Diplomacy.call_bounds _ (.addKingdom "Northlands" (500 + r1 % 500)) h0))

/-- Replacing the entry found by the search loop by an entry of the same name keeps the
list of names. -/
theorem Diplomacy.names_replace (ks before after : List Diplomacy.Kingdom)
    (k k2 : Diplomacy.Kingdom) (hks : ks = before ++ k :: after) (hn : k2.name = k.name) :
    (before ++ k2 :: after).map (fun j => j.name) = ks.map (fun j => j.name) := by
  rw [hks]
  simp [hn]

/-- The yearly loop keeps the list of names. -/
theorem Diplomacy.updateEntries_names (army : Army) (ks : List Diplomacy.Kingdom) (rand : Rand) :
    (Diplomacy.updateEntries army ks rand).1.map (fun j => j.name) =
      ks.map (fun j => j.name) := by
  induction ks generalizing rand with
  | nil => rfl
  | cons k ks ih =>
    simp only [Diplomacy.updateEntries, List.map_cons, ih]
    congr 1
    split_ifs <;> rfl

/-- A call other than `addKingdom` keeps the list of names; `addKingdom` appends its name
when there is room and does nothing otherwise. -/
theorem Diplomacy.call_names (d : Diplomacy) (c : Diplomacy.Call) :
    (d.call c).names =
      match c with
      | .addKingdom name _ =>
        if d.kingdomCount < d.maxKingdoms then d.names ++ [name] else d.names
      | _ => d.names := by
  cases c with
  | addKingdom name strength =>
    simp only [Diplomacy.call, Diplomacy.addKingdom, Diplomacy.names]
    split_ifs <;> simp
  | improveRelations kingdomName economy =>
    simp only [Diplomacy.call, Diplomacy.improveRelations, Diplomacy.names]
    cases hl : Diplomacy.lookup kingdomName d.foreignKingdoms with
    | none => rfl
    | some r =>
      obtain ⟨b, k, a⟩ := r
      have hks := Diplomacy.lookup_eq _ _ _ _ _ hl
      dsimp only
      split_ifs
      · exact Diplomacy.names_replace _ _ _ _ _ hks rfl
      · rfl
  | declareWar kingdomName army =>
    simp only [Diplomacy.call, Diplomacy.declareWar, Diplomacy.names]
    cases hl : Diplomacy.lookup kingdomName d.foreignKingdoms with
    | none => rfl
    | some r =>
      obtain ⟨b, k, a⟩ := r
      have hks := Diplomacy.lookup_eq _ _ _ _ _ hl
      dsimp only
      split_ifs
      · exact Diplomacy.names_replace _ _ _ _ _ hks rfl
      · rfl
  | signPeace kingdomName economy =>
    simp only [Diplomacy.call, Diplomacy.signPeace, Diplomacy.names]
    cases hl : Diplomacy.lookup kingdomName d.foreignKingdoms with
    | none => rfl
    | some r =>
      obtain ⟨b, k, a⟩ := r
      have hks := Diplomacy.lookup_eq _ _ _ _ _ hl
      dsimp only
      split_ifs
      · exact Diplomacy.names_replace _ _ _ _ _ hks rfl
      · rfl
      · rfl
  | formAlliance kingdomName =>
    simp only [Diplomacy.call, Diplomacy.formAlliance, Diplomacy.names]
    cases hl : Diplomacy.lookup kingdomName d.foreignKingdoms with
    | none => rfl
    | some r =>
      obtain ⟨b, k, a⟩ := r
      have hks := Diplomacy.lookup_eq _ _ _ _ _ hl
      dsimp only
      split_ifs
      · exact Diplomacy.names_replace _ _ _ _ _ hks rfl
      · rfl
  | establishTrade kingdomName market economy =>
    simp only [Diplomacy.call, Diplomacy.establishTrade, Diplomacy.names]
    cases hl : Diplomacy.lookup kingdomName d.foreignKingdoms with
    | none => rfl
    | some r =>
      obtain ⟨b, k, a⟩ := r
      dsimp only
      split_ifs <;> rfl
  | updateDiplomacy army economy rand =>
    simp only [Diplomacy.call, Diplomacy.updateDiplomacy, Diplomacy.names]
    exact Diplomacy.updateEntries_names army _ rand

/-- No call changes the capacity. -/
theorem Diplomacy.call_maxKingdoms (d : Diplomacy) (c : Diplomacy.Call) :
    (d.call c).maxKingdoms = d.maxKingdoms := by
  cases c with
  | addKingdom name strength =>
    simp only [Diplomacy.call, Diplomacy.addKingdom]
    split_ifs <;> rfl
  | improveRelations kingdomName economy =>
    simp only [Diplomacy.call, Diplomacy.improveRelations]
    cases Diplomacy.lookup kingdomName d.foreignKingdoms with
    | none => rfl
    | some r =>
      dsimp only
      split_ifs <;> rfl
  | declareWar kingdomName army =>
    simp only [Diplomacy.call, Diplomacy.declareWar]
    cases Diplomacy.lookup kingdomName d.foreignKingdoms with
    | none => rfl
    | some r =>
      dsimp only
      split_ifs <;> rfl
  | signPeace kingdomName economy =>
    simp only [Diplomacy.call, Diplomacy.signPeace]
    cases Diplomacy.lookup kingdomName d.foreignKingdoms with
    | none => rfl
    | some r =>
      dsimp only
      split_ifs <;> rfl
  | formAlliance kingdomName =>
    simp only [Diplomacy.call, Diplomacy.formAlliance]
    cases Diplomacy.lookup kingdomName d.foreignKingdoms with
    | none => rfl
    | some r =>
      dsimp only
      split_ifs <;> rfl
  | establishTrade kingdomName market economy =>
    simp only [Diplomacy.call, Diplomacy.establishTrade]
    cases Diplomacy.lookup kingdomName d.foreignKingdoms with
    | none => rfl
    | some r =>
      dsimp only
      split_ifs <;> rfl
  | updateDiplomacy army economy rand => rfl

/-- The number of entries is the number of names. -/
theorem Diplomacy.kingdomCount_eq (d : Diplomacy) : d.kingdomCount = (d.names.length : Int) := by
  simp [Diplomacy.kingdomCount, Diplomacy.names]

/-- One call keeps the names already in the roster, in their order, keeps the count within
the capacity, and keeps the names distinct unless it is an `addKingdom` with a name that is
already there. -/
theorem Diplomacy.call_roster (d : Diplomacy) (c : Diplomacy.Call) :
    d.names <+: (d.call c).names ∧
    (d.kingdomCount ≤ d.maxKingdoms → (d.call c).kingdomCount ≤ (d.call c).maxKingdoms) ∧
    (d.names.Nodup → d.addsNewNames [c] → (d.call c).names.Nodup) := by
  have hn := Diplomacy.call_names d c
  have hm := Diplomacy.call_maxKingdoms d c
  rw [Diplomacy.kingdomCount_eq, Diplomacy.kingdomCount_eq, hm, hn]
  cases c with
  | addKingdom name strength =>
    dsimp only
    split_ifs with hroom
    · refine ⟨List.prefix_append _ _, ?_, ?_⟩
      · intro _
        rw [Diplomacy.kingdomCount_eq] at hroom
        simp only [List.length_append, List.length_singleton]
        push_cast
        omega
      · intro hnd hnew
        simp only [Diplomacy.addsNewNames, and_true] at hnew
        rw [List.nodup_append]
        refine ⟨hnd, List.nodup_singleton _, ?_⟩
        intro a ha hb
        rw [List.mem_singleton] at hb
        exact hnew (hb ▸ ha)
    · exact ⟨List.prefix_refl _, fun h => h, fun h _ => h⟩
  | improveRelations kingdomName economy =>
    exact ⟨List.prefix_refl _, fun h => h, fun h _ => h⟩
  | declareWar kingdomName army =>
    exact ⟨List.prefix_refl _, fun h => h, fun h _ => h⟩
  | signPeace kingdomName economy =>
    exact ⟨List.prefix_refl _, fun h => h, fun h _ => h⟩
  | formAlliance kingdomName =>
    exact ⟨List.prefix_refl _, fun h => h, fun h _ => h⟩
  | establishTrade kingdomName market economy =>
    exact ⟨List.prefix_refl _, fun h => h, fun h _ => h⟩
  | updateDiplomacy army economy rand =>
    exact ⟨List.prefix_refl _, fun h => h, fun h _ => h⟩

/-- A sequence of calls keeps the names already in the roster, in their order, keeps the
count within the capacity, and keeps the names distinct as long as every `addKingdom` brings
a new name. -/
theorem Diplomacy.calls_roster (cs : List Diplomacy.Call) (d : Diplomacy) :
    d.names <+: (d.calls cs).names ∧
    (d.kingdomCount ≤ d.maxKingdoms → (d.calls cs).kingdomCount ≤ (d.calls cs).maxKingdoms) ∧
    (d.names.Nodup → d.addsNewNames cs → (d.calls cs).names.Nodup) := by
  induction cs generalizing d with
  | nil => exact ⟨List.prefix_refl _, fun h => h, fun h _ => h⟩
  | cons c cs ih =>
    obtain ⟨h1, h2, h3⟩ := Diplomacy.call_roster d c
    obtain ⟨i1, i2, i3⟩ := ih (d.call c)
    refine ⟨h1.trans i1, fun h => i2 (h2 h), ?_⟩
    intro hnd hnew
    simp only [Diplomacy.addsNewNames] at hnew
    exact i3 (h3 hnd (by simp only [Diplomacy.addsNewNames, and_true]; exact hnew.1)) hnew.2

/-- The roster built by the constructor has distinct names and a count within a capacity
that is not negative. -/
theorem Diplomacy.new_roster (r1 r2 r3 maxForeignKingdoms : Int) (hmax : 0 ≤ maxForeignKingdoms) :
    (Diplomacy.new r1 r2 r3 maxForeignKingdoms).kingdomCount ≤
      (Diplomacy.new r1 r2 r3 maxForeignKingdoms).maxKingdoms ∧
    (Diplomacy.new r1 r2 r3 maxForeignKingdoms).names.Nodup := by
  have hcases : maxForeignKingdoms = 0 ∨ maxForeignKingdoms = 1 ∨ maxForeignKingdoms = 2 ∨
      3 ≤ maxForeignKingdoms := by omega
  rcases hcases with h | h | h | h
  · subst h
    simp [Diplomacy.new, Diplomacy.addKingdom, Diplomacy.kingdomCount, Diplomacy.names]
  · subst h
    simp [Diplomacy.new, Diplomacy.addKingdom, Diplomacy.kingdomCount, Diplomacy.names]
  · subst h
    simp [Diplomacy.new, Diplomacy.addKingdom, Diplomacy.kingdomCount, Diplomacy.names]
  · have h0 : (0 : Int) < maxForeignKingdoms := by omega
    have h1 : (1 : Int) < maxForeignKingdoms := by omega
    have h2 : (2 : Int) < maxForeignKingdoms := by omega
    simp [Diplomacy.new, Diplomacy.addKingdom, Diplomacy.kingdomCount, Diplomacy.names, h0, h1,
      h2]
    omega

/-- C19, as amended. After the `Diplomacy` constructor (with a capacity that is not
negative) and every sequence of calls, `addKingdom(name, strength)` with any name among
them: the roster never loses an entry and keeps the insertion order (the names after a
first sequence of calls are a prefix of the names after any longer sequence), and
`kingdomCount <= maxKingdoms`. No two entries have the same name as long as no `addKingdom`
is called with a name that is already in the roster; `addKingdom` itself does not look for
the name. -/
theorem Diplomacy.roster_invariant (r1 r2 r3 maxForeignKingdoms : Int)
    (cs1 cs2 : List Diplomacy.Call) (hmax : 0 ≤ maxForeignKingdoms) :
    ((Diplomacy.new r1 r2 r3 maxForeignKingdoms).calls cs1).names <+:
      ((Diplomacy.new r1 r2 r3 maxForeignKingdoms).calls (cs1 ++ cs2)).names ∧
    ((Diplomacy.new r1 r2 r3 maxForeignKingdoms).calls cs1).kingdomCount ≤
      ((Diplomacy.new r1 r2 r3 maxForeignKingdoms).calls cs1).maxKingdoms ∧
    ((Diplomacy.new r1 r2 r3 maxForeignKingdoms).addsNewNames cs1 →
      ((Diplomacy.new r1 r2 r3 maxForeignKingdoms).calls cs1).names.Nodup) := by
  obtain ⟨hcount, hnodup⟩ := Diplomacy.new_roster r1 r2 r3 maxForeignKingdoms hmax
  obtain ⟨-, h2, h3⟩ := Diplomacy.calls_roster cs1 (Diplomacy.new r1 r2 r3 maxForeignKingdoms)
  refine ⟨?_, h2 hcount, h3 hnodup⟩
  have happ : (Diplomacy.new r1 r2 r3 maxForeignKingdoms).calls (cs1 ++ cs2) =
      ((Diplomacy.new r1 r2 r3 maxForeignKingdoms).calls cs1).calls cs2 := by
    simp [Diplomacy.calls, List.foldl_append]
  rw [happ]
  exact (Diplomacy.calls_roster cs2 _).1

/-- C19, as amended, at a concrete input: after the constructor, war is declared on
Northlands and a kingdom "Westmark" is added; an alliance with it is then refused. The
four names are distinct, in insertion order, and the count 4 is within the capacity 5. -/
theorem Diplomacy.roster_invariant_witness :
    ((Diplomacy.new 0 0 0 5).calls
      [.declareWar "Northlands" (Army.new 50 10 20), .addKingdom "Westmark" 300]).names =
      ["Northlands", "Eastern Empire", "Southern Realms", "Westmark"] ∧
    ((Diplomacy.new 0 0 0 5).calls
      [.declareWar "Northlands" (Army.new 50 10 20), .addKingdom "Westmark" 300]).names <+:
      ((Diplomacy.new 0 0 0 5).calls
        ([.declareWar "Northlands" (Army.new 50 10 20), .addKingdom "Westmark" 300] ++
          [.formAlliance "Westmark"])).names ∧
    ((Diplomacy.new 0 0 0 5).calls
      [.declareWar "Northlands" (Army.new 50 10 20), .addKingdom "Westmark" 300]).kingdomCount
      ≤ 5 ∧
    ((Diplomacy.new 0 0 0 5).calls
      [.declareWar "Northlands" (Army.new 50 10 20), .addKingdom "Westmark" 300]).names.Nodup := by
  obtain ⟨h1, h2, h3⟩ := Diplomacy.roster_invariant 0 0 0 5
    [.declareWar "Northlands" (Army.new 50 10 20), .addKingdom "Westmark" 300]
    [.formAlliance "Westmark"] (by norm_num)
  exact ⟨by decide, h1, h2, h3 (by decide)⟩

/-- C19, the claim as stated fails. After the constructor, `addKingdom("Northlands", 1)`
finds room (3 of 5 entries are in use) and appends a second entry named "Northlands". -/
theorem Diplomacy.addKingdom_duplicate_name :
    ((Diplomacy.new 0 0 0 5).calls [.addKingdom "Northlands" 1]).names =
      ["Northlands", "Eastern Empire", "Southern Realms", "Northlands"] ∧
    ¬ ((Diplomacy.new 0 0 0 5).calls [.addKingdom "Northlands" 1]).names.Nodup := by
  decide

/-! ## One year from a fresh kingdom (C13) -/

/-- The population after `updatePopulation` depends on the values of `rand()` only through
the outcome of the two social-mobility tests. -/
theorem Population.updatePopulation_draws (p : Population) (economy : Economy) (army : Army)
    (r r' : Rand) (h1 : r.next.1 % 100 < 5 ↔ r'.next.1 % 100 < 5)
    (h2 : r.next.2.next.1 % 100 < 2 ↔ r'.next.2.next.1 % 100 < 2) :
    (p.updatePopulation economy army r).1 = (p.updatePopulation economy army r').1 := by
  simp only [Population.updatePopulation]
  by_cases c1 : r.next.1 % 100 < 5 <;> by_cases c2 : r.next.2.next.1 % 100 < 2
  · simp only [c1, c2, h1.mp c1, h2.mp c2, if_true]
  · simp only [c1, c2, h1.mp c1, mt h2.mpr c2, if_true, if_false]
  · simp only [c1, c2, mt h1.mpr c1, h2.mp c2, if_true, if_false]
  · simp only [c1, c2, mt h1.mpr c1, mt h2.mpr c2, if_false]

/-- The growth step on the population of a fresh kingdom: whatever the two social-mobility
draws, the total is 130, with 104 or 105 peasants, 19 to 21 merchants and 5 or 6 nobles. -/
theorem Population.updatePopulation_fresh (rand : Rand) :
    ((Population.new 100 20 5).updatePopulation (Economy.new 0.10 0.15 0.20)
      (Army.new 50 10 20) rand).1.getTotal = 130 ∧
    104 ≤ ((Population.new 100 20 5).updatePopulation (Economy.new 0.10 0.15 0.20)
      (Army.new 50 10 20) rand).1.peasants ∧
    19 ≤ ((Population.new 100 20 5).updatePopulation (Economy.new 0.10 0.15 0.20)
      (Army.new 50 10 20) rand).1.merchants ∧
    ((Population.new 100 20 5).updatePopulation (Economy.new 0.10 0.15 0.20)
      (Army.new 50 10 20) rand).1.merchants ≤ 21 ∧
    5 ≤ ((Population.new 100 20 5).updatePopulation (Economy.new 0.10 0.15 0.20)
      (Army.new 50 10 20) rand).1.nobles ∧
    ((Population.new 100 20 5).updatePopulation (Economy.new 0.10 0.15 0.20)
      (Army.new 50 10 20) rand).1.nobles ≤ 6 := by
  by_cases c1 : rand.next.1 % 100 < 5 <;> by_cases c2 : rand.next.2.next.1 % 100 < 2
  · rw [Population.updatePopulation_draws _ _ _ rand ⟨fun _ => 0⟩
      (iff_of_true c1 (by decide)) (iff_of_true c2 (by decide))]
    decide!
  · rw [Population.updatePopulation_draws _ _ _ rand ⟨fun n => if n = 0 then 0 else 7⟩
      (iff_of_true c1 (by decide)) (iff_of_false c2 (by decide))]
    decide!
  · rw [Population.updatePopulation_draws _ _ _ rand ⟨fun n => if n = 0 then 7 else 0⟩
      (iff_of_false c1 (by decide)) (iff_of_true c2 (by decide))]
    decide!
  · rw [Population.updatePopulation_draws _ _ _ rand ⟨fun _ => 7⟩
      (iff_of_false c1 (by decide)) (iff_of_false c2 (by decide))]
    decide!

/-- The relation `sameCohorts` composes. -/
theorem Kingdom.sameCohorts_trans {a b c : Kingdom} (h1 : a.sameCohorts b)
    (h2 : b.sameCohorts c) : a.sameCohorts c :=
  ⟨h2.1.trans h1.1, h2.2.1.trans h1.2.1, h2.2.2.trans h1.2.2⟩

/-- The corruption step writes the happiness and the treasury only. -/
theorem advanceYear.attemptCorruption_cohorts (s : Kingdom × Rand) :
    s.1.sameCohorts (advanceYear.attemptCorruption s).1 := by
  simp only [advanceYear.attemptCorruption, Bank.attemptCorruption, Kingdom.sameCohorts]
  split_ifs <;> exact ⟨rfl, rfl, rfl⟩

/-- The effects of the ruler leave the cohort counts as they are. -/
theorem advanceYear.rulerEffects_cohorts (s : Kingdom × Rand) :
    s.1.sameCohorts (advanceYear.rulerEffects s).1 := by
  simp only [advanceYear.rulerEffects, Kingdom.sameCohorts]
  cases s.1.ruler with
  | King n c i st b y => exact ⟨rfl, rfl, rfl⟩
  | Commander n c i st t l => exact ⟨rfl, rfl, rfl⟩
  | GuildLeader n c i st g b =>
    simp only [Leader.applyEffects, GuildLeader.applyEffects]
    split_ifs <;> exact ⟨rfl, rfl, rfl⟩

/-- The effect of the iron leaves the cohort counts as they are. -/
theorem advanceYear.ironEffects_cohorts (s : Kingdom × Rand) :
    s.1.sameCohorts (advanceYear.ironEffects s).1 := by
  simp only [advanceYear.ironEffects, Iron.applyEffects, Kingdom.sameCohorts]
  split_ifs <;> exact ⟨rfl, rfl, rfl⟩

/-- From the happiness step to the effect of the iron, no statement of `advanceYear` writes
a cohort count. -/
theorem advanceYear.middle_cohorts (s : Kingdom × Rand) :
    s.1.sameCohorts
      (advanceYear.ironEffects (advanceYear.foodEffects (advanceYear.rulerEffects
        (advanceYear.attemptCorruption (advanceYear.updateInterest
          (advanceYear.updateDiplomacy (advanceYear.consumeResources
            (advanceYear.produceResources (advanceYear.updatePrices
              (advanceYear.updateEconomy (advanceYear.updateMorale
                (advanceYear.calculateHappiness s)))))))))))).1 := by
  have e : ∀ k : Kingdom, k.sameCohorts k := fun k => ⟨rfl, rfl, rfl⟩
  refine Kingdom.sameCohorts_trans ?_ (advanceYear.ironEffects_cohorts _)
  refine Kingdom.sameCohorts_trans ?_ (show Kingdom.sameCohorts _ (advanceYear.foodEffects _).1
    from ⟨rfl, rfl, rfl⟩)
  refine Kingdom.sameCohorts_trans ?_ (advanceYear.rulerEffects_cohorts _)
  refine Kingdom.sameCohorts_trans ?_ (advanceYear.attemptCorruption_cohorts _)
  exact ⟨rfl, rfl, rfl⟩

/-- The tax collection and the end of the year leave the population as it is. -/
theorem advanceYear.end_population (s : Kingdom × Rand) :
    (advanceYear.nextYear (advanceYear.collectTaxes s)).1.population = s.1.population :=
  rfl

/-- A random event on a population of 130 with at least 104 peasants, 19 to 21 merchants and
5 or 6 nobles leaves a total between 117 and 130 and at least 91 peasants. -/
theorem advanceYear.randomEvent_population (now : Int) (s : Kingdom × Rand)
    (ht : s.1.population.getTotal = 130) (hp : 104 ≤ s.1.population.peasants)
    (hm1 : 19 ≤ s.1.population.merchants) (hm2 : s.1.population.merchants ≤ 21)
    (hn1 : 5 ≤ s.1.population.nobles) (hn2 : s.1.population.nobles ≤ 6) :
    117 ≤ (advanceYear.randomEvent now s).1.population.getTotal ∧
    (advanceYear.randomEvent now s).1.population.getTotal ≤ 130 ∧
    91 ≤ (advanceYear.randomEvent now s).1.population.peasants := by
  obtain ⟨⟨kname, ⟨pe, me, no, gr, ha⟩, army, eco, mkt, dip, bank, ev, ruler, year, score⟩, rand⟩ := s
  simp only [Population.getTotal] at ht hp hm1 hm2 hn1 hn2
  have h13 : Int.tdiv 130 10 = 13 := by decide
  have h104 : Int.tdiv (13 * 8) 10 = 10 := by decide
  have h6 : Int.tdiv 130 20 = 6 := by decide
  simp only [advanceYear.randomEvent]
  split_ifs with hc
  · generalize (RandomEvents.generateEvent _).1 = event
    generalize (RandomEvents.generateEvent _).2 = rand2
    cases event
    · -- plague
      simp only [RandomEvents.applyEvent, RandomEvents.describePlagueEvent, Population.getTotal,
        Population.setPeasants, Population.setMerchants, Population.setNobles,
        Population.setHappiness, ht, h13, h104]
      have hme : me = 19 ∨ me = 20 ∨ me = 21 := by omega
      have hno : no = 5 ∨ no = 6 := by omega
      rcases hme with rfl | rfl | rfl <;> rcases hno with rfl | rfl <;>
        norm_num [toInt] <;> omega
    · simp only [RandomEvents.applyEvent, RandomEvents.describeGoodHarvestEvent,
        Population.getTotal, Population.setHappiness]
      omega
    · simp only [RandomEvents.applyEvent, RandomEvents.describeDroughtEvent,
        Population.getTotal, Population.setHappiness]
      omega
    · simp only [RandomEvents.applyEvent, RandomEvents.describeForeignInvasionEvent,
        Population.getTotal]
      omega
    · -- rebellion
      simp only [RandomEvents.applyEvent, RandomEvents.describeRebellionEvent,
        Population.getTotal, Population.setPeasants, Population.setHappiness, ht, h13]
      rw [max_eq_right (by omega)]
      omega
    · simp only [RandomEvents.applyEvent, RandomEvents.describeAssassinationEvent]
      split_ifs <;>
        simp only [Population.getTotal, Population.setHappiness, Kingdom.setRuler] <;> omega
    · simp only [RandomEvents.applyEvent, RandomEvents.describeDiscoveryEvent,
        Population.getTotal, Population.setHappiness]
      omega
    · simp only [RandomEvents.applyEvent, RandomEvents.describeFestivalEvent,
        Population.getTotal, Population.setHappiness]
      omega
    · simp only [RandomEvents.applyEvent, RandomEvents.describeFireEvent,
        Population.getTotal, Population.setHappiness]
      omega
    · -- earthquake
      simp only [RandomEvents.applyEvent, RandomEvents.describeEarthquakeEvent,
        Population.getTotal, Population.setPeasants, Population.setHappiness, ht, h6]
      rw [max_eq_right (by omega)]
      omega
  · simp only [Population.getTotal]
    omega

/-- The unrest block on a population of 117 to 130 with at least 91 peasants leaves a total
of at least 104, whether or not it runs the rebellion event. -/
theorem advanceYear.unrest_population (s : Kingdom × Rand)
    (ht1 : 117 ≤ s.1.population.getTotal) (ht2 : s.1.population.getTotal ≤ 130)
    (hp : 91 ≤ s.1.population.peasants) :
    104 ≤ (advanceYear.unrest s).1.population.getTotal := by
  have hdiv : Int.tdiv s.1.population.getTotal 10 = s.1.population.getTotal / 10 :=
    Int.tdiv_eq_ediv (by omega) (by norm_num)
  have hreb : ∀ r : Rand,
      104 ≤ (RandomEvents.applyEvent .REBELLION s.1 r).1.population.getTotal := by
    intro r
    simp only [RandomEvents.applyEvent, RandomEvents.describeRebellionEvent,
      Population.setPeasants, Population.setHappiness, hdiv]
    simp only [Population.getTotal] at ht1 ht2 ⊢
    rw [max_eq_right (by omega)]
    omega
  have hno : ∀ r : Rand, 104 ≤ (s.1, r).1.population.getTotal :=
    fun _ => le_trans (by norm_num) ht1
  simp only [advanceYear.unrest]
  split_ifs <;> first | exact hreb _ | exact hno _

/-- C13. Starting from a freshly constructed kingdom (year 1, population 100/20/5 with
happiness 0.5, army 50/10/20, treasury 1000, default King 50/50/50/50), for every name,
every outcome of the random draws (those of the constructor and those of the year) and
every time of the cooldown check, one `advanceYear()` leaves a population total strictly
greater than 100 (it is at least 104). -/
theorem Kingdom.advanceYear_fresh_population (kingdomName : String) (r1 r2 r3 t0 : Int)
    (rand : Rand) (now : Int) :
    100 < ((Kingdom.new kingdomName r1 r2 r3 t0).advanceYear rand now).1.population.getTotal ∧
    104 ≤ ((Kingdom.new kingdomName r1 r2 r3 t0).advanceYear rand now).1.population.getTotal := by
  obtain ⟨g1, g2, g3, g4, g5, g6⟩ := Population.updatePopulation_fresh rand
  have hmid := advanceYear.middle_cohorts
    (advanceYear.updatePopulation (Kingdom.new kingdomName r1 r2 r3 t0, rand))
  have hev := advanceYear.randomEvent_population now _
    (by rw [Population.getTotal, hmid.1, hmid.2.1, hmid.2.2]; exact g1)
    (by rw [hmid.1]; exact g2) (by rw [hmid.2.1]; exact g3) (by rw [hmid.2.1]; exact g4)
    (by rw [hmid.2.2]; exact g5) (by rw [hmid.2.2]; exact g6)
  have hun := advanceYear.unrest_population _ hev.1 hev.2.1 hev.2.2
  have hfin : 104 ≤
      ((Kingdom.new kingdomName r1 r2 r3 t0).advanceYear rand now).1.population.getTotal := by
    unfold Kingdom.advanceYear
    rw [advanceYear.end_population]
    exact hun
  exact ⟨lt_of_lt_of_le (by norm_num) hfin, hfin⟩

/-- C18 at a concrete input: after the constructor, relations with Northlands are improved
six times from a treasury of 100000, war is declared on Eastern Empire, and a year of
`updateDiplomacy` passes with every draw equal to 50. Northlands stands at 10 (capped),
Eastern Empire at -6 and at war, Southern Realms at 1, and the entry of Eastern Empire is
within the bounds. -/
theorem Diplomacy.relationLevel_invariant_witness :
    ((Diplomacy.new 0 0 0 5).calls
      [.improveRelations "Northlands" { Economy.new 0.10 0.15 0.20 with treasuryGold := 100000 },
        .improveRelations "Northlands" { Economy.new 0.10 0.15 0.20 with treasuryGold := 100000 },
        .improveRelations "Northlands" { Economy.new 0.10 0.15 0.20 with treasuryGold := 100000 },
        .improveRelations "Northlands" { Economy.new 0.10 0.15 0.20 with treasuryGold := 100000 },
        .improveRelations "Northlands" { Economy.new 0.10 0.15 0.20 with treasuryGold := 100000 },
        .improveRelations "Northlands" { Economy.new 0.10 0.15 0.20 with treasuryGold := 100000 },
        .declareWar "Eastern Empire" (Army.new 50 10 20),
        .updateDiplomacy (Army.new 50 10 20) (Economy.new 0.10 0.15 0.20)
          ⟨fun _ => 50⟩]).foreignKingdoms =
      [⟨"Northlands", 10, false, false, 500⟩, ⟨"Eastern Empire", -6, false, true, 600⟩,
        ⟨"Southern Realms", 1, false, false, 400⟩] ∧
    (-10 ≤ (⟨"Eastern Empire", -6, false, true, 600⟩ : Diplomacy.Kingdom).relationLevel ∧
      (⟨"Eastern Empire", -6, false, true, 600⟩ : Diplomacy.Kingdom).relationLevel ≤ 10) := by
  have hroster : ((Diplomacy.new 0 0 0 5).calls
      [.improveRelations "Northlands" { Economy.new 0.10 0.15 0.20 with treasuryGold := 100000 },
        .improveRelations "Northlands" { Economy.new 0.10 0.15 0.20 with treasuryGold := 100000 },
        .improveRelations "Northlands" { Economy.new 0.10 0.15 0.20 with treasuryGold := 100000 },
        .improveRelations "Northlands" { Economy.new 0.10 0.15 0.20 with treasuryGold := 100000 },
        .improveRelations "Northlands" { Economy.new 0.10 0.15 0.20 with treasuryGold := 100000 },
        .improveRelations "Northlands" { Economy.new 0.10 0.15 0.20 with treasuryGold := 100000 },
        .declareWar "Eastern Empire" (Army.new 50 10 20),
        .updateDiplomacy (Army.new 50 10 20) (Economy.new 0.10 0.15 0.20)
          ⟨fun _ => 50⟩]).foreignKingdoms =
      [⟨"Northlands", 10, false, false, 500⟩, ⟨"Eastern Empire", -6, false, true, 600⟩,
        ⟨"Southern Realms", 1, false, false, 400⟩] := by
    decide
  exact ⟨hroster, Diplomacy.relationLevel_invariant 0 0 0 5 _ _
    (by rw [hroster]; simp)⟩

/-! ## The invariant of Economy (C21) -/

/-- C21. For every economy whose three tax rates lie in [0, 0.5], whose inflation lies in
[0.01, 0.2] and whose treasury and debt are `>= 0`, and every population and army with
non-negative counts: after `updateEconomy` and also after `collectTaxes` the treasury and
the debt are `>= 0`, the inflation lies in [0.01, 0.2] and the three tax rates are the ones
before the call. This holds for every army, whatever its counts. -/
theorem Economy.yearly_invariant (e : Economy) (population : Population) (army : Army)
    (hpr : 0 ≤ e.peasantTaxRate ∧ e.peasantTaxRate ≤ 0.5)
    (hmr : 0 ≤ e.merchantTaxRate ∧ e.merchantTaxRate ≤ 0.5)
    (hnr : 0 ≤ e.nobleTaxRate ∧ e.nobleTaxRate ≤ 0.5)
    (hi : 0.01 ≤ e.inflation ∧ e.inflation ≤ 0.2)
    (ht : 0 ≤ e.treasuryGold) (hd : 0 ≤ e.debt)
    (hpop : 0 ≤ population.peasants ∧ 0 ≤ population.merchants ∧ 0 ≤ population.nobles) :
    (0 ≤ (e.updateEconomy population army).treasuryGold ∧
      0 ≤ (e.updateEconomy population army).debt ∧
      0.01 ≤ (e.updateEconomy population army).inflation ∧
      (e.updateEconomy population army).inflation ≤ 0.2 ∧
      (e.updateEconomy population army).peasantTaxRate = e.peasantTaxRate ∧
      (e.updateEconomy population army).merchantTaxRate = e.merchantTaxRate ∧
      (e.updateEconomy population army).nobleTaxRate = e.nobleTaxRate) ∧
    (0 ≤ (e.collectTaxes population).2.treasuryGold ∧
      0 ≤ (e.collectTaxes population).2.debt ∧
      0.01 ≤ (e.collectTaxes population).2.inflation ∧
      (e.collectTaxes population).2.inflation ≤ 0.2 ∧
      (e.collectTaxes population).2.peasantTaxRate = e.peasantTaxRate ∧
      (e.collectTaxes population).2.merchantTaxRate = e.merchantTaxRate ∧
      (e.collectTaxes population).2.nobleTaxRate = e.nobleTaxRate) := by
  refine ⟨⟨?_, ?_, ?_, ?_, rfl, rfl, rfl⟩, ⟨?_, hd, hi.1, hi.2, rfl, rfl, rfl⟩⟩
  · simp only [Economy.updateEconomy]
    exact sub_nonneg.mpr (min_le_left _ _)
  · simp only [Economy.updateEconomy]
    split_ifs with h
    · have : 0 ≤ toInt ((e.debt : ℚ) * 0.1) :=
        toInt_nonneg (mul_nonneg (by exact_mod_cast hd) (by norm_num))
      omega
    · exact hd
  · simp only [Economy.updateEconomy]
    exact (clamp_between _ _ _ (by norm_num)).1
  · simp only [Economy.updateEconomy]
    exact (clamp_between _ _ _ (by norm_num)).2
  · simp only [Economy.collectTaxes]
    have h1 : 0 ≤ toInt (Double.mul ((population.peasants * 2 : Int) : ℚ) e.peasantTaxRate) :=
      toInt_nonneg (Double.zero_le_mul
        (by exact_mod_cast (by omega : 0 ≤ population.peasants * 2)) hpr.1)
    have h2 : 0 ≤ toInt (Double.mul ((population.merchants * 10 : Int) : ℚ)
        e.merchantTaxRate) :=
      toInt_nonneg (Double.zero_le_mul
        (by exact_mod_cast (by omega : 0 ≤ population.merchants * 10)) hmr.1)
    have h3 : 0 ≤ toInt (Double.mul ((population.nobles * 50 : Int) : ℚ) e.nobleTaxRate) :=
      toInt_nonneg (Double.zero_le_mul
        (by exact_mod_cast (by omega : 0 ≤ population.nobles * 50)) hnr.1)
    omega

/-- C21 at the economy (rates 0.10, 0.15, 0.20, inflation 0.02, treasury 1000, no debt),
the population (100, 20, 5) and the army (50, 10, 20) of a fresh kingdom. -/
theorem Economy.yearly_invariant_witness :
    (0 ≤ (Economy.new.updateEconomy Population.new Army.new).treasuryGold ∧
      0 ≤ (Economy.new.updateEconomy Population.new Army.new).debt ∧
      0.01 ≤ (Economy.new.updateEconomy Population.new Army.new).inflation ∧
      (Economy.new.updateEconomy Population.new Army.new).inflation ≤ 0.2 ∧
      (Economy.new.updateEconomy Population.new Army.new).peasantTaxRate =
        Economy.new.peasantTaxRate ∧
      (Economy.new.updateEconomy Population.new Army.new).merchantTaxRate =
        Economy.new.merchantTaxRate ∧
      (Economy.new.updateEconomy Population.new Army.new).nobleTaxRate =
        Economy.new.nobleTaxRate) ∧
    (0 ≤ (Economy.new.collectTaxes Population.new).2.treasuryGold ∧
      0 ≤ (Economy.new.collectTaxes Population.new).2.debt ∧
      0.01 ≤ (Economy.new.collectTaxes Population.new).2.inflation ∧
      (Economy.new.collectTaxes Population.new).2.inflation ≤ 0.2 ∧
      (Economy.new.collectTaxes Population.new).2.peasantTaxRate =
        Economy.new.peasantTaxRate ∧
      (Economy.new.collectTaxes Population.new).2.merchantTaxRate =
        Economy.new.merchantTaxRate ∧
      (Economy.new.collectTaxes Population.new).2.nobleTaxRate =
        Economy.new.nobleTaxRate) :=
  Economy.yearly_invariant Economy.new Population.new Army.new
    (by norm_num [Economy.new]) (by norm_num [Economy.new]) (by norm_num [Economy.new])
    (by norm_num [Economy.new]) (by decide) (by decide) (by decide)

/-! ## Operations on one roster entry (C22, C23, C24, C25) -/

/-- C22. Let `k` be the roster entry that the name `k.name` finds (no earlier entry has
that name), `r` its relation level and `cost = 20 + 5 * r`. With `treasury < cost`,
`improveRelations` returns false and leaves the economy and the diplomacy as they are. With
`treasury >= cost` it returns true; the new treasury is `treasury - cost`, which is also
`max(0, treasury - cost)`; the relation level of `k` is `min(10, r + 2)`; the other fields of
`k`, the other entries, the capacity and the other fields of the economy are unchanged. -/
theorem Diplomacy.improveRelations_spec (d : Diplomacy) (e : Economy)
    (before after : List Diplomacy.Kingdom) (k : Diplomacy.Kingdom)
    (hd : d.foreignKingdoms = before ++ k :: after)
    (hfirst : ∀ j ∈ before, j.name ≠ k.name) :
    (e.treasuryGold < 20 + 5 * k.relationLevel →
      d.improveRelations k.name e = (false, d, e)) ∧
    (20 + 5 * k.relationLevel ≤ e.treasuryGold →
      d.improveRelations k.name e =
        (true,
          { d with foreignKingdoms :=
            before ++ { k with relationLevel := min 10 (k.relationLevel + 2) } :: after },
          { e with treasuryGold := e.treasuryGold - (20 + 5 * k.relationLevel) }) ∧
      e.treasuryGold - (20 + 5 * k.relationLevel) =
        max 0 (e.treasuryGold - (20 + 5 * k.relationLevel))) := by
  have hl := Diplomacy.lookup_first before after k hfirst
  refine ⟨?_, ?_⟩
  · intro h
    have h2 : ¬ (20 + k.relationLevel * 5 ≤ e.treasuryGold) := by omega
    simp [Diplomacy.improveRelations, hd, hl, h2]
  · intro h
    have h2 : 20 + k.relationLevel * 5 ≤ e.treasuryGold := by omega
    have h3 : max 0 (e.treasuryGold - (20 + k.relationLevel * 5)) =
        e.treasuryGold - (20 + 5 * k.relationLevel) := by
      rw [max_eq_right (by omega)]; ring
    refine ⟨?_, ?_⟩
    · simp [Diplomacy.improveRelations, hd, hl, h2, Economy.setTreasuryGold, h3]
      exact mul_comm _ _
    · rw [max_eq_right (by omega)]

/-- C22 at a concrete roster (Northlands at relation 3, at war and allied, strength 700,
behind Eastern Empire) and the treasury 1000: the cost is 35, the treasury becomes 965 and
the relation level 5; with the treasury 34 the call fails without change. -/
theorem Diplomacy.improveRelations_spec_witness :
    (Diplomacy.mk [⟨"Eastern Empire", 0, false, false, 600⟩,
        ⟨"Northlands", 3, true, true, 700⟩] 5).improveRelations "Northlands"
        ⟨0.1, 0.15, 0.2, 0.02, 1000, 0⟩ =
      (true, Diplomacy.mk [⟨"Eastern Empire", 0, false, false, 600⟩,
        ⟨"Northlands", 5, true, true, 700⟩] 5, ⟨0.1, 0.15, 0.2, 0.02, 965, 0⟩) ∧
    (Diplomacy.mk [⟨"Eastern Empire", 0, false, false, 600⟩,
        ⟨"Northlands", 3, true, true, 700⟩] 5).improveRelations "Northlands"
        ⟨0.1, 0.15, 0.2, 0.02, 34, 0⟩ =
      (false, Diplomacy.mk [⟨"Eastern Empire", 0, false, false, 600⟩,
        ⟨"Northlands", 3, true, true, 700⟩] 5, ⟨0.1, 0.15, 0.2, 0.02, 34, 0⟩) :=
  ⟨((Diplomacy.improveRelations_spec _ ⟨0.1, 0.15, 0.2, 0.02, 1000, 0⟩
      [⟨"Eastern Empire", 0, false, false, 600⟩] [] ⟨"Northlands", 3, true, true, 700⟩ rfl
      (by decide)).2 (by decide)).1,
    (Diplomacy.improveRelations_spec _ ⟨0.1, 0.15, 0.2, 0.02, 34, 0⟩
      [⟨"Eastern Empire", 0, false, false, 600⟩] [] ⟨"Northlands", 3, true, true, 700⟩ rfl
      (by decide)).1 (by decide)⟩

/-- C23. Let `k` be the roster entry that the name `k.name` finds (no earlier entry has
that name). `declareWar` returns true exactly when `k` is not at war. In that case `k` gets
`atWar = true`, `isAlly = false` and the relation level `max(-10, relationLevel - 5)`, its
name and strength and all other entries are kept, and the army gets `isAtWar = true` with
its other fields kept. When `k` is already at war the call returns false and leaves the
diplomacy and the army as they are. -/
theorem Diplomacy.declareWar_spec (d : Diplomacy) (army : Army)
    (before after : List Diplomacy.Kingdom) (k : Diplomacy.Kingdom)
    (hd : d.foreignKingdoms = before ++ k :: after)
    (hfirst : ∀ j ∈ before, j.name ≠ k.name) :
    ((d.declareWar k.name army).1 = true ↔ k.atWar = false) ∧
    (k.atWar = false →
      d.declareWar k.name army =
        (true,
          { d with foreignKingdoms :=
            before ++ { k with atWar := true, isAlly := false,
                               relationLevel := max (-10) (k.relationLevel - 5) } :: after },
          { army with isAtWar := true })) ∧
    (k.atWar = true → d.declareWar k.name army = (false, d, army)) := by
  have hl := Diplomacy.lookup_first before after k hfirst
  refine ⟨?_, ?_, ?_⟩
  · cases hw : k.atWar <;> simp [Diplomacy.declareWar, hd, hl, hw]
  · intro hw
    simp [Diplomacy.declareWar, hd, hl, hw, Army.setWarStatus]
  · intro hw
    simp [Diplomacy.declareWar, hd, hl, hw]

/-- C23 at a concrete roster: war on Eastern Empire (relation 7, allied, at peace) succeeds
and leaves it at relation 2, not allied, at war, with the army at war; war on Northlands
(already at war) fails without change. -/
theorem Diplomacy.declareWar_spec_witness :
    (Diplomacy.mk [⟨"Northlands", -8, false, true, 500⟩,
        ⟨"Eastern Empire", 7, true, false, 600⟩] 5).declareWar "Eastern Empire"
        ⟨50, 10, 20, 0.7, 1, false⟩ =
      (true, Diplomacy.mk [⟨"Northlands", -8, false, true, 500⟩,
        ⟨"Eastern Empire", 2, false, true, 600⟩] 5, ⟨50, 10, 20, 0.7, 1, true⟩) ∧
    (Diplomacy.mk [⟨"Northlands", -8, false, true, 500⟩,
        ⟨"Eastern Empire", 7, true, false, 600⟩] 5).declareWar "Northlands"
        ⟨50, 10, 20, 0.7, 1, false⟩ =
      (false, Diplomacy.mk [⟨"Northlands", -8, false, true, 500⟩,
        ⟨"Eastern Empire", 7, true, false, 600⟩] 5, ⟨50, 10, 20, 0.7, 1, false⟩) :=
  ⟨(Diplomacy.declareWar_spec _ ⟨50, 10, 20, 0.7, 1, false⟩
      [⟨"Northlands", -8, false, true, 500⟩] [] ⟨"Eastern Empire", 7, true, false, 600⟩ rfl
      (by decide)).2.1 rfl,
    (Diplomacy.declareWar_spec _ ⟨50, 10, 20, 0.7, 1, false⟩ []
      [⟨"Eastern Empire", 7, true, false, 600⟩] ⟨"Northlands", -8, false, true, 500⟩ rfl
      (by decide)).2.2 rfl⟩

/-- C24. Let `k` be the roster entry that the name `k.name` finds (no earlier entry has
that name) and `cost = 200 + strength / 10`, the quotient being the integer division of
C++. When `k` is not at war, and also when it is at war and `treasury < cost`, `signPeace`
returns false and leaves the economy and the diplomacy as they are. When `k` is at war and
`treasury >= cost` it returns true, the treasury becomes `treasury - cost` (the other
fields of the economy are kept), and in the roster only `atWar` (now false) and
`relationLevel` (now 0) of `k` are written. -/
theorem Diplomacy.signPeace_spec (d : Diplomacy) (e : Economy)
    (before after : List Diplomacy.Kingdom) (k : Diplomacy.Kingdom)
    (hd : d.foreignKingdoms = before ++ k :: after)
    (hfirst : ∀ j ∈ before, j.name ≠ k.name) :
    (k.atWar = false → d.signPeace k.name e = (false, d, e)) ∧
    (k.atWar = true → e.treasuryGold < 200 + Int.tdiv k.strength 10 →
      d.signPeace k.name e = (false, d, e)) ∧
    (k.atWar = true → 200 + Int.tdiv k.strength 10 ≤ e.treasuryGold →
      d.signPeace k.name e =
        (true,
          { d with foreignKingdoms :=
            before ++ { k with atWar := false, relationLevel := 0 } :: after },
          { e with treasuryGold := e.treasuryGold - (200 + Int.tdiv k.strength 10) })) := by
  have hl := Diplomacy.lookup_first before after k hfirst
  refine ⟨?_, ?_, ?_⟩
  · intro hw
    simp [Diplomacy.signPeace, hd, hl, hw]
  · intro hw h
    have h2 : ¬ (200 + Int.tdiv k.strength 10 ≤ e.treasuryGold) := by omega
    simp [Diplomacy.signPeace, hd, hl, hw, h2]
  · intro hw h
    have h3 : max 0 (e.treasuryGold - (200 + Int.tdiv k.strength 10)) =
        e.treasuryGold - (200 + Int.tdiv k.strength 10) := max_eq_right (by omega)
    simp [Diplomacy.signPeace, hd, hl, hw, h, Economy.setTreasuryGold, h3]

/-- C24 at a concrete roster (Northlands at war, relation -5, allied flag set, strength
737): with the treasury 1000 peace costs `200 + 73 = 273`, the treasury becomes 727 and
only `atWar` and `relationLevel` of Northlands change; with the treasury 272 the call fails
without change; peace with Eastern Empire, which is not at war, fails without change. -/
theorem Diplomacy.signPeace_spec_witness :
    (Diplomacy.mk [⟨"Northlands", -5, true, true, 737⟩,
        ⟨"Eastern Empire", 3, false, false, 600⟩] 5).signPeace "Northlands"
        ⟨0.1, 0.15, 0.2, 0.02, 1000, 40⟩ =
      (true, Diplomacy.mk [⟨"Northlands", 0, true, false, 737⟩,
        ⟨"Eastern Empire", 3, false, false, 600⟩] 5, ⟨0.1, 0.15, 0.2, 0.02, 727, 40⟩) ∧
    (Diplomacy.mk [⟨"Northlands", -5, true, true, 737⟩,
        ⟨"Eastern Empire", 3, false, false, 600⟩] 5).signPeace "Northlands"
        ⟨0.1, 0.15, 0.2, 0.02, 272, 40⟩ =
      (false, Diplomacy.mk [⟨"Northlands", -5, true, true, 737⟩,
        ⟨"Eastern Empire", 3, false, false, 600⟩] 5, ⟨0.1, 0.15, 0.2, 0.02, 272, 40⟩) ∧
    (Diplomacy.mk [⟨"Northlands", -5, true, true, 737⟩,
        ⟨"Eastern Empire", 3, false, false, 600⟩] 5).signPeace "Eastern Empire"
        ⟨0.1, 0.15, 0.2, 0.02, 1000, 40⟩ =
      (false, Diplomacy.mk [⟨"Northlands", -5, true, true, 737⟩,
        ⟨"Eastern Empire", 3, false, false, 600⟩] 5, ⟨0.1, 0.15, 0.2, 0.02, 1000, 40⟩) :=
  ⟨(Diplomacy.signPeace_spec _ ⟨0.1, 0.15, 0.2, 0.02, 1000, 40⟩ []
      [⟨"Eastern Empire", 3, false, false, 600⟩] ⟨"Northlands", -5, true, true, 737⟩ rfl
      (by decide)).2.2 rfl (by decide),
    (Diplomacy.signPeace_spec _ ⟨0.1, 0.15, 0.2, 0.02, 272, 40⟩ []
      [⟨"Eastern Empire", 3, false, false, 600⟩] ⟨"Northlands", -5, true, true, 737⟩ rfl
      (by decide)).2.1 rfl (by decide),
    (Diplomacy.signPeace_spec _ ⟨0.1, 0.15, 0.2, 0.02, 1000, 40⟩
      [⟨"Northlands", -5, true, true, 737⟩] [] ⟨"Eastern Empire", 3, false, false, 600⟩ rfl
      (by decide)).1 rfl⟩

/-- C25. Let `k` be the roster entry that the name `k.name` finds (no earlier entry has
that name) and `r` its relation level. `establishTrade` returns true exactly when `k` is not
at war and `r >= 2`. On failure the diplomacy, the market and the economy are left as they
are. On success the diplomacy is left as it is (no field of any roster entry changes); with
stocks and a treasury that are `>= 0` before the call, the food, the wood and the iron grow
by exactly `100 + 20r`, `50 + 10r` and `30 + 5r` and the treasury by exactly `200 + 50r`; the
gold, the stone, the names and unit values of the resources, the price fluctuation and the
other fields of the economy are kept. -/
theorem Diplomacy.establishTrade_spec (d : Diplomacy) (m : Market) (e : Economy)
    (before after : List Diplomacy.Kingdom) (k : Diplomacy.Kingdom)
    (hd : d.foreignKingdoms = before ++ k :: after)
    (hfirst : ∀ j ∈ before, j.name ≠ k.name)
    (hfood : 0 ≤ m.food.amount) (hwood : 0 ≤ m.wood.amount) (hiron : 0 ≤ m.iron.amount)
    (ht : 0 ≤ e.treasuryGold) :
    ((d.establishTrade k.name m e).1 = true ↔ (k.atWar = false ∧ 2 ≤ k.relationLevel)) ∧
    (¬ (k.atWar = false ∧ 2 ≤ k.relationLevel) →
      d.establishTrade k.name m e = (false, d, m, e)) ∧
    (k.atWar = false → 2 ≤ k.relationLevel →
      d.establishTrade k.name m e =
        (true, d,
          { m with
            food := { m.food with amount := m.food.amount + (100 + 20 * k.relationLevel) }
            wood := { m.wood with amount := m.wood.amount + (50 + 10 * k.relationLevel) }
            iron := { m.iron with amount := m.iron.amount + (30 + 5 * k.relationLevel) } },
          { e with treasuryGold := e.treasuryGold + (200 + 50 * k.relationLevel) })) := by
  have hl := Diplomacy.lookup_first before after k hfirst
  have hsucc : k.atWar = false → 2 ≤ k.relationLevel →
      d.establishTrade k.name m e =
        (true, d,
          { m with
            food := { m.food with amount := m.food.amount + (100 + 20 * k.relationLevel) }
            wood := { m.wood with amount := m.wood.amount + (50 + 10 * k.relationLevel) }
            iron := { m.iron with amount := m.iron.amount + (30 + 5 * k.relationLevel) } },
          { e with treasuryGold := e.treasuryGold + (200 + 50 * k.relationLevel) }) := by
    intro hw hr
    have h1 : ¬ (m.food.amount + (100 + k.relationLevel * 20) < 0) := by omega
    have h2 : ¬ (m.wood.amount + (50 + k.relationLevel * 10) < 0) := by omega
    have h3 : ¬ (m.iron.amount + (30 + k.relationLevel * 5) < 0) := by omega
    have h4 : max 0 (e.treasuryGold + 200 + k.relationLevel * 50) =
        e.treasuryGold + (200 + 50 * k.relationLevel) := by
      rw [max_eq_right (by omega)]; ring
    simp only [Diplomacy.establishTrade, hd, hl, hw, hr, Resource.changeAmount,
      Economy.setTreasuryGold, h1, h2, h3, h4, Bool.not_false, decide_True, Bool.and_self,
      if_true, if_false, ge_iff_le]
    have e1 : m.food.amount + (100 + k.relationLevel * 20) =
        m.food.amount + (100 + 20 * k.relationLevel) := by ring
    have e2 : m.wood.amount + (50 + k.relationLevel * 10) =
        m.wood.amount + (50 + 10 * k.relationLevel) := by ring
    have e3 : m.iron.amount + (30 + k.relationLevel * 5) =
        m.iron.amount + (30 + 5 * k.relationLevel) := by ring
    rw [e1, e2, e3]
  have hfail : ¬ (k.atWar = false ∧ 2 ≤ k.relationLevel) →
      d.establishTrade k.name m e = (false, d, m, e) := by
    intro h
    cases hw : k.atWar
    · have hr : ¬ (2 ≤ k.relationLevel) := fun hr => h ⟨hw, hr⟩
      simp [Diplomacy.establishTrade, hd, hl, hw, hr]
    · simp [Diplomacy.establishTrade, hd, hl, hw]
  refine ⟨?_, hfail, hsucc⟩
  constructor
  · intro h
    by_contra hn
    rw [hfail hn] at h
    exact Bool.false_ne_true h
  · intro h
    rw [hsucc h.1 h.2]

/-- C25 at a concrete roster and the market and economy of a fresh kingdom (food 1000, wood
500, iron 200, treasury 1000): trade with Northlands (relation 3, at peace) succeeds, the
food grows by 160 to 1160, the wood by 80 to 580, the iron by 45 to 245, the treasury by 350
to 1350, and the roster is the same; trade with Eastern Empire (relation 1) fails without
change. -/
theorem Diplomacy.establishTrade_spec_witness :
    (Diplomacy.mk [⟨"Northlands", 3, false, false, 500⟩,
        ⟨"Eastern Empire", 1, false, false, 600⟩] 5).establishTrade "Northlands"
        Market.new Economy.new =
      (true, Diplomacy.mk [⟨"Northlands", 3, false, false, 500⟩,
        ⟨"Eastern Empire", 1, false, false, 600⟩] 5,
        { Market.new with
          food := { Market.new.food with amount := 1160 }
          wood := { Market.new.wood with amount := 580 }
          iron := { Market.new.iron with amount := 245 } },
        { Economy.new with treasuryGold := 1350 }) ∧
    (Diplomacy.mk [⟨"Northlands", 3, false, false, 500⟩,
        ⟨"Eastern Empire", 1, false, false, 600⟩] 5).establishTrade "Eastern Empire"
        Market.new Economy.new =
      (false, Diplomacy.mk [⟨"Northlands", 3, false, false, 500⟩,
        ⟨"Eastern Empire", 1, false, false, 600⟩] 5, Market.new, Economy.new) :=
  ⟨(Diplomacy.establishTrade_spec _ Market.new Economy.new []
      [⟨"Eastern Empire", 1, false, false, 600⟩] ⟨"Northlands", 3, false, false, 500⟩ rfl
      (by decide) (by decide) (by decide) (by decide) (by decide)).2.2 rfl (by decide),
    (Diplomacy.establishTrade_spec _ Market.new Economy.new
      [⟨"Northlands", 3, false, false, 500⟩] [] ⟨"Eastern Empire", 1, false, false, 600⟩ rfl
      (by decide) (by decide) (by decide) (by decide) (by decide)).2.1 (by decide)⟩

/-! ## The score (C26) -/

/-- C26. For every kingdom, `calculateScore` stores
`population*10 + army*20 + treasury/10 + trunc(happiness*1000) + year*100 - debt/5 -
trunc(inflation*2000)`, the two quotients being integer divisions and the two products
`double` products, and writes nothing else;
the value is stored as it is, while `setScore(n)` stores `max(0, n)`, which is never
negative. A state with a negative stored score is reachable: in a fresh kingdom the player
takes forty loans of 1000 at the bank menu (the game is not over after any of them), then
one `advanceYear()`, a minute after the start and with every draw of `rand()` equal to 50 (so
without social mobility, event or unrest), leaves the debt 46200, the treasury 40928 and the
stored score -1068, where `setScore` of the same value stores 0. -/
theorem Kingdom.calculateScore_spec :
    (∀ k : Kingdom,
      k.calculateScore =
        { k with score :=
          (k.population.getTotal * 10 + k.army.getTotal * 20 +
            Int.tdiv k.economy.treasuryGold 10 + toInt (Double.mul k.population.happiness 1000) +
            k.gameYear * 100 - Int.tdiv k.economy.debt 5 -
            toInt (Double.mul k.economy.inflation 2000)) }) ∧
    (∀ (k : Kingdom) (n : Int), (k.setScore n).score = max 0 n ∧ 0 ≤ (k.setScore n).score) ∧
    (∀ n : Fin 41, ((fun k => displayBankMenu_takeLoan k 1000)^[n.val]
      (Kingdom.new "Camelot" 0 0 0 0)).isGameOver = false) ∧
    ((((fun k => displayBankMenu_takeLoan k 1000)^[40]
      (Kingdom.new "Camelot" 0 0 0 0)).advanceYear ⟨fun _ => 50⟩ 60).1.economy.debt = 46200 ∧
    (((fun k => displayBankMenu_takeLoan k 1000)^[40]
      (Kingdom.new "Camelot" 0 0 0 0)).advanceYear ⟨fun _ => 50⟩ 60).1.economy.treasuryGold
        = 40928 ∧
    (((fun k => displayBankMenu_takeLoan k 1000)^[40]
      (Kingdom.new "Camelot" 0 0 0 0)).advanceYear ⟨fun _ => 50⟩ 60).1.score = -1068 ∧
    ((((fun k => displayBankMenu_takeLoan k 1000)^[40]
      (Kingdom.new "Camelot" 0 0 0 0)).advanceYear ⟨fun _ => 50⟩ 60).1.setScore (-1068)).score
        = 0) := by
  refine ⟨fun k => rfl, fun k n => ⟨rfl, le_max_left _ _⟩, ?_, ?_, ?_, ?_, rfl⟩
  · decide!
  · decide!
  · decide!
  · decide!

/-- The two products of `calculateScore` are `double` products: in a fresh kingdom whose
happiness is 0.11699999999999999, `happiness * 1000` is the `double` 117, so the happiness
term is 117 and the stored score 3127, where the truncation of the exact product is 116. -/
theorem Kingdom.calculateScore_double_product :
    (Kingdom.calculateScore
      { Kingdom.new "Camelot" 0 0 0 0 with
        population := { Population.new 100 20 5 with happiness := 0.11699999999999999 }
      }).score = 3127 ∧
    toInt (Double.mul 0.11699999999999999 1000) = 117 ∧
    toInt ((0.11699999999999999 : ℚ) * 1000) = 116 := by
  decide!

/-! ## The year and the score after `advanceYear` (C27) -/

/-- C28. `collectTaxes` returns
`trunc(peasants*2*peasantRate) + trunc(merchants*10*merchantRate) + trunc(nobles*50*nobleRate)`,
each product truncated on its own, where `peasants*2`, `merchants*10` and `nobles*50` are
`int` products and the product with the rate is the `double` product; the new treasury is the
old one plus the value returned, and no other field of the economy changes. With the three
rates `>= 0` (as they are in [0, 0.5]) and non-negative cohorts the value returned is
`>= 0`. -/
theorem Economy.collectTaxes_spec (e : Economy) (population : Population) :
    (e.collectTaxes population).1 =
      toInt (Double.mul ((population.peasants * 2 : Int) : ℚ) e.peasantTaxRate) +
      toInt (Double.mul ((population.merchants * 10 : Int) : ℚ) e.merchantTaxRate) +
      toInt (Double.mul ((population.nobles * 50 : Int) : ℚ) e.nobleTaxRate) ∧
    (e.collectTaxes population).2 =
      { e with treasuryGold := e.treasuryGold + (e.collectTaxes population).1 } ∧
    (0 ≤ e.peasantTaxRate → 0 ≤ e.merchantTaxRate → 0 ≤ e.nobleTaxRate →
      0 ≤ population.peasants → 0 ≤ population.merchants → 0 ≤ population.nobles →
      0 ≤ (e.collectTaxes population).1) := by
  refine ⟨rfl, rfl, ?_⟩
  intro h1 h2 h3 h4 h5 h6
  simp only [Economy.collectTaxes]
  have t1 : 0 ≤ toInt (Double.mul ((population.peasants * 2 : Int) : ℚ) e.peasantTaxRate) :=
    toInt_nonneg (Double.zero_le_mul
      (by exact_mod_cast (by omega : 0 ≤ population.peasants * 2)) h1)
  have t2 : 0 ≤ toInt (Double.mul ((population.merchants * 10 : Int) : ℚ)
      e.merchantTaxRate) :=
    toInt_nonneg (Double.zero_le_mul
      (by exact_mod_cast (by omega : 0 ≤ population.merchants * 10)) h2)
  have t3 : 0 ≤ toInt (Double.mul ((population.nobles * 50 : Int) : ℚ) e.nobleTaxRate) :=
    toInt_nonneg (Double.zero_le_mul
      (by exact_mod_cast (by omega : 0 ≤ population.nobles * 50)) h3)
  omega

/-- C28 at the rates 0.29, 0.15, 0.20 and the population (100, 20, 5): the `double` product
`200 * 0.29` is 57.99999999999999, so the peasants pay 57, one below the truncation 58 of
the exact product; the merchants pay 30 and the nobles 50, so 137 is returned and the
treasury goes from 828 to 965. -/
theorem Economy.collectTaxes_spec_witness :
    (Economy.collectTaxes ⟨0.29, 0.15, 0.20, 0.02, 828, 0⟩ ⟨100, 20, 5, 0.05, 0.5⟩).1 = 137 ∧
    (Economy.collectTaxes ⟨0.29, 0.15, 0.20, 0.02, 828, 0⟩ ⟨100, 20, 5, 0.05, 0.5⟩).2 =
      ⟨0.29, 0.15, 0.20, 0.02, 965, 0⟩ ∧
    0 ≤ (Economy.collectTaxes ⟨0.29, 0.15, 0.20, 0.02, 828, 0⟩ ⟨100, 20, 5, 0.05, 0.5⟩).1 ∧
    toInt (Double.mul ((100 * 2 : Int) : ℚ) 0.29) = 57 ∧
    toInt (((100 * 2 : Int) : ℚ) * 0.29) = 58 := by
  have h := Economy.collectTaxes_spec ⟨0.29, 0.15, 0.20, 0.02, 828, 0⟩ ⟨100, 20, 5, 0.05, 0.5⟩
  have h1 : (Economy.collectTaxes ⟨0.29, 0.15, 0.20, 0.02, 828, 0⟩
      ⟨100, 20, 5, 0.05, 0.5⟩).1 = 137 := h.1.trans (by decide!)
  refine ⟨h1, ?_, ?_, by decide!, by decide!⟩
  · rw [h.2.1, h1]
    rfl
  · exact h.2.2 (by norm_num) (by norm_num) (by norm_num) (by decide) (by decide) (by decide)

/-! ## Yearly ranges of morale and happiness (C29) -/

/-- C29. For every army with a positive total, every population with a positive total and
every economy: after `updateMorale` the morale lies in [0.1, 1] and equals
`max(0.1, min(1, 0.7*morale + 0.1*min(1, treasury/(5*armyTotal)) + 0.1*happiness + w))` with
`w = -0.1` at war and `w = 0.05` at peace, and the other fields of the army are kept; after
`calculateHappiness` the happiness lies in [0, 1] and the other fields of the population
are kept. The positive totals keep the two quotients of the source away from a division by
zero; the ranges of the starting values are not needed. -/
theorem yearly_morale_and_happiness_ranges (a : Army) (p : Population) (e : Economy)
    (_hA : 0 < a.getTotal) (_hP : 0 < p.getTotal) :
    (0.1 ≤ (a.updateMorale e p).morale ∧ (a.updateMorale e p).morale ≤ 1) ∧
    (a.updateMorale e p).morale =
      max 0.1 (min 1
        (0.7 * a.morale + 0.1 * min 1 ((e.treasuryGold : ℚ) / (5 * (a.getTotal : ℚ))) +
          0.1 * p.happiness + (if a.isAtWar then -0.1 else 0.05))) ∧
    a.updateMorale e p = { a with morale := (a.updateMorale e p).morale } ∧
    (0 ≤ (p.calculateHappiness e a).happiness ∧ (p.calculateHappiness e a).happiness ≤ 1) ∧
    p.calculateHappiness e a = { p with happiness := (p.calculateHappiness e a).happiness } := by
  refine ⟨?_, ?_, rfl, ?_, rfl⟩
  · simp only [Army.updateMorale]
    exact ⟨le_max_left _ _, max_le (by norm_num) ((min_le_left _ _).trans (by norm_num))⟩
  · simp only [Army.updateMorale]
    congr 2
    · norm_num
    · push_cast
      ring_nf
  · simp only [Population.calculateHappiness]
    exact ⟨le_max_of_le_left (by norm_num),
      max_le (by norm_num) ((min_le_left _ _).trans (by norm_num))⟩

/-- C29 at the army (50, 10, 20; morale 0.7, at peace), the population (100, 20, 5;
happiness 0.5) and the economy (treasury 1000) of a fresh kingdom: both totals are
positive, and the new morale and the new happiness lie in their ranges. -/
theorem yearly_morale_and_happiness_ranges_witness :
    (0 < Army.new.getTotal ∧ 0 < Population.new.getTotal) ∧
    (0.1 ≤ (Army.new.updateMorale Economy.new Population.new).morale ∧
      (Army.new.updateMorale Economy.new Population.new).morale ≤ 1) ∧
    (0 ≤ (Population.new.calculateHappiness Economy.new Army.new).happiness ∧
      (Population.new.calculateHappiness Economy.new Army.new).happiness ≤ 1) :=
  ⟨⟨by decide, by decide⟩,
    (yearly_morale_and_happiness_ranges Army.new Population.new Economy.new
      (by decide) (by decide)).1,
    (yearly_morale_and_happiness_ranges Army.new Population.new Economy.new
      (by decide) (by decide)).2.2.2.1⟩

/-! ## Desertion (C30) -/

/-- Truncation of a non-negative value does not exceed it. -/
theorem toInt_le {x : ℚ} (h : 0 ≤ x) : ((toInt x : Int) : ℚ) ≤ x := by
  simp only [toInt, h, if_true]
  exact Int.floor_le x

/-- The `double` product of an `int` value `n` with `0 <= n <= 2^31` and a factor `c` in
[0, 1] exceeds the exact product by less than `2^(-18)`. -/
theorem Double.mul_int_le (n : Int) (c : ℚ) (hn0 : 0 ≤ n) (hn : n ≤ 2 ^ 31)
    (hc0 : 0 ≤ c) (hc : c ≤ 1) :
    Double.mul (n : ℚ) c ≤ (n : ℚ) * c + 1 / 2 ^ 18 := by
  have hnq0 : (0 : ℚ) ≤ (n : ℚ) := by exact_mod_cast hn0
  have hnq : (n : ℚ) ≤ 2 ^ 31 := by exact_mod_cast hn
  have hA0 := Double.round_nonneg hnq0
  have hB0 := Double.round_nonneg hc0
  have hA : Double.round (n : ℚ) ≤ (n : ℚ) + 1 / 2 ^ 21 := by
    have := Double.round_le hnq0
    norm_num at this ⊢
    linarith
  have hB : Double.round c ≤ c + 1 / 2 ^ 52 := by
    have := Double.round_le hc0
    norm_num at this ⊢
    linarith
  have hAB0 : 0 ≤ Double.round (n : ℚ) * Double.round c := mul_nonneg hA0 hB0
  have hAB : Double.round (n : ℚ) * Double.round c ≤ (n : ℚ) * c + 1 / 2 ^ 19 := by
    have h1 : Double.round (n : ℚ) * Double.round c ≤
        ((n : ℚ) + 1 / 2 ^ 21) * (c + 1 / 2 ^ 52) :=
      mul_le_mul hA hB hB0 (by positivity)
    have h2 : ((n : ℚ) + 1 / 2 ^ 21) * (c + 1 / 2 ^ 52) =
        (n : ℚ) * c + (n : ℚ) * (1 / 2 ^ 52) + 1 / 2 ^ 21 * c + 1 / 2 ^ 21 * (1 / 2 ^ 52) := by
      ring
    have h3 : (n : ℚ) * (1 / 2 ^ 52) ≤ 2 ^ 31 * (1 / 2 ^ 52) :=
      mul_le_mul_of_nonneg_right hnq (by positivity)
    have h4 : (1 : ℚ) / 2 ^ 21 * c ≤ 1 / 2 ^ 21 * 1 :=
      mul_le_mul_of_nonneg_left hc (by positivity)
    norm_num at h2 h3 h4 ⊢
    linarith
  have hABle : Double.round (n : ℚ) * Double.round c ≤ 2 ^ 31 + 1 := by
    have : (n : ℚ) * c ≤ 2 ^ 31 * 1 := mul_le_mul hnq hc hc0 (by positivity)
    norm_num at this hAB ⊢
    linarith
  have hR := Double.round_le hAB0
  have h5 : Double.round (n : ℚ) * Double.round c * (1 / 2 ^ 53) ≤ (2 ^ 31 + 1) * (1 / 2 ^ 53) :=
    mul_le_mul_of_nonneg_right hABle (by positivity)
  show Double.round (Double.round (n : ℚ) * Double.round c) ≤ _
  norm_num at hR h5 hAB ⊢
  linarith

/-- For an `int` value `n` with `0 <= n <= 2^31` and a factor `c = p / 5` with `p` of 0 to
5, the truncated `double` product `trunc(n * c)` is at most the exact product: five times
it is at most `p * n`. -/
theorem Double.toInt_mul_fifths (n p : Int) (hn0 : 0 ≤ n) (hn : n ≤ 2 ^ 31)
    (hp0 : 0 ≤ p) (hp : p ≤ 5) :
    5 * toInt (Double.mul (n : ℚ) ((p : ℚ) / 5)) ≤ p * n := by
  have hc0 : (0 : ℚ) ≤ (p : ℚ) / 5 := by
    have : (0 : ℚ) ≤ (p : ℚ) := by exact_mod_cast hp0
    positivity
  have hc : (p : ℚ) / 5 ≤ 1 := by
    have : (p : ℚ) ≤ 5 := by exact_mod_cast hp
    linarith
  have hnq0 : (0 : ℚ) ≤ (n : ℚ) := by exact_mod_cast hn0
  have h1 := Double.mul_int_le n ((p : ℚ) / 5) hn0 hn hc0 hc
  have h2 := toInt_le (Double.zero_le_mul hnq0 hc0)
  have h3 : ((5 * toInt (Double.mul (n : ℚ) ((p : ℚ) / 5)) : Int) : ℚ) < ((p * n + 1 : Int) : ℚ) := by
    push_cast
    norm_num at h1 ⊢
    linarith
  have h4 : 5 * toInt (Double.mul (n : ℚ) ((p : ℚ) / 5)) < p * n + 1 := by exact_mod_cast h3
  omega

/-- The desertion rate `(0.4 - morale) * 0.5` in `double` arithmetic, for a morale that is
`>= 0` and compares below 0.4: it is not negative and exceeds 0.2 by less than
`2^(-50)`. -/
theorem Army.desertionRate_bound (m : ℚ) (hm0 : 0 ≤ m) (hm : Double.lt m 0.4) :
    0 ≤ Double.mul (Double.sub 0.4 m) 0.5 ∧
    Double.mul (Double.sub 0.4 m) 0.5 ≤ 0.2 + 1 / 2 ^ 50 := by
  have hm' : Double.round m < Double.round 0.4 := hm
  have hrm := Double.round_nonneg hm0
  have hr4 : Double.round 0.4 ≤ 0.4 + 1 / 2 ^ 53 := by
    have := Double.round_le (by norm_num : (0 : ℚ) ≤ 0.4)
    norm_num at this ⊢
    linarith
  have hd0 : 0 ≤ Double.round 0.4 - Double.round m := by linarith
  have hs0 : 0 ≤ Double.sub 0.4 m := Double.round_nonneg hd0
  have hs : Double.sub 0.4 m ≤ 0.4 + 1 / 2 ^ 52 := by
    have := Double.round_le hd0
    have h1 : (Double.round 0.4 - Double.round m) * (1 / 2 ^ 53) ≤ 1 * (1 / 2 ^ 53) :=
      mul_le_mul_of_nonneg_right (by norm_num at hr4 ⊢; linarith) (by positivity)
    show Double.round (Double.round 0.4 - Double.round m) ≤ _
    norm_num at this h1 hr4 ⊢
    linarith
  have hrs0 := Double.round_nonneg hs0
  have hrs : Double.round (Double.sub 0.4 m) ≤ 0.4 + 1 / 2 ^ 51 := by
    have := Double.round_le hs0
    have h1 : Double.sub 0.4 m * (1 / 2 ^ 53) ≤ 1 * (1 / 2 ^ 53) :=
      mul_le_mul_of_nonneg_right (by norm_num at hs ⊢; linarith) (by positivity)
    norm_num at this h1 hs ⊢
    linarith
  have hr50 := Double.round_nonneg (by norm_num : (0 : ℚ) ≤ 0.5)
  have hr5 : Double.round 0.5 ≤ 0.5 + 1 / 2 ^ 53 := by
    have := Double.round_le (by norm_num : (0 : ℚ) ≤ 0.5)
    norm_num at this ⊢
    linarith
  have hp0 : 0 ≤ Double.round (Double.sub 0.4 m) * Double.round 0.5 := mul_nonneg hrs0 hr50
  have hp : Double.round (Double.sub 0.4 m) * Double.round 0.5 ≤ 0.2 + 1 / 2 ^ 51 := by
    have h1 : Double.round (Double.sub 0.4 m) * Double.round 0.5 ≤
        (0.4 + 1 / 2 ^ 51) * (0.5 + 1 / 2 ^ 53) :=
      mul_le_mul hrs hr5 hr50 (by positivity)
    norm_num at h1 ⊢
    linarith
  refine ⟨Double.round_nonneg hp0, ?_⟩
  have := Double.round_le hp0
  have h1 : Double.round (Double.sub 0.4 m) * Double.round 0.5 * (1 / 2 ^ 53) ≤
      1 * (1 / 2 ^ 53) :=
    mul_le_mul_of_nonneg_right (by norm_num at hp ⊢; linarith) (by positivity)
  show Double.round (Double.round (Double.sub 0.4 m) * Double.round 0.5) ≤ _
  norm_num at this h1 hp ⊢
  linarith

/-- C30. For every army with non-negative unit counts, with
`D = trunc(total * ((0.4 - morale) * 0.5))` as the code computes it, the difference and the
two products being those of `double`: when the test `morale < 0.4` fails,
`calculateDesertion` returns 0 and leaves the army as it is; when it holds the infantry
loses `min(infantry, trunc(D*0.6))`, the cavalry `min(cavalry, trunc(D*0.2))` and the
archers `min(archers, trunc(D*0.2))`, again with `double` products, the other fields are
kept and the value returned is `>= 0`, and at most `D` when `D` is in the range of `int`.
In both cases the three counts stay `>= 0` and the value returned is the decrease of the
army total; for a morale `>= 0` and a total in the range of `int` it is at most 20% of the
army total. On a morale that is itself a `double`, the test `morale < 0.4` of the code holds
exactly when the morale is below the number 0.4. -/
theorem Army.calculateDesertion_spec (a : Army)
    (hi : 0 ≤ a.infantry) (hc : 0 ≤ a.cavalry) (ha : 0 ≤ a.archers) :
    (Double.round a.morale = a.morale → (Double.lt a.morale 0.4 ↔ a.morale < 0.4)) ∧
    (¬ Double.lt a.morale 0.4 → a.calculateDesertion = (0, a)) ∧
    (Double.lt a.morale 0.4 →
      a.calculateDesertion.2 =
        { a with
          infantry := a.infantry -
            min a.infantry (toInt (Double.mul
              (toInt (Double.mul (a.getTotal : ℚ) (Double.mul (Double.sub 0.4 a.morale) 0.5)) : ℚ)
              0.6))
          cavalry := a.cavalry -
            min a.cavalry (toInt (Double.mul
              (toInt (Double.mul (a.getTotal : ℚ) (Double.mul (Double.sub 0.4 a.morale) 0.5)) : ℚ)
              0.2))
          archers := a.archers -
            min a.archers (toInt (Double.mul
              (toInt (Double.mul (a.getTotal : ℚ) (Double.mul (Double.sub 0.4 a.morale) 0.5)) : ℚ)
              0.2)) } ∧
      0 ≤ a.calculateDesertion.1 ∧
      (toInt (Double.mul (a.getTotal : ℚ) (Double.mul (Double.sub 0.4 a.morale) 0.5)) < 2 ^ 31 →
        a.calculateDesertion.1 ≤
          toInt (Double.mul (a.getTotal : ℚ) (Double.mul (Double.sub 0.4 a.morale) 0.5)))) ∧
    (0 ≤ a.calculateDesertion.2.infantry ∧ 0 ≤ a.calculateDesertion.2.cavalry ∧
      0 ≤ a.calculateDesertion.2.archers) ∧
    a.calculateDesertion.1 = a.getTotal - a.calculateDesertion.2.getTotal ∧
    (0 ≤ a.morale → a.getTotal < 2 ^ 31 →
      (a.calculateDesertion.1 : ℚ) ≤ 0.2 * (a.getTotal : ℚ)) := by
  refine ⟨fun h => Double.lt_point_four a.morale h, ?_⟩
  have htot0 : 0 ≤ a.getTotal := by simp only [Army.getTotal]; omega
  have htot : (0 : ℚ) ≤ (a.getTotal : ℚ) := by exact_mod_cast htot0
  by_cases hm : Double.lt a.morale 0.4
  · have hrate0 : 0 ≤ Double.mul (Double.sub 0.4 a.morale) 0.5 := by
      have hm' : Double.round a.morale < Double.round 0.4 := hm
      exact Double.zero_le_mul (Double.round_nonneg (by linarith)) (by norm_num)
    generalize hD :
      toInt (Double.mul (a.getTotal : ℚ) (Double.mul (Double.sub 0.4 a.morale) 0.5)) = D
    have hD0 : 0 ≤ D := by rw [← hD]; exact toInt_nonneg (Double.zero_le_mul htot hrate0)
    have hDq : (0 : ℚ) ≤ (D : ℚ) := by exact_mod_cast hD0
    have h6 : 0 ≤ toInt (Double.mul (D : ℚ) 0.6) :=
      toInt_nonneg (Double.zero_le_mul hDq (by norm_num))
    have h2 : 0 ≤ toInt (Double.mul (D : ℚ) 0.2) :=
      toInt_nonneg (Double.zero_le_mul hDq (by norm_num))
    have hsum : D < 2 ^ 31 → toInt (Double.mul (D : ℚ) 0.6) + toInt (Double.mul (D : ℚ) 0.2) +
        toInt (Double.mul (D : ℚ) 0.2) ≤ D := by
      intro hlt
      have e6 := Double.toInt_mul_fifths D 3 hD0 (by omega) (by decide) (by decide)
      have e2 := Double.toInt_mul_fifths D 1 hD0 (by omega) (by decide) (by decide)
      rw [show (((3 : Int) : ℚ) / 5) = 0.6 by norm_num] at e6
      rw [show (((1 : Int) : ℚ) / 5) = 0.2 by norm_num] at e2
      omega
    have hcd : a.calculateDesertion =
        (min a.infantry (toInt (Double.mul (D : ℚ) 0.6)) +
          min a.cavalry (toInt (Double.mul (D : ℚ) 0.2)) +
          min a.archers (toInt (Double.mul (D : ℚ) 0.2)),
          { a with
            infantry := a.infantry - min a.infantry (toInt (Double.mul (D : ℚ) 0.6))
            cavalry := a.cavalry - min a.cavalry (toInt (Double.mul (D : ℚ) 0.2))
            archers := a.archers - min a.archers (toInt (Double.mul (D : ℚ) 0.2)) }) := by
      simp only [Army.calculateDesertion, hm, if_true, hD]
    have m1 := min_le_left a.infantry (toInt (Double.mul (D : ℚ) 0.6))
    have m2 := min_le_left a.cavalry (toInt (Double.mul (D : ℚ) 0.2))
    have m3 := min_le_left a.archers (toInt (Double.mul (D : ℚ) 0.2))
    have n1 := min_le_right a.infantry (toInt (Double.mul (D : ℚ) 0.6))
    have n2 := min_le_right a.cavalry (toInt (Double.mul (D : ℚ) 0.2))
    have n3 := min_le_right a.archers (toInt (Double.mul (D : ℚ) 0.2))
    have p1 := le_min hi h6
    have p2 := le_min hc h2
    have p3 := le_min ha h2
    have hret : D < 2 ^ 31 → a.calculateDesertion.1 ≤ D := by
      intro hlt
      have := hsum hlt
      rw [hcd]; simp only; omega
    refine ⟨fun h => absurd hm h, fun _ => ⟨?_, ?_, hret⟩, ⟨?_, ?_, ?_⟩, ?_, ?_⟩
    · rw [hcd]
    · rw [hcd]; simp only; omega
    · rw [hcd]; simp only; omega
    · rw [hcd]; simp only; omega
    · rw [hcd]; simp only; omega
    · rw [hcd]; simp only [Army.getTotal]; omega
    · intro hm0 hT
      obtain ⟨-, hr⟩ := Army.desertionRate_bound a.morale hm0 hm
      have hmul := Double.mul_int_le a.getTotal _ htot0 (by omega) hrate0
        (by norm_num at hr ⊢; linarith)
      have hle := toInt_le (Double.zero_le_mul htot hrate0)
      rw [hD] at hle
      have hTq : (a.getTotal : ℚ) ≤ 2 ^ 31 := by exact_mod_cast (by omega : a.getTotal ≤ 2 ^ 31)
      have h3 : (a.getTotal : ℚ) * Double.mul (Double.sub 0.4 a.morale) 0.5 ≤
          (a.getTotal : ℚ) * (0.2 + 1 / 2 ^ 50) :=
        mul_le_mul_of_nonneg_left hr htot
      have h5 : ((5 * D : Int) : ℚ) < ((a.getTotal + 1 : Int) : ℚ) := by
        push_cast
        norm_num at hmul hle h3 hTq ⊢
        linarith
      have h5' : 5 * D < a.getTotal + 1 := by exact_mod_cast h5
      have h1 : a.calculateDesertion.1 ≤ D := hret (by omega)
      have h6 : ((5 * a.calculateDesertion.1 : Int) : ℚ) ≤ ((a.getTotal : Int) : ℚ) := by
        exact_mod_cast (by omega : 5 * a.calculateDesertion.1 ≤ a.getTotal)
      push_cast at h6
      norm_num
      linarith
  · have hcd : a.calculateDesertion = (0, a) := by
      simp only [Army.calculateDesertion, hm, if_false]
    refine ⟨fun _ => hcd, fun h => absurd h hm, ?_, ?_, ?_⟩
    · rw [hcd]; exact ⟨hi, hc, ha⟩
    · rw [hcd]; simp
    · intro _ _
      rw [hcd]
      simp only [Int.cast_zero]
      positivity

/-- C30 at the army (600, 200, 200) with morale 0.342: the `double` product
`1000 * ((0.4 - 0.342) * 0.5)` is 28.999999999999996, so `D = 28`, one below the truncation
29 of the exact product; 16 infantry, 5 cavalry and 5 archers leave, 26 is returned and the
army is (584, 195, 195); 26 is at most `D` and at most 20% of 1000. -/
theorem Army.calculateDesertion_spec_witness :
    Double.lt 0.342 0.4 ∧
    toInt (Double.mul (Army.getTotal ⟨600, 200, 200, 0.342, 1, false⟩ : ℚ)
      (Double.mul (Double.sub 0.4 0.342) 0.5)) = 28 ∧
    toInt ((Army.getTotal ⟨600, 200, 200, 0.342, 1, false⟩ : ℚ) * ((0.4 - 0.342) * 0.5)) = 29 ∧
    Army.calculateDesertion ⟨600, 200, 200, 0.342, 1, false⟩ =
      (26, ⟨584, 195, 195, 0.342, 1, false⟩) ∧
    (Army.calculateDesertion ⟨600, 200, 200, 0.342, 1, false⟩).1 ≤
      toInt (Double.mul (Army.getTotal ⟨600, 200, 200, 0.342, 1, false⟩ : ℚ)
        (Double.mul (Double.sub 0.4 0.342) 0.5)) ∧
    (0 ≤ (Army.calculateDesertion ⟨600, 200, 200, 0.342, 1, false⟩).2.infantry ∧
      0 ≤ (Army.calculateDesertion ⟨600, 200, 200, 0.342, 1, false⟩).2.cavalry ∧
      0 ≤ (Army.calculateDesertion ⟨600, 200, 200, 0.342, 1, false⟩).2.archers) ∧
    (Army.calculateDesertion ⟨600, 200, 200, 0.342, 1, false⟩).1 =
      Army.getTotal ⟨600, 200, 200, 0.342, 1, false⟩ -
        (Army.calculateDesertion ⟨600, 200, 200, 0.342, 1, false⟩).2.getTotal ∧
    ((Army.calculateDesertion ⟨600, 200, 200, 0.342, 1, false⟩).1 : ℚ) ≤
      0.2 * (Army.getTotal ⟨600, 200, 200, 0.342, 1, false⟩ : ℚ) :=
  ⟨by decide!, by decide!, by decide!, by decide!,
    ((Army.calculateDesertion_spec ⟨600, 200, 200, 0.342, 1, false⟩ (by decide) (by decide)
      (by decide)).2.2.1 (by decide!)).2.2 (by decide!),
    (Army.calculateDesertion_spec ⟨600, 200, 200, 0.342, 1, false⟩ (by decide) (by decide)
      (by decide)).2.2.2.1,
    (Army.calculateDesertion_spec ⟨600, 200, 200, 0.342, 1, false⟩ (by decide) (by decide)
      (by decide)).2.2.2.2.1,
    (Army.calculateDesertion_spec ⟨600, 200, 200, 0.342, 1, false⟩ (by decide) (by decide)
      (by decide)).2.2.2.2.2 (by norm_num) (by decide)⟩

/-! ## Consumption (C31) -/

/-- A stock lowered by `min(stock, c)` through `changeAmount` is `stock - min(stock, c)`,
which is never negative; the floor of `changeAmount` does not apply. -/
theorem Resource.changeAmount_neg_min (r : Resource) (c : Int) :
    r.changeAmount (-(min r.amount c)) = { r with amount := r.amount - min r.amount c } ∧
    0 ≤ r.amount - min r.amount c := by
  have h : 0 ≤ r.amount - min r.amount c := sub_nonneg.mpr (min_le_left _ _)
  refine ⟨?_, h⟩
  simp only [Resource.changeAmount]
  rw [if_neg (by omega)]
  rfl

/-- C31. With `P` the population total and `A` the army total, `consumeResources` lowers the
food by `min(food, P + 2*A)`, the wood by `min(wood, P/10)` and the iron by
`min(iron, P/50 + A/20)` (the quotients are the integer divisions of C++), and writes
nothing else: the stone, the gold, the names, the unit values and the price fluctuation are
kept. The food, the wood and the iron are `>= 0` afterwards whatever they were; the stone
and the gold are `>= 0` afterwards when they were before. -/
theorem Market.consumeResources_spec (m : Market) (population : Population) (army : Army) :
    m.consumeResources population army =
      { m with
        food := { m.food with
          amount := m.food.amount - min m.food.amount (population.getTotal + 2 * army.getTotal) },
        wood := { m.wood with
          amount := m.wood.amount - min m.wood.amount (Int.tdiv population.getTotal 10) },
        iron := { m.iron with
          amount := m.iron.amount -
            min m.iron.amount (Int.tdiv population.getTotal 50 + Int.tdiv army.getTotal 20) } } ∧
    (m.consumeResources population army).stone = m.stone ∧
    (m.consumeResources population army).gold = m.gold ∧
    0 ≤ (m.consumeResources population army).food.amount ∧
    0 ≤ (m.consumeResources population army).wood.amount ∧
    0 ≤ (m.consumeResources population army).iron.amount ∧
    (0 ≤ m.stone.amount → 0 ≤ (m.consumeResources population army).stone.amount) ∧
    (0 ≤ m.gold.amount → 0 ≤ (m.consumeResources population army).gold.amount) := by
  have h : m.consumeResources population army =
      { m with
        food := { m.food with
          amount := m.food.amount - min m.food.amount (population.getTotal + 2 * army.getTotal) },
        wood := { m.wood with
          amount := m.wood.amount - min m.wood.amount (Int.tdiv population.getTotal 10) },
        iron := { m.iron with
          amount := m.iron.amount -
            min m.iron.amount (Int.tdiv population.getTotal 50 + Int.tdiv army.getTotal 20) } } := by
    simp only [Market.consumeResources, (Resource.changeAmount_neg_min _ _).1]
    rw [mul_comm army.getTotal 2]
  refine ⟨h, rfl, rfl, ?_, ?_, ?_, fun hs => hs, fun hg => hg⟩
  · rw [h]; exact sub_nonneg.mpr (min_le_left _ _)
  · rw [h]; exact sub_nonneg.mpr (min_le_left _ _)
  · rw [h]; exact sub_nonneg.mpr (min_le_left _ _)

/-- C31 at the market of a fresh kingdom with the iron down to 3, the population
(105, 21, 5) and the army (50, 10, 20): the food loses `131 + 160 = 291`, the wood
`131/10 = 13`, the iron `min(3, 2 + 4) = 3`; the stone and the gold stay at 300 and 500. -/
theorem Market.consumeResources_spec_witness :
    (Market.consumeResources { Market.new with iron := Iron 3 } ⟨105, 21, 5, 0.05, 0.5⟩
      Army.new).food.amount = 709 ∧
    (Market.consumeResources { Market.new with iron := Iron 3 } ⟨105, 21, 5, 0.05, 0.5⟩
      Army.new).wood.amount = 487 ∧
    (Market.consumeResources { Market.new with iron := Iron 3 } ⟨105, 21, 5, 0.05, 0.5⟩
      Army.new).iron.amount = 0 ∧
    0 ≤ (Market.consumeResources { Market.new with iron := Iron 3 } ⟨105, 21, 5, 0.05, 0.5⟩
      Army.new).stone.amount ∧
    0 ≤ (Market.consumeResources { Market.new with iron := Iron 3 } ⟨105, 21, 5, 0.05, 0.5⟩
      Army.new).gold.amount := by
  have h := Market.consumeResources_spec { Market.new with iron := Iron 3 }
    ⟨105, 21, 5, 0.05, 0.5⟩ Army.new
  refine ⟨?_, ?_, ?_, h.2.2.2.2.2.2.1 (by decide), h.2.2.2.2.2.2.2 (by decide)⟩
  · rw [h.1]; decide
  · rw [h.1]; decide
  · rw [h.1]; decide

/-! ## The passive effect of the King (C32) -/

/-- C32. For every kingdom and every King, `King::applyEffects` makes the inflation
`max(0.01, min(0.2, inflation - 0.01*intelligence))`, the morale
`max(0, min(1, morale + 0.01*strength))` and the happiness
`max(0, min(1, happiness + 0.02*royalBloodline))`, and writes no other field of the
kingdom (treasury, debt, tax rates, cohort counts, unit counts, roster, market, bank,
ruler, year and score are kept). The charisma has no effect: two Kings that differ in
charisma (and in name and years in power) leave the same kingdom and the same random
stream. -/
theorem King.applyEffects_spec (kingdom : Kingdom) (intelligence strength royalBloodline : Int) :
    King.applyEffects intelligence strength royalBloodline kingdom =
      { kingdom with
        economy := { kingdom.economy with
          inflation := max 0.01 (min 0.2 (kingdom.economy.inflation - 0.01 * intelligence)) },
        army := { kingdom.army with
          morale := max 0 (min 1 (kingdom.army.morale + 0.01 * strength)) },
        population := { kingdom.population with
          happiness := max 0 (min 1 (kingdom.population.happiness + 0.02 * royalBloodline)) } } ∧
    (∀ (name name2 : String) (charisma charisma2 yearsInPower yearsInPower2 : Int) (rand : Rand),
      Leader.applyEffects
          (.King name charisma intelligence strength royalBloodline yearsInPower) kingdom rand =
        Leader.applyEffects
          (.King name2 charisma2 intelligence strength royalBloodline yearsInPower2)
          kingdom rand) := by
  refine ⟨?_, fun _ _ _ _ _ _ _ => rfl⟩
  have h1 : ∀ x : ℚ, max 0.01 (min 0.2 (max 0.01 x)) = max 0.01 (min 0.2 x) := by
    intro x
    rcases le_total x 0.01 with h | h
    · rw [max_eq_left h, min_eq_right (by norm_num), max_eq_left (le_refl _),
        min_eq_right (h.trans (by norm_num)), max_eq_left h]
    · rw [max_eq_right h]
  have h2 : ∀ x : ℚ, max 0.0 (min 1.0 (min 1.0 x)) = max 0 (min 1 x) := by
    intro x
    rw [← min_assoc, min_self]
    norm_num
  simp only [King.applyEffects, Economy.setInflation, Army.setMorale, Population.setHappiness,
    h1, h2]
  have e1 : kingdom.economy.inflation - (intelligence : ℚ) * 0.01 =
      kingdom.economy.inflation - 0.01 * intelligence := by ring
  have e2 : kingdom.army.morale + (strength : ℚ) * 0.01 =
      kingdom.army.morale + 0.01 * strength := by ring
  have e3 : kingdom.population.happiness + (royalBloodline : ℚ) * 0.02 =
      kingdom.population.happiness + 0.02 * royalBloodline := by ring
  rw [e1, e2, e3]

/-! ## The plague (C33) -/

/-- C33, the code at concrete inputs. On the population (80, 15, 5) the plague reports
`L = 100/10 = 10` lives and leaves (72, 13, 4): 11 people are gone. In a game: a fresh
kingdom passes two years without event (every draw 50); in the third year (every draw 10)
the population before the event block is (120, 22, 5), the cooldown check succeeds, the
event drawn is the plague, it reports `L = 147/10 = 14` lives and leaves (109, 19, 4): the
total goes from 147 to 132, so 15 people are gone. The merchants and the nobles are set to
the truncated remainder `(int)(count - share)`, which rounds their loss up. The growth rate
in the third year is the `double` 0.075. -/
theorem RandomEvents.describePlagueEvent_removes_more :
    (Int.tdiv (Population.getTotal ⟨80, 15, 5, 0.05, 0.5⟩) 10 = 10 ∧
      (RandomEvents.describePlagueEvent
        { Kingdom.new "Camelot" 0 0 0 0 with population := ⟨80, 15, 5, 0.05, 0.5⟩ }).population =
        ⟨72, 13, 4, 0.05, 0.3⟩) ∧
    ((advanceYear.beforeEvent
        ((((Kingdom.new "Camelot" 0 0 0 0).advanceYear ⟨fun _ => 50⟩ 60).1.advanceYear
          ⟨fun _ => 50⟩ 120).1) ⟨fun _ => 10⟩).1.population =
        ⟨120, 22, 5, Double.round 0.075, 1⟩ ∧
      Int.tdiv (Population.getTotal ⟨120, 22, 5, Double.round 0.075, 1⟩) 10 = 14 ∧
      (advanceYear.randomEvent 180 (advanceYear.beforeEvent
        ((((Kingdom.new "Camelot" 0 0 0 0).advanceYear ⟨fun _ => 50⟩ 60).1.advanceYear
          ⟨fun _ => 50⟩ 120).1) ⟨fun _ => 10⟩)).1.population =
        (RandomEvents.describePlagueEvent
          (advanceYear.beforeEvent
            ((((Kingdom.new "Camelot" 0 0 0 0).advanceYear ⟨fun _ => 50⟩ 60).1.advanceYear
              ⟨fun _ => 50⟩ 120).1) ⟨fun _ => 10⟩).1).population ∧
      ((((Kingdom.new "Camelot" 0 0 0 0).advanceYear ⟨fun _ => 50⟩ 60).1.advanceYear
          ⟨fun _ => 50⟩ 120).1.advanceYear ⟨fun _ => 10⟩ 180).1.population =
        ⟨109, 19, 4, Double.round 0.075, 0.8⟩) := by
  decide!

/-! ## Riots (C34) -/

/-- C34. For every economy whose three tax rates are at most 0.5 and whose inflation is at
most 0.2, and every population whose happiness is `>= 0` (so for all values in the
documented ranges): `calculateUnrest` returns at most 0.55, and `checkRiots` returns false
whatever `rand()` would return, without calling it. -/
theorem Economy.checkRiots_never (e : Economy) (population : Population) (rand : Rand)
    (hpr : e.peasantTaxRate ≤ 0.5) (hmr : e.merchantTaxRate ≤ 0.5) (hnr : e.nobleTaxRate ≤ 0.5)
    (hi : e.inflation ≤ 0.2) (hh : 0 ≤ population.happiness) :
    e.calculateUnrest population ≤ 0.55 ∧ e.checkRiots population rand = (false, rand) := by
  have hu : e.calculateUnrest population ≤ 0.55 := by
    simp only [Economy.calculateUnrest]
    refine (min_le_right _ _).trans ?_
    norm_num at hpr hmr hnr hi ⊢
    linarith
  refine ⟨hu, ?_⟩
  simp only [Economy.checkRiots]
  rw [if_neg]
  have : (0.55 : ℚ) < 0.6 := by norm_num
  exact not_lt.mpr (hu.trans this.le)

/-- C34 at the top of the ranges: the tax rates 0.5, the inflation 0.2 and the happiness 0
give the unrest 0.55 exactly, and there is no riot. -/
theorem Economy.checkRiots_never_witness :
    Economy.calculateUnrest ⟨0.5, 0.5, 0.5, 0.2, 1000, 0⟩ ⟨100, 20, 5, 0.05, 0⟩ = 0.55 ∧
    Economy.calculateUnrest ⟨0.5, 0.5, 0.5, 0.2, 1000, 0⟩ ⟨100, 20, 5, 0.05, 0⟩ ≤ 0.55 ∧
    Economy.checkRiots ⟨0.5, 0.5, 0.5, 0.2, 1000, 0⟩ ⟨100, 20, 5, 0.05, 0⟩ ⟨fun _ => 0⟩ =
      (false, ⟨fun _ => 0⟩) :=
  ⟨by norm_num [Economy.calculateUnrest],
    (Economy.checkRiots_never ⟨0.5, 0.5, 0.5, 0.2, 1000, 0⟩ ⟨100, 20, 5, 0.05, 0⟩ ⟨fun _ => 0⟩
      (by norm_num) (by norm_num) (by norm_num) (by norm_num) (by norm_num)).1,
    (Economy.checkRiots_never ⟨0.5, 0.5, 0.5, 0.2, 1000, 0⟩ ⟨100, 20, 5, 0.05, 0⟩ ⟨fun _ => 0⟩
      (by norm_num) (by norm_num) (by norm_num) (by norm_num) (by norm_num)).2⟩

/-! ## The direction of market transactions (C35) -/

/-- C35, the claim at a concrete input: in the market and economy of a fresh kingdom (food
1000 at unit value 1, treasury 1000), `buyResource("Food", -10)` returns true, raises the
treasury to 1010 and lowers the food to 990, and `sellResource("Food", -10)` returns true,
lowers the treasury to 991 and raises the food to 1010. -/
theorem Market.transactions_negative_amount :
    Market.new.food.amount = 1000 ∧ Economy.new.treasuryGold = 1000 ∧
    (Market.new.buyResource "Food" (-10) Economy.new).1 = true ∧
    (Market.new.buyResource "Food" (-10) Economy.new).2.2.treasuryGold = 1010 ∧
    (Market.new.buyResource "Food" (-10) Economy.new).2.1.food.amount = 990 ∧
    (Market.new.sellResource "Food" (-10) Economy.new).1 = true ∧
    (Market.new.sellResource "Food" (-10) Economy.new).2.2.treasuryGold = 991 ∧
    (Market.new.sellResource "Food" (-10) Economy.new).2.1.food.amount = 1010 := by
  decide!

/-- C35, as amended. In a market whose unit values are `>= 0`, for every resource type
(known or not) and every amount `n >= 0`: `buyResource` leaves a treasury that is at most
the one before and stocks that are at least the ones before, and `sellResource` leaves a
treasury that is at least the one before and stocks that are at most the ones before. The
resource menu only passes amounts from 1 to 1000 to these operations, so for every integer
typed there, negative ones included, the same holds for the kingdom. -/
theorem Market.transactions_direction (k : Kingdom) (resourceType : String)
    (hv : ∀ u, 0 ≤ (k.market.get u).value) :
    (∀ n : Int, 0 ≤ n →
      ((k.market.buyResource resourceType n k.economy).2.2.treasuryGold ≤
          k.economy.treasuryGold ∧
        ∀ u, (k.market.get u).amount ≤
          ((k.market.buyResource resourceType n k.economy).2.1.get u).amount) ∧
      (k.economy.treasuryGold ≤
          (k.market.sellResource resourceType n k.economy).2.2.treasuryGold ∧
        ∀ u, ((k.market.sellResource resourceType n k.economy).2.1.get u).amount ≤
          (k.market.get u).amount)) ∧
    (∀ a : Int,
      ((displayResourceManagementMenu_buyResource k resourceType a).economy.treasuryGold ≤
          k.economy.treasuryGold ∧
        ∀ u, (k.market.get u).amount ≤
          ((displayResourceManagementMenu_buyResource k resourceType a).market.get u).amount) ∧
      (k.economy.treasuryGold ≤
          (displayResourceManagementMenu_sellResource k resourceType a).economy.treasuryGold ∧
        ∀ u, ((displayResourceManagementMenu_sellResource k resourceType a).market.get u).amount ≤
          (k.market.get u).amount)) := by
  have core : ∀ n : Int, 0 ≤ n →
      ((k.market.buyResource resourceType n k.economy).2.2.treasuryGold ≤
          k.economy.treasuryGold ∧
        ∀ u, (k.market.get u).amount ≤
          ((k.market.buyResource resourceType n k.economy).2.1.get u).amount) ∧
      (k.economy.treasuryGold ≤
          (k.market.sellResource resourceType n k.economy).2.2.treasuryGold ∧
        ∀ u, ((k.market.sellResource resourceType n k.economy).2.1.get u).amount ≤
          (k.market.get u).amount) := by
    intro n hn
    have hnq : (0 : ℚ) ≤ (n : ℚ) := by exact_mod_cast hn
    cases hs : Market.select resourceType with
    | none =>
      simp only [Market.buyResource, Market.sellResource, hs]
      exact ⟨⟨le_refl _, fun _ => le_refl _⟩, le_refl _, fun _ => le_refl _⟩
    | some t =>
      have hcost : 0 ≤ toInt (Double.mul n (k.market.get t).value) :=
        toInt_nonneg (Double.zero_le_mul hnq (hv t))
      have hrev : 0 ≤ toInt (Double.mul (Double.mul n (k.market.get t).value) 0.9) :=
        toInt_nonneg (Double.zero_le_mul (Double.zero_le_mul hnq (hv t)) (by norm_num))
      refine ⟨?_, ?_⟩
      · simp only [Market.buyResource, hs]
        split_ifs with hc
        · refine ⟨?_, fun u => ?_⟩
          · simp only [Economy.setTreasuryGold]
            rw [max_eq_right (by omega)]
            omega
          · by_cases hu : u = t
            · subst hu
              simp only [Market.get_set_same, Resource.changeAmount]
              split_ifs <;> omega
            · rw [Market.get_set_other _ _ _ _ hu]
        · exact ⟨le_refl _, fun _ => le_refl _⟩
      · simp only [Market.sellResource, hs]
        split_ifs with hc
        · exact ⟨le_refl _, fun _ => le_refl _⟩
        · refine ⟨?_, fun u => ?_⟩
          · simp only [Economy.setTreasuryGold]
            exact le_max_of_le_right (by omega)
          · by_cases hu : u = t
            · subst hu
              simp only [Market.get_set_same, Resource.changeAmount]
              split_ifs <;> omega
            · rw [Market.get_set_other _ _ _ _ hu]
  refine ⟨core, fun a => ?_⟩
  by_cases ha : a < 1 ∨ a > 1000
  · simp only [displayResourceManagementMenu_buyResource,
      displayResourceManagementMenu_sellResource, ha, if_true]
    exact ⟨⟨le_refl _, fun _ => le_refl _⟩, le_refl _, fun _ => le_refl _⟩
  · simp only [displayResourceManagementMenu_buyResource,
      displayResourceManagementMenu_sellResource, ha, if_false]
    exact core a (by omega)

/-- C35, as amended, in a fresh kingdom: buying 10 food (cost 10) and selling 10 food
(revenue 9) move the gold and the food the right way, and the amount -10 typed at the
resource menu is refused. -/
theorem Market.transactions_direction_witness :
    ((Market.new.buyResource "Food" 10 Economy.new).2.2.treasuryGold ≤ 1000 ∧
      1000 ≤ (Market.new.buyResource "Food" 10 Economy.new).2.1.food.amount) ∧
    (1000 ≤ (Market.new.sellResource "Food" 10 Economy.new).2.2.treasuryGold ∧
      (Market.new.sellResource "Food" 10 Economy.new).2.1.food.amount ≤ 1000) ∧
    displayResourceManagementMenu_buyResource (Kingdom.new "Camelot" 0 0 0 0) "Food" (-10) =
      Kingdom.new "Camelot" 0 0 0 0 := by
  have h := (Market.transactions_direction (Kingdom.new "Camelot" 0 0 0 0) "Food"
    (by intro u; cases u <;> decide!)).1 10 (by decide)
  exact ⟨⟨h.1.1, h.1.2 .food⟩, ⟨h.2.1, h.2.2 .food⟩, rfl⟩

/-! ## The price of better relations (C36) -/

/-- C36, the code at a concrete input. In a fresh kingdom (treasury 1000) war is declared on
Northlands at the diplomacy menu, which leaves its relation level at -5; improving the
relations with Northlands at the same menu then succeeds with the cost `20 + 5*(-5) = -5`:
the treasury rises from 1000 to 1005 and the relation level becomes -3. At the relation
level -10 the cost is -30: a treasury of 0 becomes 30. -/
theorem Diplomacy.improveRelations_pays_player :
    ((displayDiplomacyMenu_declareWar (Kingdom.new "Camelot" 0 0 0 0) "Northlands").2.diplomacy.foreignKingdoms =
        [⟨"Northlands", -5, false, true, 500⟩, ⟨"Eastern Empire", 0, false, false, 600⟩,
          ⟨"Southern Realms", 0, false, false, 400⟩] ∧
      (displayDiplomacyMenu_declareWar (Kingdom.new "Camelot" 0 0 0 0)
        "Northlands").2.economy.treasuryGold = 1000 ∧
      (displayDiplomacyMenu_improveRelations
        (displayDiplomacyMenu_declareWar (Kingdom.new "Camelot" 0 0 0 0) "Northlands").2
        "Northlands").1 = true ∧
      (displayDiplomacyMenu_improveRelations
        (displayDiplomacyMenu_declareWar (Kingdom.new "Camelot" 0 0 0 0) "Northlands").2
        "Northlands").2.economy.treasuryGold = 1005 ∧
      (displayDiplomacyMenu_improveRelations
        (displayDiplomacyMenu_declareWar (Kingdom.new "Camelot" 0 0 0 0) "Northlands").2
        "Northlands").2.diplomacy.foreignKingdoms =
        [⟨"Northlands", -3, false, true, 500⟩, ⟨"Eastern Empire", 0, false, false, 600⟩,
          ⟨"Southern Realms", 0, false, false, 400⟩]) ∧
    ((Diplomacy.mk [⟨"Northlands", -10, false, true, 500⟩] 5).improveRelations "Northlands"
        { Economy.new with treasuryGold := 0 }).1 = true ∧
    ((Diplomacy.mk [⟨"Northlands", -10, false, true, 500⟩] 5).improveRelations "Northlands"
        { Economy.new with treasuryGold := 0 }).2.2.treasuryGold = 30 := by
  decide!

/-! ## Allies are not enemies (C37) -/

/-- Replacing the entry found by the search loop by an entry that is not both allied and at
war keeps the roster free of such entries. -/
theorem Diplomacy.exclusion_replace (ks before after : List Diplomacy.Kingdom)
    (k k2 : Diplomacy.Kingdom) (hks : ks = before ++ k :: after)
    (h : ∀ j ∈ ks, ¬ (j.isAlly = true ∧ j.atWar = true))
    (h2 : ¬ (k2.isAlly = true ∧ k2.atWar = true)) :
    ∀ j ∈ before ++ k2 :: after, ¬ (j.isAlly = true ∧ j.atWar = true) := by
  intro j hj
  rw [List.mem_append, List.mem_cons] at hj
  rcases hj with hj | rfl | hj
  · exact h j (by rw [hks]; simp [hj])
  · exact h2
  · exact h j (by rw [hks]; simp [hj])

/-- The yearly loop writes neither `isAlly` nor `atWar`. -/
theorem Diplomacy.updateEntries_exclusion (army : Army) (ks : List Diplomacy.Kingdom)
    (rand : Rand) (h : ∀ j ∈ ks, ¬ (j.isAlly = true ∧ j.atWar = true)) :
    ∀ j ∈ (Diplomacy.updateEntries army ks rand).1, ¬ (j.isAlly = true ∧ j.atWar = true) := by
  induction ks generalizing rand with
  | nil => intro j hj; simp [Diplomacy.updateEntries] at hj
  | cons k ks ih =>
    have hk := h k (List.mem_cons_self _ _)
    have hks : ∀ j ∈ ks, ¬ (j.isAlly = true ∧ j.atWar = true) :=
      fun j hj => h j (List.mem_cons_of_mem _ hj)
    intro j hj
    simp only [Diplomacy.updateEntries, List.mem_cons] at hj
    rcases hj with rfl | hj
    · split_ifs <;> exact hk
    · exact ih _ hks j hj

/-- One call keeps the roster free of entries that are both allied and at war. -/
theorem Diplomacy.call_exclusion (d : Diplomacy) (c : Diplomacy.Call)
    (h : ∀ j ∈ d.foreignKingdoms, ¬ (j.isAlly = true ∧ j.atWar = true)) :
    ∀ j ∈ (d.call c).foreignKingdoms, ¬ (j.isAlly = true ∧ j.atWar = true) := by
  cases c with
  | addKingdom name strength =>
    simp only [Diplomacy.call, Diplomacy.addKingdom]
    split_ifs
    · intro j hj
      rw [List.mem_append, List.mem_singleton] at hj
      rcases hj with hj | rfl
      · exact h j hj
      · simp
    · exact h
  | improveRelations kingdomName economy =>
    simp only [Diplomacy.call, Diplomacy.improveRelations]
    cases hl : Diplomacy.lookup kingdomName d.foreignKingdoms with
    | none => exact h
    | some r =>
      obtain ⟨b, k, a⟩ := r
      have hks := Diplomacy.lookup_eq _ _ _ _ _ hl
      have hk := h k (by rw [hks]; simp)
      dsimp only
      split_ifs
      · exact Diplomacy.exclusion_replace _ _ _ _ _ hks h hk
      · exact h
  | declareWar kingdomName army =>
    simp only [Diplomacy.call, Diplomacy.declareWar]
    cases hl : Diplomacy.lookup kingdomName d.foreignKingdoms with
    | none => exact h
    | some r =>
      obtain ⟨b, k, a⟩ := r
      have hks := Diplomacy.lookup_eq _ _ _ _ _ hl
      dsimp only
      split_ifs
      · exact Diplomacy.exclusion_replace _ _ _ _ _ hks h (by simp)
      · exact h
  | signPeace kingdomName economy =>
    simp only [Diplomacy.call, Diplomacy.signPeace]
    cases hl : Diplomacy.lookup kingdomName d.foreignKingdoms with
    | none => exact h
    | some r =>
      obtain ⟨b, k, a⟩ := r
      have hks := Diplomacy.lookup_eq _ _ _ _ _ hl
      dsimp only
      split_ifs
      · exact Diplomacy.exclusion_replace _ _ _ _ _ hks h (by simp)
      · exact h
      · exact h
  | formAlliance kingdomName =>
    simp only [Diplomacy.call, Diplomacy.formAlliance]
    cases hl : Diplomacy.lookup kingdomName d.foreignKingdoms with
    | none => exact h
    | some r =>
      obtain ⟨b, k, a⟩ := r
      have hks := Diplomacy.lookup_eq _ _ _ _ _ hl
      dsimp only
      split_ifs with hc
      · refine Diplomacy.exclusion_replace _ _ _ _ _ hks h ?_
        simp only [Bool.and_eq_true, Bool.not_eq_true', decide_eq_true_eq] at hc
        simp [hc.1]
      · exact h
  | establishTrade kingdomName market economy =>
    simp only [Diplomacy.call, Diplomacy.establishTrade]
    cases hl : Diplomacy.lookup kingdomName d.foreignKingdoms with
    | none => exact h
    | some r =>
      obtain ⟨b, k, a⟩ := r
      dsimp only
      split_ifs
      · exact h
      · exact h
  | updateDiplomacy army economy rand =>
    simp only [Diplomacy.call, Diplomacy.updateDiplomacy]
    exact Diplomacy.updateEntries_exclusion army _ rand h

/-- A sequence of calls keeps the roster free of entries that are both allied and at war. -/
theorem Diplomacy.calls_exclusion (cs : List Diplomacy.Call) (d : Diplomacy)
    (h : ∀ j ∈ d.foreignKingdoms, ¬ (j.isAlly = true ∧ j.atWar = true)) :
    ∀ j ∈ (d.calls cs).foreignKingdoms, ¬ (j.isAlly = true ∧ j.atWar = true) := by
  induction cs generalizing d with
  | nil => exact h
  | cons c cs ih => exact ih (d.call c) (Diplomacy.call_exclusion d c h)

/-- C37. Starting from the roster built by the `Diplomacy` constructor (whatever its three
random draws and its capacity), after every finite sequence of `improveRelations`,
`declareWar`, `signPeace`, `formAlliance`, `establishTrade` and `updateDiplomacy` calls
(and of `addKingdom` calls as well), with any arguments and any random draws, no roster
entry has `isAlly` and `atWar` both true. -/
theorem Diplomacy.ally_war_exclusion (r1 r2 r3 maxForeignKingdoms : Int)
    (cs : List Diplomacy.Call) :
    ∀ j ∈ ((Diplomacy.new r1 r2 r3 maxForeignKingdoms).calls cs).foreignKingdoms,
      ¬ (j.isAlly = true ∧ j.atWar = true) := by
  apply Diplomacy.calls_exclusion
  have h0 : ∀ j ∈ (⟨[], maxForeignKingdoms⟩ : Diplomacy).foreignKingdoms,
      ¬ (j.isAlly = true ∧ j.atWar = true) := by
    intro j hj
    simp at hj
  exact Diplomacy.call_exclusion _ (.addKingdom "Southern Realms" (400 + r3 % 400))
    (Diplomacy.call_exclusion _ (.addKingdom "Eastern Empire" (600 + r2 % 600))
      (Diplomacy.call_exclusion _ (.addKingdom "Northlands" (500 + r1 % 500)) h0))

/-- C37 at a concrete input: after the constructor, relations with Northlands are improved
three times, an alliance is formed with it (relation 7, allied), and then war is declared on
it: Northlands is at war and no longer an ally. -/
theorem Diplomacy.ally_war_exclusion_witness :
    ((Diplomacy.new 0 0 0 5).calls
      [.improveRelations "Northlands" Economy.new, .improveRelations "Northlands" Economy.new,
        .improveRelations "Northlands" Economy.new, .formAlliance "Northlands"]).foreignKingdoms =
      [⟨"Northlands", 7, true, false, 500⟩, ⟨"Eastern Empire", 0, false, false, 600⟩,
        ⟨"Southern Realms", 0, false, false, 400⟩] ∧
    ((Diplomacy.new 0 0 0 5).calls
      [.improveRelations "Northlands" Economy.new, .improveRelations "Northlands" Economy.new,
        .improveRelations "Northlands" Economy.new, .formAlliance "Northlands",
        .declareWar "Northlands" Army.new]).foreignKingdoms =
      [⟨"Northlands", 2, false, true, 500⟩, ⟨"Eastern Empire", 0, false, false, 600⟩,
        ⟨"Southern Realms", 0, false, false, 400⟩] ∧
    ¬ ((⟨"Northlands", 2, false, true, 500⟩ : Diplomacy.Kingdom).isAlly = true ∧
      (⟨"Northlands", 2, false, true, 500⟩ : Diplomacy.Kingdom).atWar = true) := by
  have hroster : ((Diplomacy.new 0 0 0 5).calls
      [.improveRelations "Northlands" Economy.new, .improveRelations "Northlands" Economy.new,
        .improveRelations "Northlands" Economy.new, .formAlliance "Northlands",
        .declareWar "Northlands" Army.new]).foreignKingdoms =
      [⟨"Northlands", 2, false, true, 500⟩, ⟨"Eastern Empire", 0, false, false, 600⟩,
        ⟨"Southern Realms", 0, false, false, 400⟩] := by
    decide
  exact ⟨by decide, hroster, Diplomacy.ally_war_exclusion 0 0 0 5 _ _
    (by rw [hroster]; simp)⟩

/-! ## Growth of the population (C38) -/

/-- C38. For every population with non-negative cohorts, every economy and army and every
outcome of the two social-mobility draws: the growth rate after `updatePopulation`, `g`,
lies in [0.01, 0.2]; the total afterwards is the sum of the three grown cohorts,
`peasants + trunc(peasants*g) + merchants + trunc(merchants*(g*0.8)) + nobles +
trunc(nobles*(g*0.5))`, each product being the `double` product the code computes, whether
or not people moved between cohorts (the transfers leave the total as it is); and the total
afterwards is at least the total before. The ranges of the happiness and of the tax rates
are not needed. -/
theorem Population.updatePopulation_total (p : Population) (economy : Economy) (army : Army)
    (rand : Rand) (hp : 0 ≤ p.peasants) (hm : 0 ≤ p.merchants) (hn : 0 ≤ p.nobles) :
    (0.01 ≤ (p.updatePopulation economy army rand).1.growthRate ∧
      (p.updatePopulation economy army rand).1.growthRate ≤ 0.2) ∧
    (p.updatePopulation economy army rand).1.getTotal =
      p.peasants +
        toInt (Double.mul p.peasants (p.updatePopulation economy army rand).1.growthRate) +
      (p.merchants +
        toInt (Double.mul p.merchants
          (Double.mul (p.updatePopulation economy army rand).1.growthRate 0.8))) +
      (p.nobles +
        toInt (Double.mul p.nobles
          (Double.mul (p.updatePopulation economy army rand).1.growthRate 0.5))) ∧
    p.getTotal ≤ (p.updatePopulation economy army rand).1.getTotal := by
  have hg : (0.01 : ℚ) ≤ (p.updatePopulation economy army rand).1.growthRate ∧
      (p.updatePopulation economy army rand).1.growthRate ≤ 0.2 := by
    simp only [Population.updatePopulation]
    exact ⟨le_max_left _ _, max_le (by norm_num) (min_le_left _ _)⟩
  have hg0 : (0 : ℚ) ≤ (p.updatePopulation economy army rand).1.growthRate :=
    le_trans (by norm_num) hg.1
  have ht : (p.updatePopulation economy army rand).1.getTotal =
      p.peasants +
        toInt (Double.mul p.peasants (p.updatePopulation economy army rand).1.growthRate) +
      (p.merchants +
        toInt (Double.mul p.merchants
          (Double.mul (p.updatePopulation economy army rand).1.growthRate 0.8))) +
      (p.nobles +
        toInt (Double.mul p.nobles
          (Double.mul (p.updatePopulation economy army rand).1.growthRate 0.5))) := by
    simp only [Population.updatePopulation, Population.getTotal]
    split_ifs <;> omega
  refine ⟨hg, ht, ?_⟩
  rw [ht]
  have t1 : 0 ≤
      toInt (Double.mul p.peasants (p.updatePopulation economy army rand).1.growthRate) :=
    toInt_nonneg (Double.zero_le_mul (by exact_mod_cast hp) hg0)
  have t2 : 0 ≤ toInt (Double.mul p.merchants
      (Double.mul (p.updatePopulation economy army rand).1.growthRate 0.8)) :=
    toInt_nonneg (Double.zero_le_mul (by exact_mod_cast hm)
      (Double.zero_le_mul hg0 (by norm_num)))
  have t3 : 0 ≤ toInt (Double.mul p.nobles
      (Double.mul (p.updatePopulation economy army rand).1.growthRate 0.5)) :=
    toInt_nonneg (Double.zero_le_mul (by exact_mod_cast hn)
      (Double.zero_le_mul hg0 (by norm_num)))
  simp only [Population.getTotal]
  omega

/-- C38 at the population (40, 100, 80) with happiness 0 under the default tax rates,
neither social-mobility draw successful: the growth rate is the `double`
0.024999999999999998, just below 0.025, so `40 * g` and `80 * (g * 0.5)` stay below 1 and
only the merchants grow; the cohorts end at (40, 102, 80) and the total goes from 220 to
222, where the truncations of the exact products at `g = 0.025` would give 224. -/
theorem Population.updatePopulation_total_witness :
    (Population.updatePopulation ⟨40, 100, 80, 0.05, 0⟩ Economy.new Army.new ⟨fun _ => 50⟩).1 =
      ⟨40, 102, 80, 7205759403792793 / 2 ^ 58, 0⟩ ∧
    (Population.updatePopulation ⟨40, 100, 80, 0.05, 0⟩ Economy.new Army.new
      ⟨fun _ => 50⟩).1.getTotal = 222 ∧
    (40 + toInt ((40 : ℚ) * 0.025) + (100 + toInt ((100 : ℚ) * (0.025 * 0.8))) +
      (80 + toInt ((80 : ℚ) * (0.025 * 0.5))) : Int) = 224 ∧
    Population.getTotal ⟨40, 100, 80, 0.05, 0⟩ ≤
      (Population.updatePopulation ⟨40, 100, 80, 0.05, 0⟩ Economy.new Army.new
        ⟨fun _ => 50⟩).1.getTotal :=
  ⟨by decide!, by decide!, by decide!,
    (Population.updatePopulation_total ⟨40, 100, 80, 0.05, 0⟩ Economy.new Army.new
      ⟨fun _ => 50⟩ (by decide) (by decide) (by decide)).2.2⟩

/-! ## The debt through a year (C39) -/

/-- No event writes the debt. -/
theorem RandomEvents.applyEvent_debt (event : EventType) (kingdom : Kingdom) (rand : Rand) :
    (RandomEvents.applyEvent event kingdom rand).1.economy.debt = kingdom.economy.debt := by
  cases event
  case ASSASSINATION =>
    simp only [RandomEvents.applyEvent, RandomEvents.describeAssassinationEvent]
    split_ifs <;> rfl
  case DISCOVERY =>
    simp only [RandomEvents.applyEvent, RandomEvents.describeDiscoveryEvent]
  all_goals rfl

/-- The corruption step does not write the debt. -/
theorem advanceYear.attemptCorruption_debt (s : Kingdom × Rand) :
    (advanceYear.attemptCorruption s).1.economy.debt = s.1.economy.debt := by
  simp only [advanceYear.attemptCorruption, Bank.attemptCorruption]
  split_ifs <;> rfl

/-- The effects of the ruler do not write the debt. -/
theorem advanceYear.rulerEffects_debt (s : Kingdom × Rand) :
    (advanceYear.rulerEffects s).1.economy.debt = s.1.economy.debt := by
  simp only [advanceYear.rulerEffects]
  cases s.1.ruler with
  | King n c i st b y => rfl
  | Commander n c i st t l => rfl
  | GuildLeader n c i st g b =>
    simp only [Leader.applyEffects, GuildLeader.applyEffects]
    split_ifs <;> rfl

/-- The effect of the iron does not write the debt. -/
theorem advanceYear.ironEffects_debt (s : Kingdom × Rand) :
    (advanceYear.ironEffects s).1.economy.debt = s.1.economy.debt := by
  simp only [advanceYear.ironEffects, Iron.applyEffects]
  split_ifs <;> rfl

/-- The random event block does not write the debt. -/
theorem advanceYear.randomEvent_debt (now : Int) (s : Kingdom × Rand) :
    (advanceYear.randomEvent now s).1.economy.debt = s.1.economy.debt := by
  simp only [advanceYear.randomEvent]
  split_ifs
  · rw [RandomEvents.applyEvent_debt]
  · rfl

/-- The unrest block does not write the debt. -/
theorem advanceYear.unrest_debt (s : Kingdom × Rand) :
    (advanceYear.unrest s).1.economy.debt = s.1.economy.debt := by
  simp only [advanceYear.unrest]
  split_ifs <;> rfl

/-- C39. For every kingdom with a debt `d >= 0` and a bank interest rate `>= 0` (it lies in
[0.01, 0.2]), every outcome of the random draws and every time of the cooldown check: with
`d1 = d + trunc(d * 0.1)`, the debt after `updateEconomy` is `d1`, the debt after
`updateInterest` is `d1 + trunc(d1 * interestRate)` with the `double` product of the debt
and the rate, this is also the debt that `advanceYear()` leaves, and it is at least `d`.
Each of the other statements of `advanceYear` leaves the debt of every state as it is. -/
theorem Kingdom.advanceYear_debt (k : Kingdom) (rand : Rand) (now : Int)
    (hd : 0 ≤ k.economy.debt) (hr : 0 ≤ k.bank.interestRate) :
    (k.advanceYear rand now).1.economy.debt =
      (k.economy.debt + toInt (k.economy.debt * 0.1)) +
        toInt (Double.mul ((k.economy.debt + toInt (k.economy.debt * 0.1) : Int) : ℚ)
          k.bank.interestRate) ∧
    k.economy.debt ≤ (k.advanceYear rand now).1.economy.debt ∧
    (∀ s : Kingdom × Rand, 0 ≤ s.1.economy.debt →
      (advanceYear.updateEconomy s).1.economy.debt =
        s.1.economy.debt + toInt (s.1.economy.debt * 0.1)) ∧
    (∀ s : Kingdom × Rand, 0 ≤ s.1.economy.debt → 0 ≤ s.1.bank.interestRate →
      (advanceYear.updateInterest s).1.economy.debt =
        s.1.economy.debt + toInt (Double.mul s.1.economy.debt s.1.bank.interestRate)) ∧
    (∀ s : Kingdom × Rand,
      (advanceYear.updatePopulation s).1.economy.debt = s.1.economy.debt ∧
      (advanceYear.calculateHappiness s).1.economy.debt = s.1.economy.debt ∧
      (advanceYear.updateMorale s).1.economy.debt = s.1.economy.debt ∧
      (advanceYear.updatePrices s).1.economy.debt = s.1.economy.debt ∧
      (advanceYear.produceResources s).1.economy.debt = s.1.economy.debt ∧
      (advanceYear.consumeResources s).1.economy.debt = s.1.economy.debt ∧
      (advanceYear.updateDiplomacy s).1.economy.debt = s.1.economy.debt ∧
      (advanceYear.attemptCorruption s).1.economy.debt = s.1.economy.debt ∧
      (advanceYear.rulerEffects s).1.economy.debt = s.1.economy.debt ∧
      (advanceYear.foodEffects s).1.economy.debt = s.1.economy.debt ∧
      (advanceYear.ironEffects s).1.economy.debt = s.1.economy.debt ∧
      (advanceYear.randomEvent now s).1.economy.debt = s.1.economy.debt ∧
      (advanceYear.unrest s).1.economy.debt = s.1.economy.debt ∧
      (advanceYear.collectTaxes s).1.economy.debt = s.1.economy.debt ∧
      (advanceYear.nextYear s).1.economy.debt = s.1.economy.debt) := by
  have hue : ∀ s : Kingdom × Rand, 0 ≤ s.1.economy.debt →
      (advanceYear.updateEconomy s).1.economy.debt =
        s.1.economy.debt + toInt (s.1.economy.debt * 0.1) := by
    intro s hs
    simp only [advanceYear.updateEconomy, Economy.updateEconomy]
    split_ifs with h
    · rfl
    · have h0 : s.1.economy.debt = 0 := by omega
      rw [h0]
      norm_num [toInt]
  have hui : ∀ s : Kingdom × Rand, 0 ≤ s.1.economy.debt → 0 ≤ s.1.bank.interestRate →
      (advanceYear.updateInterest s).1.economy.debt =
        s.1.economy.debt + toInt (Double.mul s.1.economy.debt s.1.bank.interestRate) := by
    intro s hs hb
    have : 0 ≤ toInt (Double.mul (s.1.economy.debt : ℚ) s.1.bank.interestRate) :=
      toInt_nonneg (Double.zero_le_mul (by exact_mod_cast hs) hb)
    simp only [advanceYear.updateInterest, Bank.updateInterest, Economy.setDebt]
    exact max_eq_right (by omega)
  have hfin : (k.advanceYear rand now).1.economy.debt =
      (k.economy.debt + toInt (k.economy.debt * 0.1)) +
        toInt (Double.mul ((k.economy.debt + toInt (k.economy.debt * 0.1) : Int) : ℚ)
          k.bank.interestRate) := by
    have h1 : 0 ≤ toInt ((k.economy.debt : ℚ) * 0.1) :=
      toInt_nonneg (mul_nonneg (by exact_mod_cast hd) (by norm_num))
    unfold Kingdom.advanceYear
    show (advanceYear.unrest _).1.economy.debt = _
    rw [advanceYear.unrest_debt, advanceYear.randomEvent_debt, advanceYear.ironEffects_debt]
    show (advanceYear.rulerEffects _).1.economy.debt = _
    rw [advanceYear.rulerEffects_debt, advanceYear.attemptCorruption_debt]
    have h2 := hue (advanceYear.updateMorale (advanceYear.calculateHappiness
      (advanceYear.updatePopulation (k, rand)))) hd
    rw [hui _ (by
      show 0 ≤ (advanceYear.updateEconomy _).1.economy.debt
      rw [h2]
      exact add_nonneg hd h1) hr]
    show (advanceYear.updateEconomy _).1.economy.debt +
      toInt (Double.mul ((advanceYear.updateEconomy _).1.economy.debt : ℚ)
        k.bank.interestRate) = _
    rw [h2]
    rfl
  refine ⟨hfin, ?_, hue, hui, fun s => ⟨rfl, rfl, rfl, rfl, rfl, rfl, rfl,
    advanceYear.attemptCorruption_debt s, advanceYear.rulerEffects_debt s, rfl,
    advanceYear.ironEffects_debt s, advanceYear.randomEvent_debt now s,
    advanceYear.unrest_debt s, rfl, rfl⟩⟩
  rw [hfin]
  have h1 : 0 ≤ toInt ((k.economy.debt : ℚ) * 0.1) :=
    toInt_nonneg (mul_nonneg (by exact_mod_cast hd) (by norm_num))
  have h2 : 0 ≤ toInt (Double.mul ((k.economy.debt + toInt (k.economy.debt * 0.1) : Int) : ℚ)
      k.bank.interestRate) :=
    toInt_nonneg (Double.zero_le_mul (by exact_mod_cast add_nonneg hd h1) hr)
  omega

/-- C39 for a fresh kingdom with a debt of 1364 and the interest rate 0.018, which
`setInterestRate` accepts: the debt goes from 1364 to 1500 and then, the `double` product
`1500 * 0.018` being 26.999999999999996, to 1526, which is what `advanceYear()` leaves; the
truncation of the exact product would give 1527. -/
theorem Kingdom.advanceYear_debt_witness :
    (Bank.new 0.05 1000).setInterestRate 0.018 =
      { Bank.new 0.05 1000 with interestRate := 0.018 } ∧
    (Kingdom.advanceYear
      { Kingdom.new "Camelot" 0 0 0 0 with
        economy := { Economy.new 0.10 0.15 0.20 with debt := 1364 },
        bank := { Bank.new 0.05 1000 with interestRate := 0.018 } }
      ⟨fun _ => 50⟩ 60).1.economy.debt = 1526 ∧
    (1364 + toInt ((1364 : ℚ) * 0.1) : Int) = 1500 ∧
    toInt (Double.mul 1500 0.018) = 26 ∧
    toInt ((1500 : ℚ) * 0.018) = 27 ∧
    (1364 : Int) ≤ (Kingdom.advanceYear
      { Kingdom.new "Camelot" 0 0 0 0 with
        economy := { Economy.new 0.10 0.15 0.20 with debt := 1364 },
        bank := { Bank.new 0.05 1000 with interestRate := 0.018 } }
      ⟨fun _ => 50⟩ 60).1.economy.debt :=
  ⟨by decide!,
    (Kingdom.advanceYear_debt
      { Kingdom.new "Camelot" 0 0 0 0 with
        economy := { Economy.new 0.10 0.15 0.20 with debt := 1364 },
        bank := { Bank.new 0.05 1000 with interestRate := 0.018 } }
      ⟨fun _ => 50⟩ 60 (by decide) (by decide!)).1.trans (by decide!),
    by decide!, by decide!, by decide!,
    (Kingdom.advanceYear_debt
      { Kingdom.new "Camelot" 0 0 0 0 with
        economy := { Economy.new 0.10 0.15 0.20 with debt := 1364 },
        bank := { Bank.new 0.05 1000 with interestRate := 0.018 } }
      ⟨fun _ => 50⟩ 60 (by decide) (by decide!)).2.1⟩

end Stronghold
